import Mathlib

/-! # Edge cloud provider: UPnP-IGD load balancer

A shallow embedding of `pkg/cloudprovider/providers/edge/edge_loadbalancer.go`
(and of the mock client of `edge_loadbalancer_test.go`), followed by theorems
about the port-mapping diff (`patchLoadBalancer`) and the registry operations
built on `ensureOrUpdateLoadBalancer`.

Modelling conventions.

* The Kubernetes API types are declared outside the repository; they are
  modelled with the fields the provider reads. `ServicePort` has the fields
  `Name`, `Protocol`, `Port`, `TargetPort` and `NodePort`, all compared by
  value.
* Go `int32` fields of the Kubernetes API are `Int`; the conversion
  `uint16(x)` is `uint16 x = (x % 65536).toNat`.
* `net.IP` values enter the code only through `.String()`; the fields
  `localAddress` and `externalIP` hold that string.
* A Go `error` is a value of the inductive type `error`, one constructor per
  `fmt.Errorf` site plus `error.client` for whatever the UPnP client returns;
  `nil` is `none`.
* The UPnP client is an external, stateful collaborator. It is modelled by the
  answers it gives as a function of the calls it has received so far
  (`clientInterface`); the calls received so far are kept in
  `LoadBalancer.clientLog`.
* Every operation reports the client calls it issued as a list of
  `callRecord`: the arguments passed to the client together with the
  `portMapping` the call was issued for.
* The Go map `map[portMapping]bool` used as a set is a duplicate-free list of
  keys. Go leaves the iteration order of `range` over a map unspecified: the
  order is chosen by an explicit schedule (`rangeOrder`), and every
  permutation of the keys is produced by some schedule.
* The registry `map[string]loadBalancer` is a function `String → Option _`.
-/

namespace Edge

/-! ## Constants -/

/-- LoadBalancerTypeAnnotation annotates load balancer type. -/
def LoadBalancerTypeAnnotation : String := "midokura.com/load-balancer-type"

/-- UPnP IGD load balancer type. -/
def UniversalPlugAndPlayInternetGatewayDeviceLoadBalancerType : String := "upnp-igd"

/-- The lease duration passed with every added port mapping. -/
def infinitePortMappingLeaseDuration : Nat := 0

/-- The constant `k8s.ServiceTypeLoadBalancer`. -/
def ServiceTypeLoadBalancer : String := "LoadBalancer"

/-- The constant `k8s.ClusterIPNone`. -/
def ClusterIPNone : String := "None"

/-- The constant `k8s.IPv4Protocol`. -/
def IPv4Protocol : String := "IPv4"

/-- The constant `k8s.ServiceAffinityNone`. -/
def ServiceAffinityNone : String := "None"

/-- The constant `k8s.ProtocolTCP`. -/
def ProtocolTCP : String := "TCP"

/-- The constant `k8s.ProtocolUDP`. -/
def ProtocolUDP : String := "UDP"

/-- The constant `k8s.NodeInternalIP`. -/
def NodeInternalIP : String := "InternalIP"

/-- The constant `intstr.Int`. -/
def intstrInt : Int := 0

/-- The constant `intstr.String`. -/
def intstrString : Int := 1

/-! ## Kubernetes API types (the fields the provider reads) -/

/-- The type `intstr.IntOrString`; `Typ` is the Go field `Type`. -/
structure IntOrString where
  Typ : Int
  IntVal : Int
  StrVal : String
deriving DecidableEq, Repr

/-- The type `k8s.ServicePort`. -/
structure ServicePort where
  Name : String
  Protocol : String
  Port : Int
  TargetPort : IntOrString
  NodePort : Int
deriving DecidableEq, Repr

/-- The type `k8s.ServiceSpec`; `Typ` is the Go field `Type`. -/
structure ServiceSpec where
  Ports : List ServicePort
  ClusterIP : String
  Typ : String
  SessionAffinity : String
  LoadBalancerIP : String
  LoadBalancerSourceRanges : List String
  PublishNotReadyAddresses : Bool
  IPFamily : Option String
deriving DecidableEq, Repr

/-- The type `k8s.Service`; the annotation map is an association list read
with `List.lookup`. -/
structure Service where
  Namespace : String
  Name : String
  Annotations : List (String × String)
  Spec : ServiceSpec
deriving DecidableEq, Repr

/-- The type `k8s.NodeAddress`; `Typ` is the Go field `Type`. -/
structure NodeAddress where
  Typ : String
  Address : String
deriving DecidableEq, Repr

/-- The type `k8s.NodeStatus`. -/
structure NodeStatus where
  Addresses : List NodeAddress
deriving DecidableEq, Repr

/-- The type `k8s.Node`. -/
structure Node where
  Status : NodeStatus
deriving DecidableEq, Repr

/-- The type `k8s.LoadBalancerIngress`. -/
structure LoadBalancerIngress where
  IP : String
  Hostname : String
deriving DecidableEq, Repr

/-- The type `k8s.LoadBalancerStatus`. -/
structure LoadBalancerStatus where
  Ingress : List LoadBalancerIngress
deriving DecidableEq, Repr

/-! ## Provider types -/

/-- Errors returned by the provider: one constructor per `fmt.Errorf` site,
and `client` for an error returned by the UPnP client. -/
inductive error where
  | annotationMissing (name : String)
  | unsupportedLoadBalancerType (name lbType : String)
  | serviceTypeMustBeLoadBalancer (name : String)
  | clusterIPMustNotBeNone (name : String)
  | publishNotReadyAddressesMustBeFalse (name : String)
  | ipFamilyNotSupported (name family : String)
  | sessionAffinityNotSupported (name affinity : String)
  | unsupportedProtocol (name portName protocol : String)
  | unsupportedTargetPortTypeString (name portName : String)
  | nodePortMustBeDeclared (name portName : String)
  | updateNotFound (name : String)
  | noNodesWithInternalIP (clientIP : String)
  | localClientCantBeUsed (clientIP nodeIP : String)
  | client (msg : String)
deriving DecidableEq, Repr

/-- The struct `portMapping`: the data for a port mapping. It is the key type
of the Go map in `patchLoadBalancer`, so two port mappings are the same key
exactly when all their fields are equal. -/
structure portMapping where
  servicePort : ServicePort
  nodeIP : String
deriving DecidableEq, Repr

/-- The struct `loadBalancer`: the data for a Kubernetes load balancer. -/
structure loadBalancer where
  portMappings : List portMapping
  status : LoadBalancerStatus
deriving DecidableEq, Repr

/-- One call received by the UPnP client, with its arguments in the order of
the Go interface `clientInterface`. -/
inductive clientCall where
  | AddPortMapping (host : String) (externalPort : Nat) (proto : String)
      (internalPort : Nat) (internalIP : String) (enabled : Bool) (desc : String)
      (lease : Nat)
  | DeletePortMapping (host : String) (externalPort : Nat) (proto : String)
deriving DecidableEq, Repr

/-- Whether a call is an `AddPortMapping`. -/
def clientCall.isAdd : clientCall → Bool
  | .AddPortMapping .. => true
  | .DeletePortMapping .. => false

/-- Whether a call is a `DeletePortMapping`. -/
def clientCall.isDelete : clientCall → Bool
  | .AddPortMapping .. => false
  | .DeletePortMapping .. => true

/-- The interface `clientInterface`. Each method gets, as first argument, the
calls the client has received before this one, and answers `none` (Go `nil`)
or an error. -/
structure clientInterface where
  AddPortMapping : List clientCall → String → Nat → String → Nat → String → Bool →
    String → Nat → Option error
  DeletePortMapping : List clientCall → String → Nat → String → Option error

/-- The answer of the client to a call, given the calls received before. -/
def clientInterface.respond (c : clientInterface) (hist : List clientCall) :
    clientCall → Option error
  | .AddPortMapping host externalPort proto internalPort internalIP enabled desc lease =>
      c.AddPortMapping hist host externalPort proto internalPort internalIP enabled desc lease
  | .DeletePortMapping host externalPort proto =>
      c.DeletePortMapping hist host externalPort proto

/-- A client call together with the port mapping it was issued for. -/
structure callRecord where
  pm : portMapping
  call : clientCall
deriving DecidableEq, Repr

/-- The struct `LoadBalancer`: the data of the Load Balancer API of the
provider. `clientLog` is the list of calls the client has received so far. -/
structure LoadBalancer where
  client : clientInterface
  clientLog : List clientCall
  localAddress : String
  externalIP : String
  loadBalancers : String → Option loadBalancer

/-- The struct `mapping` of the test file. -/
structure mapping where
  proto : String
  externalPort : Nat
  internalIP : String
  internalPort : Nat
deriving DecidableEq, Repr

/-- The `mockClient` of the test file: both methods record the call and
return `nil`. -/
def mockClient : clientInterface where
  AddPortMapping := fun _ _ _ _ _ _ _ _ _ => none
  DeletePortMapping := fun _ _ _ _ => none

/-- The field `removed` of the `mockClient` after it received `calls`. -/
def mockClientRemoved (calls : List clientCall) : List mapping :=
  calls.filterMap fun
    | .DeletePortMapping _ externalPort proto => some ⟨proto, externalPort, "", 0⟩
    | .AddPortMapping .. => none

/-- The field `added` of the `mockClient` after it received `calls`. -/
def mockClientAdded (calls : List clientCall) : List mapping :=
  calls.filterMap fun
    | .AddPortMapping _ externalPort proto internalPort internalIP _ _ _ =>
        some ⟨proto, externalPort, internalIP, internalPort⟩
    | .DeletePortMapping .. => none

/-! ## Helpers of the embedding -/

/-- The Go conversion `uint16(x)` of an `int32`. -/
def uint16 (x : Int) : Nat := (x % 65536).toNat

/-- The order in which `range` visits the keys `keys` of a Go map under the
schedule `order`: at each step the schedule picks one of the keys not yet
visited; when the schedule is exhausted the remaining keys are visited in the
stored order. -/
def rangeOrder {α : Type} [DecidableEq α] : List Nat → List α → List α
  | [], keys => keys
  | _ :: _, [] => []
  | n :: order, k :: keys =>
      let picked := (k :: keys).getD (n % (keys.length + 1)) k
      picked :: rangeOrder order ((k :: keys).erase picked)

/-- The Go statement `m[k] = true` on a map used as a set. -/
def mapInsert (m : List portMapping) (k : portMapping) : List portMapping :=
  if k ∈ m then m else m ++ [k]

/-- The Go statement `delete(m, k)`. -/
def mapDelete (m : List portMapping) (k : portMapping) : List portMapping :=
  m.filter (fun x => x ≠ k)

/-! ## The provider -/

/-- The method `GetLoadBalancerName`. -/
def GetLoadBalancerName (clusterName : String) (service : Service) : String :=
  clusterName ++ "/" ++ service.Namespace ++ "/" ++ service.Name

/-- The method `GetLoadBalancer`: status and existence (its error is always
`nil`). -/
def GetLoadBalancer (lb : LoadBalancer) (clusterName : String) (service : Service) :
    Option LoadBalancerStatus × Bool :=
  let name := GetLoadBalancerName clusterName service
  match lb.loadBalancers name with
  | some loadBalancer => (some loadBalancer.status, true)
  | none => (none, false)

/-- The function `newLoadBalancerWithoutPortMappings`. -/
def newLoadBalancerWithoutPortMappings (externalIP : String) : loadBalancer :=
  { portMappings := []
    status := { Ingress := [{ IP := externalIP, Hostname := "" }] } }

/-- The function `newLoadBalancerWithPortMappings`. -/
def newLoadBalancerWithPortMappings (service : Service) (nodeIP : String)
    (externalIP : String) : loadBalancer :=
  { portMappings := service.Spec.Ports.map fun servicePort =>
      { servicePort := servicePort, nodeIP := nodeIP }
    status := { Ingress := [{ IP := externalIP, Hostname := "" }] } }

/-- The per-port checks of `validateParametersOfLoadBalancer` (the body of its
loop over `service.Spec.Ports`). -/
def validatePort (name : String) (port : ServicePort) : Option error :=
  if port.Protocol ≠ ProtocolTCP ∧ port.Protocol ≠ ProtocolUDP then
    some (.unsupportedProtocol name port.Name port.Protocol)
  else if port.TargetPort.Typ = intstrString then
    some (.unsupportedTargetPortTypeString name port.Name)
  else if port.NodePort = 0 then
    some (.nodePortMustBeDeclared name port.Name)
  else none

/-- The loop over `service.Spec.Ports` of `validateParametersOfLoadBalancer`:
the first error met, if any. -/
def validatePorts (name : String) : List ServicePort → Option error
  | [] => none
  | port :: ports =>
      match validatePort name port with
      | some err => some err
      | none => validatePorts name ports

/-- The method `validateParametersOfLoadBalancer` (logging left out). -/
def validateParametersOfLoadBalancer (clusterName : String) (service : Service)
    (_nodes : List Node) : Option error :=
  let loadBalancerName := GetLoadBalancerName clusterName service
  match service.Annotations.lookup LoadBalancerTypeAnnotation with
  | none => some (.annotationMissing loadBalancerName)
  | some lbType =>
    if lbType ≠ UniversalPlugAndPlayInternetGatewayDeviceLoadBalancerType then
      some (.unsupportedLoadBalancerType loadBalancerName lbType)
    else if service.Spec.Typ ≠ ServiceTypeLoadBalancer then
      some (.serviceTypeMustBeLoadBalancer loadBalancerName)
    else if service.Spec.ClusterIP = ClusterIPNone then
      some (.clusterIPMustNotBeNone loadBalancerName)
    else if service.Spec.PublishNotReadyAddresses ≠ false then
      some (.publishNotReadyAddressesMustBeFalse loadBalancerName)
    else if service.Spec.IPFamily ≠ none ∧ service.Spec.IPFamily ≠ some IPv4Protocol then
      some (.ipFamilyNotSupported loadBalancerName (service.Spec.IPFamily.getD ""))
    else if service.Spec.SessionAffinity ≠ ServiceAffinityNone then
      some (.sessionAffinityNotSupported loadBalancerName service.Spec.SessionAffinity)
    else validatePorts loadBalancerName service.Spec.Ports

/-- The method `addPortMapping`: the call issued to the client, if any, and
the error returned. -/
def addPortMapping (lb : LoadBalancer) (hist : List clientCall) (descPrefix : String)
    (pm : portMapping) : Option callRecord × Option error :=
  let clientIP := lb.localAddress
  if pm.nodeIP ≠ "" ∧ pm.nodeIP ≠ clientIP then
    (none, some (.localClientCantBeUsed clientIP pm.nodeIP))
  else
    let externalPort := uint16 pm.servicePort.Port
    let proto := pm.servicePort.Protocol
    let internalPort := uint16 pm.servicePort.NodePort
    let internalIP := pm.nodeIP
    let desc := descPrefix ++ "/" ++ pm.servicePort.Name
    let lease := infinitePortMappingLeaseDuration
    (some ⟨pm, .AddPortMapping "" externalPort proto internalPort internalIP true desc lease⟩,
      lb.client.AddPortMapping hist "" externalPort proto internalPort internalIP true desc lease)

/-- The method `deletePortMapping`: the call issued to the client and the
error returned. -/
def deletePortMapping (lb : LoadBalancer) (hist : List clientCall) (pm : portMapping) :
    callRecord × Option error :=
  let externalPort := uint16 pm.servicePort.Port
  let proto := pm.servicePort.Protocol
  (⟨pm, .DeletePortMapping "" externalPort proto⟩,
    lb.client.DeletePortMapping hist "" externalPort proto)

/-- The function `getFirstNodeInternalIP`. -/
def getFirstNodeInternalIP (clientIP : String) : List Node → Except error String
  | [] => .error (.noNodesWithInternalIP clientIP)
  | node :: nodes =>
      match node.Status.Addresses.find?
          (fun address => address.Typ = NodeInternalIP ∧ address.Address = clientIP) with
      | some address => .ok address.Address
      | none => getFirstNodeInternalIP clientIP nodes

/-- The first loop of `patchLoadBalancer`, over `old`: the calls issued, the
map `toBeAddedPortMappings` when the loop ends, and the error that ended it,
if any. -/
def patchRemoveLoop (lb : LoadBalancer) :
    List clientCall → List portMapping → List portMapping →
      List callRecord × List portMapping × Option error
  | _, [], toBeAddedPortMappings => ([], toBeAddedPortMappings, none)
  | hist, pm :: old, toBeAddedPortMappings =>
      if pm ∈ toBeAddedPortMappings then
        patchRemoveLoop lb hist old (mapDelete toBeAddedPortMappings pm)
      else
        match deletePortMapping lb hist pm with
        | (record, some err) => ([record], toBeAddedPortMappings, some err)
        | (record, none) =>
            let (calls, m, err) :=
              patchRemoveLoop lb (hist ++ [record.call]) old toBeAddedPortMappings
            (record :: calls, m, err)

/-- The second loop of `patchLoadBalancer`, over the keys of the map in the
order in which `range` visits them: the calls issued and the error that ended
the loop, if any. -/
def patchAddLoop (lb : LoadBalancer) (descPrefix : String) :
    List clientCall → List portMapping → List callRecord × Option error
  | _, [] => ([], none)
  | hist, pm :: rest =>
      match addPortMapping lb hist descPrefix pm with
      | (record, some err) => (record.toList, some err)
      | (none, none) => patchAddLoop lb descPrefix hist rest
      | (some record, none) =>
          let (calls, err) := patchAddLoop lb descPrefix (hist ++ [record.call]) rest
          (record :: calls, err)

/-- The method `patchLoadBalancer`: the client calls it issues, in order, and
the error it returns. `hist` is the list of calls the client received before,
`order` the schedule of the `range` over the map. -/
def patchLoadBalancer (lb : LoadBalancer) (hist : List clientCall) (order : List Nat)
    (descPrefix : String) (old new : List portMapping) : List callRecord × Option error :=
  let toBeAddedPortMappings := new.foldl mapInsert []
  match patchRemoveLoop lb hist old toBeAddedPortMappings with
  | (removes, _, some err) => (removes, some err)
  | (removes, toBeAddedPortMappings, none) =>
      let (adds, err) := patchAddLoop lb descPrefix (hist ++ removes.map (·.call))
        (rangeOrder order toBeAddedPortMappings)
      (removes ++ adds, err)

/-- What one call of an API method yields: the provider after the call, the
client calls issued by the call, the load balancer returned by
`ensureOrUpdateLoadBalancer` and the error. -/
structure result where
  lb : LoadBalancer
  calls : List callRecord
  loadBalancer : Option loadBalancer
  err : Option error

/-- The method `ensureOrUpdateLoadBalancer`. -/
def ensureOrUpdateLoadBalancer (lb : LoadBalancer) (order : List Nat) (clusterName : String)
    (service : Service) (nodes : List Node) (ensure : Bool) (isDelete : Bool) : result :=
  match validateParametersOfLoadBalancer clusterName service nodes with
  | some err => ⟨lb, [], none, some err⟩
  | none =>
    match (if !isDelete then getFirstNodeInternalIP lb.localAddress nodes else .ok "") with
    | .error err => ⟨lb, [], none, some err⟩
    | .ok nodeIP =>
      let name := GetLoadBalancerName clusterName service
      let oldExisted := (lb.loadBalancers name).isSome
      let oldLoadBalancer? : Except error loadBalancer :=
        match lb.loadBalancers name with
        | some oldLoadBalancer => .ok oldLoadBalancer
        | none =>
            if !ensure then .error (.updateNotFound name)
            else if isDelete then
              .ok (newLoadBalancerWithPortMappings service nodeIP lb.externalIP)
            else .ok (newLoadBalancerWithoutPortMappings lb.externalIP)
      match oldLoadBalancer? with
      | .error err => ⟨lb, [], none, some err⟩
      | .ok oldLoadBalancer =>
        let newLoadBalancer :=
          if isDelete then newLoadBalancerWithoutPortMappings lb.externalIP
          else newLoadBalancerWithPortMappings service nodeIP lb.externalIP
        let (calls, err) := patchLoadBalancer lb lb.clientLog order name
          oldLoadBalancer.portMappings newLoadBalancer.portMappings
        let lb1 := { lb with clientLog := lb.clientLog ++ calls.map (·.call) }
        match err with
        | some err => ⟨lb1, calls, none, some err⟩
        | none =>
          if isDelete && oldExisted then
            ⟨{ lb1 with loadBalancers := fun k => if k = name then none else lb1.loadBalancers k },
              calls, none, none⟩
          else
            ⟨{ lb1 with loadBalancers :=
                fun k => if k = name then some newLoadBalancer else lb1.loadBalancers k },
              calls, some newLoadBalancer, none⟩

/-- The method `EnsureLoadBalancer`; the status returned is
`(EnsureLoadBalancer ..).loadBalancer.map (·.status)`. -/
def EnsureLoadBalancer (lb : LoadBalancer) (order : List Nat) (clusterName : String)
    (service : Service) (nodes : List Node) : result :=
  ensureOrUpdateLoadBalancer lb order clusterName service nodes true false

/-- The method `UpdateLoadBalancer`. -/
def UpdateLoadBalancer (lb : LoadBalancer) (order : List Nat) (clusterName : String)
    (service : Service) (nodes : List Node) : result :=
  { ensureOrUpdateLoadBalancer lb order clusterName service nodes false false with
    loadBalancer := none }

/-- The method `EnsureLoadBalancerDeleted`. -/
def EnsureLoadBalancerDeleted (lb : LoadBalancer) (order : List Nat) (clusterName : String)
    (service : Service) : result :=
  { ensureOrUpdateLoadBalancer lb order clusterName service [] true true with
    loadBalancer := none }

/-! ## Expected calls and views of a list of calls -/

/-- The record of the call that `deletePortMapping` issues for `pm`. -/
def deleteRecord (pm : portMapping) : callRecord :=
  ⟨pm, .DeletePortMapping "" (uint16 pm.servicePort.Port) pm.servicePort.Protocol⟩

/-- The record of the call that `addPortMapping` issues for `pm` when it does
not refuse. -/
def addRecord (descPrefix : String) (pm : portMapping) : callRecord :=
  ⟨pm, .AddPortMapping "" (uint16 pm.servicePort.Port) pm.servicePort.Protocol
    (uint16 pm.servicePort.NodePort) pm.nodeIP true (descPrefix ++ "/" ++ pm.servicePort.Name)
    infinitePortMappingLeaseDuration⟩

/-- The port mappings for which a `DeletePortMapping` call was issued. -/
def rulesRemoved (calls : List callRecord) : List portMapping :=
  (calls.filter (fun r => r.call.isDelete)).map (·.pm)

/-- The port mappings for which an `AddPortMapping` call was issued. -/
def rulesAdded (calls : List callRecord) : List portMapping :=
  (calls.filter (fun r => r.call.isAdd)).map (·.pm)

/-- The client answered the calls `calls`, received in this order after
`hist`, in a way that fits a caller stopping at the first error and
returning `err`: every call before a failing one succeeded, and a failing
call is the last one and its error is `err`. With `err = none` it says that
every call succeeded. -/
def clientRun (c : clientInterface) : List clientCall → List clientCall → Option error → Prop
  | _, [], _ => True
  | hist, call :: calls, err =>
      match c.respond hist call with
      | none => clientRun c (hist ++ [call]) calls err
      | some e => calls = [] ∧ err = some e

/-- No `DeletePortMapping` call comes after an `AddPortMapping` call. -/
def removesBeforeAdds (calls : List clientCall) : Prop :=
  calls.Pairwise (fun earlier later => earlier.isAdd = true → later.isDelete = false)

/-! ## Concrete inputs

The inputs of `TestPatchLoadBalancer` and a few more, used to evaluate the
definitions. -/

/-- The provider of `TestPatchLoadBalancer`: the mock client and the local
address `192.0.2.1`; the external IP is unset and the registry empty. -/
def testLoadBalancer : LoadBalancer :=
  { client := mockClient
    clientLog := []
    localAddress := "192.0.2.1"
    externalIP := "<nil>"
    loadBalancers := fun _ => none }

/-- The first entry of `oldMapping` in the test ("This will be removed"). -/
def mappingA : portMapping :=
  { servicePort := ⟨"svc-port-1", "TCP", 12345, ⟨0, 0, ""⟩, 34567⟩
    nodeIP := "192.0.2.1" }

/-- The entry of the test present in both lists ("This will stay"). -/
def mappingB : portMapping :=
  { servicePort := ⟨"svc-port-2", "TCP", 12345, ⟨0, 0, ""⟩, 23456⟩
    nodeIP := "192.0.2.1" }

/-- The second entry of `newMapping` in the test ("This will be added"). -/
def mappingC : portMapping :=
  { servicePort := ⟨"svc-port-1", "TCP", 12345, ⟨0, 0, ""⟩, 23456⟩
    nodeIP := "192.0.2.1" }

/-- The list `oldMapping` of the test. -/
def oldMapping : List portMapping := [mappingA, mappingB]

/-- The list `newMapping` of the test. -/
def newMapping : List portMapping := [mappingB, mappingC]

/-- A port mapping whose target is another host than the one of
`testLoadBalancer`. -/
def mappingOtherHost : portMapping :=
  { servicePort := ⟨"svc-port-1", "TCP", 12345, ⟨0, 0, ""⟩, 34567⟩
    nodeIP := "192.0.2.2" }

/-- A provider with the mock client, local address `192.0.2.1`, external IP
`203.0.113.7` and an empty registry. -/
def exampleLoadBalancer : LoadBalancer :=
  { client := mockClient
    clientLog := []
    localAddress := "192.0.2.1"
    externalIP := "203.0.113.7"
    loadBalancers := fun _ => none }

/-- A service that `validateParametersOfLoadBalancer` accepts, with one
port. -/
def exampleService : Service :=
  { Namespace := "default"
    Name := "my-service"
    Annotations := [("midokura.com/load-balancer-type", "upnp-igd")]
    Spec :=
      { Ports := [⟨"http", "TCP", 8080, ⟨0, 80, ""⟩, 30080⟩]
        ClusterIP := "10.96.0.10"
        Typ := "LoadBalancer"
        SessionAffinity := "None"
        LoadBalancerIP := ""
        LoadBalancerSourceRanges := []
        PublishNotReadyAddresses := false
        IPFamily := none } }

/-- The service `exampleService` with its one port declared twice. -/
def duplicatePortService : Service :=
  { exampleService with
    Spec := { exampleService.Spec with
      Ports := exampleService.Spec.Ports ++ exampleService.Spec.Ports } }

/-- The service `exampleService` without its annotations: the validator
rejects it. -/
def unannotatedService : Service :=
  { exampleService with Annotations := [] }

/-- A node that exposes the local address of `exampleLoadBalancer` as its
internal IP. -/
def exampleNode : Node :=
  { Status := { Addresses := [⟨"Hostname", "node-1"⟩, ⟨"InternalIP", "192.0.2.1"⟩] } }

/-- A client whose `DeletePortMapping` succeeds and whose `AddPortMapping`
fails. -/
def addFailingClient : clientInterface where
  AddPortMapping := fun _ _ _ _ _ _ _ _ _ => some (.client "ConflictInMappingEntry")
  DeletePortMapping := fun _ _ _ _ => none

/-- The provider `exampleLoadBalancer` with the client `addFailingClient`. -/
def addFailingLoadBalancer : LoadBalancer :=
  { exampleLoadBalancer with client := addFailingClient }

/-- The calls of a result fit a run that stops at the first client error: a
call whose answer is an error is the last call of the result, its error is
the error of the result, and the registry of the result is the registry
`lb.loadBalancers` from before the call. -/
def abortsOnFirstError (lb : LoadBalancer) (r : result) : Prop :=
  ∀ (i : Nat) (e : error),
    ((r.calls.map (·.call)).get? i).bind
        (lb.client.respond (lb.clientLog ++ (r.calls.map (·.call)).take i)) = some e →
      i + 1 = r.calls.length ∧ r.err = some e ∧ r.lb.loadBalancers = lb.loadBalancers

/-! ## More concrete inputs and statement helpers -/

/-- Some node of `nodes` exposes an address of type `InternalIP` equal to
`clientIP`. -/
def nodesExpose (clientIP : String) (nodes : List Node) : Prop :=
  ∃ node ∈ nodes, ∃ address ∈ node.Status.Addresses,
    address.Typ = NodeInternalIP ∧ address.Address = clientIP

/-- A node whose internal IP is not the local address of
`exampleLoadBalancer`. -/
def otherNode : Node :=
  { Status := { Addresses := [⟨"InternalIP", "192.0.2.9"⟩] } }

/-- The service `exampleService` with the external port of its port set to
zero: the validator accepts it. -/
def zeroPortService : Service :=
  { exampleService with
    Spec := { exampleService.Spec with
      Ports := [⟨"http", "TCP", 0, ⟨0, 80, ""⟩, 30080⟩] } }

/-- A service that the validator accepts, with two ports. -/
def twoPortService : Service :=
  { exampleService with
    Spec := { exampleService.Spec with
      Ports := [⟨"http", "TCP", 8080, ⟨0, 80, ""⟩, 30080⟩,
        ⟨"dns", "UDP", 53, ⟨0, 53, ""⟩, 30053⟩] } }

/-- The service `exampleService` with a port whose target port is given by
name. -/
def namedTargetPortService : Service :=
  { exampleService with
    Spec := { exampleService.Spec with
      Ports := [⟨"http", "TCP", 8080, ⟨1, 0, "web"⟩, 30080⟩] } }

/-- The service `exampleService` with a port without node port. -/
def zeroNodePortService : Service :=
  { exampleService with
    Spec := { exampleService.Spec with
      Ports := [⟨"http", "TCP", 8080, ⟨0, 80, ""⟩, 0⟩] } }

/-- A client whose `AddPortMapping` succeeds and whose `DeletePortMapping`
fails. -/
def deleteFailingClient : clientInterface where
  AddPortMapping := fun _ _ _ _ _ _ _ _ _ => none
  DeletePortMapping := fun _ _ _ _ => some (.client "NoSuchEntryInArray")

/-- The provider `exampleLoadBalancer` with the client
`deleteFailingClient`. -/
def deleteFailingLoadBalancer : LoadBalancer :=
  { exampleLoadBalancer with client := deleteFailingClient }

/-- The port mapping `mappingA` of the test with an empty node IP. -/
def mappingNoHost : portMapping :=
  { mappingA with nodeIP := "" }

instance nodesExposeDecidable (clientIP : String) (nodes : List Node) :
    Decidable (nodesExpose clientIP nodes) := by
  unfold nodesExpose
  infer_instance

/-! ## Sequences of calls, the registry invariant and the gateway device -/

/-- Two services agree on every field that the provider reads except
`Spec.LoadBalancerIP` and `Spec.LoadBalancerSourceRanges`. -/
def differOnlyInIgnoredFields (s1 s2 : Service) : Prop :=
  s1.Namespace = s2.Namespace ∧ s1.Name = s2.Name ∧ s1.Annotations = s2.Annotations ∧
    s1.Spec.Ports = s2.Spec.Ports ∧ s1.Spec.ClusterIP = s2.Spec.ClusterIP ∧
    s1.Spec.Typ = s2.Spec.Typ ∧ s1.Spec.SessionAffinity = s2.Spec.SessionAffinity ∧
    s1.Spec.PublishNotReadyAddresses = s2.Spec.PublishNotReadyAddresses ∧
    s1.Spec.IPFamily = s2.Spec.IPFamily

/-- The service `exampleService` with an external-IP override and a list of
source ranges. -/
def restrictedService : Service :=
  { exampleService with
    Spec := { exampleService.Spec with
      LoadBalancerIP := "198.51.100.1"
      LoadBalancerSourceRanges := ["10.0.0.0/8"] } }

/-- One call of a method of the Load Balancer API, with its arguments and
the schedule of its `range` over the map. -/
inductive operation where
  | GetLoadBalancer (clusterName : String) (service : Service)
  | EnsureLoadBalancer (order : List Nat) (clusterName : String) (service : Service)
      (nodes : List Node)
  | UpdateLoadBalancer (order : List Nat) (clusterName : String) (service : Service)
      (nodes : List Node)
  | EnsureLoadBalancerDeleted (order : List Nat) (clusterName : String) (service : Service)

/-- The identity of the service a call is invoked for: the key of the
registry, `GetLoadBalancerName`. -/
def operation.identity : operation → String
  | .GetLoadBalancer clusterName service => GetLoadBalancerName clusterName service
  | .EnsureLoadBalancer _ clusterName service _ => GetLoadBalancerName clusterName service
  | .UpdateLoadBalancer _ clusterName service _ => GetLoadBalancerName clusterName service
  | .EnsureLoadBalancerDeleted _ clusterName service => GetLoadBalancerName clusterName service

/-- The provider after a call. `GetLoadBalancer` only reads the registry. -/
def operation.apply (lb : LoadBalancer) : operation → LoadBalancer
  | .GetLoadBalancer _ _ => lb
  | .EnsureLoadBalancer order clusterName service nodes =>
      (Edge.EnsureLoadBalancer lb order clusterName service nodes).lb
  | .UpdateLoadBalancer order clusterName service nodes =>
      (Edge.UpdateLoadBalancer lb order clusterName service nodes).lb
  | .EnsureLoadBalancerDeleted order clusterName service =>
      (Edge.EnsureLoadBalancerDeleted lb order clusterName service).lb

/-- The provider after a sequence of calls. -/
def runOperations (lb : LoadBalancer) (ops : List operation) : LoadBalancer :=
  ops.foldl operation.apply lb

/-- The invariant of the registry: every port mapping of every record
targets the local address with a service port that passes the per-port
checks of the validator, and the status of every record is the single
ingress entry with the external IP. -/
def registryInvariant (lb : LoadBalancer) : Prop :=
  ∀ name record, lb.loadBalancers name = some record →
    (∀ pm ∈ record.portMappings,
      pm.nodeIP = lb.localAddress ∧
      (pm.servicePort.Protocol = ProtocolTCP ∨ pm.servicePort.Protocol = ProtocolUDP) ∧
      pm.servicePort.TargetPort.Typ ≠ intstrString ∧ pm.servicePort.NodePort ≠ 0) ∧
    record.status = ⟨[⟨lb.externalIP, ""⟩]⟩

/-- The key under which the gateway device stores a port mapping: the
external port and the protocol, as `addPortMapping` and `deletePortMapping`
send them. -/
def ruleKey (pm : portMapping) : Nat × String :=
  (uint16 pm.servicePort.Port, pm.servicePort.Protocol)

/-- What the gateway device stores under a key: the other arguments of the
`AddPortMapping` call. -/
structure deviceEntry where
  internalPort : Nat
  internalIP : String
  enabled : Bool
  desc : String
  lease : Nat
deriving DecidableEq, Repr

/-- The gateway device as a map keyed by external port and protocol. -/
abbrev device : Type := Nat × String → Option deviceEntry

/-- The effect of one client call on the device: `AddPortMapping` stores the
entry under its key, `DeletePortMapping` removes the key. -/
def deviceApply (d : device) : clientCall → device
  | .AddPortMapping _ externalPort proto internalPort internalIP enabled desc lease =>
      fun k => if k = (externalPort, proto) then
        some ⟨internalPort, internalIP, enabled, desc, lease⟩ else d k
  | .DeletePortMapping _ externalPort proto =>
      fun k => if k = (externalPort, proto) then none else d k

/-- The entry that `addPortMapping` sends for a port mapping. -/
def ruleEntry (descPrefix : String) (pm : portMapping) : deviceEntry :=
  ⟨uint16 pm.servicePort.NodePort, pm.nodeIP, true, descPrefix ++ "/" ++ pm.servicePort.Name,
    infinitePortMappingLeaseDuration⟩

/-- The device that holds exactly the port mappings `rules`, each under its
key. -/
def deviceOf (descPrefix : String) (rules : List portMapping) : device :=
  fun k => (rules.find? (fun r => ruleKey r = k)).map (ruleEntry descPrefix)

/-- The service `exampleService` with two ports, the second with the
external port zero: the validator accepts it. -/
def mixedPortService : Service :=
  { exampleService with
    Spec := { exampleService.Spec with
      Ports := [⟨"http", "TCP", 8080, ⟨0, 80, ""⟩, 30080⟩,
        ⟨"dns", "UDP", 0, ⟨0, 53, ""⟩, 30053⟩] } }

/-- The service `exampleService` with the node port 65536, which is not
zero and which `uint16` turns into zero: the validator accepts it. -/
def wrappedNodePortService : Service :=
  { exampleService with
    Spec := { exampleService.Spec with
      Ports := [⟨"http", "TCP", 8080, ⟨0, 80, ""⟩, 65536⟩] } }

/-! # Theorems -/

/-! ## The iteration order of a map -/

theorem rangeOrder_perm {α : Type} [DecidableEq α] (order : List Nat) :
    ∀ keys : List α, (rangeOrder order keys).Perm keys := by
  induction order with
  | nil => intro keys; simp [rangeOrder]
  | cons n order ih =>
    intro keys
    cases keys with
    | nil => simp [rangeOrder]
    | cons k keys =>
      simp only [rangeOrder]
      have hmem : (k :: keys).getD (n % (keys.length + 1)) k ∈ k :: keys := by
        have hlt : n % (keys.length + 1) < (k :: keys).length := by
          simpa using Nat.mod_lt n (Nat.succ_pos keys.length)
        rw [List.getD_eq_getElem _ _ hlt]
        exact List.getElem_mem _
      exact ((ih _).cons _).trans (List.perm_cons_erase hmem).symm

theorem mem_rangeOrder {α : Type} [DecidableEq α] (order : List Nat) (keys : List α) (x : α) :
    x ∈ rangeOrder order keys ↔ x ∈ keys :=
  (rangeOrder_perm order keys).mem_iff

/-- Every order of the keys is the order of some schedule. -/
theorem rangeOrder_complete {α : Type} [DecidableEq α] :
    ∀ (p keys : List α), p.Perm keys → ∃ order, rangeOrder order keys = p := by
  intro p
  induction p with
  | nil =>
    intro keys h
    exact ⟨[], by simp [rangeOrder, h.symm.eq_nil]⟩
  | cons a p ih =>
    intro keys h
    have ha : a ∈ keys := h.subset (List.mem_cons_self a p)
    cases keys with
    | nil => simp at ha
    | cons k keys =>
      have hp : p.Perm ((k :: keys).erase a) :=
        (List.perm_cons a).1 (h.trans (List.perm_cons_erase ha))
      obtain ⟨order, ho⟩ := ih _ hp
      refine ⟨(k :: keys).indexOf a :: order, ?_⟩
      have hlt : (k :: keys).indexOf a < (k :: keys).length := List.indexOf_lt_length.2 ha
      have hmod : (k :: keys).indexOf a % (keys.length + 1) = (k :: keys).indexOf a :=
        Nat.mod_eq_of_lt (by simpa using hlt)
      have hget : (k :: keys).getD ((k :: keys).indexOf a % (keys.length + 1)) k = a := by
        rw [hmod, List.getD_eq_getElem _ _ hlt]
        exact List.getElem_indexOf hlt
      simp only [rangeOrder, hget, ho]

/-! ## The map used as a set -/

theorem mem_mapInsert (m : List portMapping) (k x : portMapping) :
    x ∈ mapInsert m k ↔ x ∈ m ∨ x = k := by
  unfold mapInsert
  split
  · constructor
    · exact Or.inl
    · rintro (h | h)
      · exact h
      · subst h; assumption
  · simp

theorem nodup_mapInsert (m : List portMapping) (k : portMapping) (h : m.Nodup) :
    (mapInsert m k).Nodup := by
  unfold mapInsert
  split
  · exact h
  · rename_i hk
    exact List.Nodup.append h (List.nodup_singleton k) (by simpa using hk)

theorem mem_foldl_mapInsert (new : List portMapping) :
    ∀ (m : List portMapping) (x : portMapping),
      x ∈ new.foldl mapInsert m ↔ x ∈ m ∨ x ∈ new := by
  induction new with
  | nil => intro m x; simp
  | cons k new ih =>
    intro m x
    simp only [List.foldl_cons, ih, mem_mapInsert, List.mem_cons]
    tauto

theorem nodup_foldl_mapInsert (new : List portMapping) :
    ∀ m : List portMapping, m.Nodup → (new.foldl mapInsert m).Nodup := by
  induction new with
  | nil => intro m h; simpa using h
  | cons k new ih => intro m h; exact ih _ (nodup_mapInsert m k h)

theorem foldl_mapInsert_of_nodup (new : List portMapping) :
    ∀ m : List portMapping, (m ++ new).Nodup → new.foldl mapInsert m = m ++ new := by
  induction new with
  | nil => intro m _; simp
  | cons k new ih =>
    intro m h
    have hk : k ∉ m := by
      intro hk
      exact (List.nodup_append.1 h).2.2 hk (List.mem_cons_self k new)
    have h2 : (m ++ [k] ++ new).Nodup := by simpa using h
    simp only [List.foldl_cons, mapInsert, hk, if_false]
    rw [ih _ h2]; simp

theorem mem_mapDelete (m : List portMapping) (k x : portMapping) :
    x ∈ mapDelete m k ↔ x ∈ m ∧ x ≠ k := by
  simp [mapDelete]

theorem mapDelete_of_not_mem (m : List portMapping) (k : portMapping) (h : k ∉ m) :
    mapDelete m k = m := by
  unfold mapDelete
  rw [List.filter_eq_self]
  intro x hx
  have : x ≠ k := fun e => h (e ▸ hx)
  simpa using this

/-! ## The two methods that call the client -/

theorem deletePortMapping_eq (lb : LoadBalancer) (hist : List clientCall) (pm : portMapping) :
    deletePortMapping lb hist pm
      = (deleteRecord pm, lb.client.respond hist (deleteRecord pm).call) := rfl

theorem addPortMapping_eq (lb : LoadBalancer) (hist : List clientCall) (descPrefix : String)
    (pm : portMapping) :
    addPortMapping lb hist descPrefix pm
      = if pm.nodeIP ≠ "" ∧ pm.nodeIP ≠ lb.localAddress then
          (none, some (.localClientCantBeUsed lb.localAddress pm.nodeIP))
        else (some (addRecord descPrefix pm),
          lb.client.respond hist (addRecord descPrefix pm).call) := rfl

theorem patchRemoveLoop_cons (lb : LoadBalancer) (hist : List clientCall) (pm : portMapping)
    (old m : List portMapping) :
    patchRemoveLoop lb hist (pm :: old) m
      = if pm ∈ m then patchRemoveLoop lb hist old (mapDelete m pm)
        else
          match lb.client.respond hist (deleteRecord pm).call with
          | some err => ([deleteRecord pm], m, some err)
          | none =>
              (deleteRecord pm :: (patchRemoveLoop lb (hist ++ [(deleteRecord pm).call]) old m).1,
                (patchRemoveLoop lb (hist ++ [(deleteRecord pm).call]) old m).2.1,
                (patchRemoveLoop lb (hist ++ [(deleteRecord pm).call]) old m).2.2) := by
  rw [patchRemoveLoop]
  split
  · rfl
  · rw [deletePortMapping_eq]
    cases lb.client.respond hist (deleteRecord pm).call <;> rfl

theorem patchAddLoop_cons (lb : LoadBalancer) (descPrefix : String) (hist : List clientCall)
    (pm : portMapping) (rest : List portMapping) :
    patchAddLoop lb descPrefix hist (pm :: rest)
      = if pm.nodeIP ≠ "" ∧ pm.nodeIP ≠ lb.localAddress then
          ([], some (.localClientCantBeUsed lb.localAddress pm.nodeIP))
        else
          match lb.client.respond hist (addRecord descPrefix pm).call with
          | some err => ([addRecord descPrefix pm], some err)
          | none =>
              (addRecord descPrefix pm ::
                  (patchAddLoop lb descPrefix (hist ++ [(addRecord descPrefix pm).call]) rest).1,
                (patchAddLoop lb descPrefix (hist ++ [(addRecord descPrefix pm).call]) rest).2) := by
  rw [patchAddLoop, addPortMapping_eq]
  by_cases hg : pm.nodeIP ≠ "" ∧ pm.nodeIP ≠ lb.localAddress
  · rw [if_pos hg, if_pos hg]
    rfl
  · rw [if_neg hg, if_neg hg]
    cases lb.client.respond hist (addRecord descPrefix pm).call <;> rfl

theorem patchLoadBalancer_eq (lb : LoadBalancer) (hist : List clientCall) (order : List Nat)
    (descPrefix : String) (old new : List portMapping) :
    patchLoadBalancer lb hist order descPrefix old new
      = match (patchRemoveLoop lb hist old (new.foldl mapInsert [])).2.2 with
        | some err => ((patchRemoveLoop lb hist old (new.foldl mapInsert [])).1, some err)
        | none =>
            ((patchRemoveLoop lb hist old (new.foldl mapInsert [])).1
                ++ (patchAddLoop lb descPrefix
                  (hist ++ (patchRemoveLoop lb hist old (new.foldl mapInsert [])).1.map (·.call))
                  (rangeOrder order (patchRemoveLoop lb hist old (new.foldl mapInsert [])).2.1)).1,
              (patchAddLoop lb descPrefix
                  (hist ++ (patchRemoveLoop lb hist old (new.foldl mapInsert [])).1.map (·.call))
                  (rangeOrder order
                    (patchRemoveLoop lb hist old (new.foldl mapInsert [])).2.1)).2) := by
  unfold patchLoadBalancer
  dsimp only
  rcases patchRemoveLoop lb hist old (new.foldl mapInsert []) with ⟨removes, m, _ | err⟩ <;> rfl

/-! ## The first loop of `patchLoadBalancer` -/

theorem patchRemoveLoop_records (lb : LoadBalancer) (old : List portMapping) :
    ∀ (hist : List clientCall) (m : List portMapping),
      ∀ r ∈ (patchRemoveLoop lb hist old m).1, r = deleteRecord r.pm ∧ r.pm ∈ old := by
  induction old with
  | nil => intro hist m r hr; simp [patchRemoveLoop] at hr
  | cons pm old ih =>
    intro hist m r hr
    rw [patchRemoveLoop_cons] at hr
    split at hr
    · have := ih _ _ r hr
      exact ⟨this.1, List.mem_cons_of_mem _ this.2⟩
    · split at hr
      · simp only [List.mem_singleton] at hr
        subst hr
        exact ⟨rfl, List.mem_cons_self _ _⟩
      · simp only [List.mem_cons] at hr
        rcases hr with hr | hr
        · subst hr
          exact ⟨rfl, List.mem_cons_self _ _⟩
        · have := ih _ _ r hr
          exact ⟨this.1, List.mem_cons_of_mem _ this.2⟩

theorem patchRemoveLoop_map (lb : LoadBalancer) (old : List portMapping) :
    ∀ (hist : List clientCall) (m : List portMapping),
      (patchRemoveLoop lb hist old m).2.2 = none →
        ∀ x, x ∈ (patchRemoveLoop lb hist old m).2.1 ↔ x ∈ m ∧ x ∉ old := by
  induction old with
  | nil => intro hist m _ x; simp [patchRemoveLoop]
  | cons pm old ih =>
    intro hist m h x
    rw [patchRemoveLoop_cons] at h ⊢
    split at h
    · rename_i hpm
      simp only [hpm, if_true]
      rw [ih _ _ h, mem_mapDelete]
      simp only [List.mem_cons, not_or]
      tauto
    · rename_i hpm
      simp only [hpm, if_false]
      split at h
      · simp at h
      · rename_i hresp
        simp only [hresp]
        rw [ih _ _ h]
        simp only [List.mem_cons, not_or]
        constructor
        · rintro ⟨hx, hxo⟩
          exact ⟨hx, fun e => hpm (e ▸ hx), hxo⟩
        · rintro ⟨hx, _, hxo⟩
          exact ⟨hx, hxo⟩

theorem patchRemoveLoop_map_eq (lb : LoadBalancer) (old : List portMapping) :
    ∀ (hist : List clientCall) (m : List portMapping),
      (patchRemoveLoop lb hist old m).2.2 = none →
        (patchRemoveLoop lb hist old m).2.1 = m.filter (fun x => x ∉ old) := by
  induction old with
  | nil => intro hist m _; simp [patchRemoveLoop]
  | cons pm old ih =>
    intro hist m h
    rw [patchRemoveLoop_cons] at h ⊢
    split at h
    · rename_i hpm
      simp only [hpm, if_true]
      rw [ih _ _ h, mapDelete, List.filter_filter]
      apply List.filter_congr
      intro x _
      by_cases h1 : x = pm <;> by_cases h2 : x ∈ old <;> simp [h1, h2]
    · rename_i hpm
      simp only [hpm, if_false]
      split at h
      · simp at h
      · rename_i hresp
        simp only [hresp]
        rw [ih _ _ h]
        apply List.filter_congr
        intro x hx
        have : x ≠ pm := fun e => hpm (e ▸ hx)
        simp [this]

theorem patchRemoveLoop_calls (lb : LoadBalancer) (old : List portMapping) :
    ∀ (hist : List clientCall) (m : List portMapping), old.Nodup →
      (patchRemoveLoop lb hist old m).2.2 = none →
        (patchRemoveLoop lb hist old m).1 = (old.filter (fun x => x ∉ m)).map deleteRecord := by
  induction old with
  | nil => intro hist m _ _; simp [patchRemoveLoop]
  | cons pm old ih =>
    intro hist m hnd h
    have hnd2 : old.Nodup := (List.nodup_cons.1 hnd).2
    have hpmo : pm ∉ old := (List.nodup_cons.1 hnd).1
    rw [patchRemoveLoop_cons] at h ⊢
    split at h
    · rename_i hpm
      simp only [hpm, if_true]
      rw [ih _ _ hnd2 h]
      have : List.filter (fun x => decide (x ∉ m)) (pm :: old)
          = List.filter (fun x => decide (x ∉ m)) old := by
        rw [List.filter_cons]; simp [hpm]
      rw [this]
      congr 1
      apply List.filter_congr
      intro x hx
      have : x ≠ pm := fun e => hpmo (e ▸ hx)
      simp [mem_mapDelete, this]
    · rename_i hpm
      simp only [hpm, if_false]
      split at h
      · simp at h
      · rename_i hresp
        simp only [hresp]
        rw [ih _ _ hnd2 h, List.filter_cons]
        simp [hpm]

theorem patchRemoveLoop_run (lb : LoadBalancer) (old : List portMapping) :
    ∀ (hist : List clientCall) (m : List portMapping),
      clientRun lb.client hist ((patchRemoveLoop lb hist old m).1.map (·.call))
        (patchRemoveLoop lb hist old m).2.2 := by
  induction old with
  | nil => intro hist m; simp [patchRemoveLoop, clientRun]
  | cons pm old ih =>
    intro hist m
    rw [patchRemoveLoop_cons]
    split
    · exact ih _ _
    · cases hresp : lb.client.respond hist (deleteRecord pm).call with
      | some err => simp [clientRun, hresp]
      | none =>
        simp only [List.map_cons, clientRun, hresp]
        exact ih _ _

theorem patchRemoveLoop_succeed (lb : LoadBalancer)
    (hclient : ∀ hist call, lb.client.respond hist call = none) (old : List portMapping) :
    ∀ (hist : List clientCall) (m : List portMapping),
      (patchRemoveLoop lb hist old m).2.2 = none := by
  induction old with
  | nil => intro hist m; simp [patchRemoveLoop]
  | cons pm old ih =>
    intro hist m
    rw [patchRemoveLoop_cons]
    split
    · exact ih _ _
    · simp only [hclient]
      exact ih _ _

theorem patchRemoveLoop_of_subset (lb : LoadBalancer) (old : List portMapping) :
    ∀ (hist : List clientCall) (m : List portMapping), old.Nodup → (∀ x ∈ old, x ∈ m) →
      (patchRemoveLoop lb hist old m).1 = [] ∧ (patchRemoveLoop lb hist old m).2.2 = none := by
  induction old with
  | nil => intro hist m _ _; simp [patchRemoveLoop]
  | cons pm old ih =>
    intro hist m hnd hsub
    have hpm : pm ∈ m := hsub pm (List.mem_cons_self _ _)
    rw [patchRemoveLoop_cons]
    simp only [hpm, if_true]
    apply ih _ _ (List.nodup_cons.1 hnd).2
    intro x hx
    rw [mem_mapDelete]
    exact ⟨hsub x (List.mem_cons_of_mem _ hx), fun e => (List.nodup_cons.1 hnd).1 (e ▸ hx)⟩

theorem patchRemoveLoop_isDelete (lb : LoadBalancer) (old : List portMapping)
    (hist : List clientCall) (m : List portMapping) :
    ∀ c ∈ (patchRemoveLoop lb hist old m).1.map (·.call), c.isDelete = true ∧ c.isAdd = false := by
  intro c hc
  obtain ⟨r, hr, rfl⟩ := List.mem_map.1 hc
  rw [(patchRemoveLoop_records lb old hist m r hr).1]
  exact ⟨rfl, rfl⟩

/-! ## The second loop of `patchLoadBalancer` -/

theorem patchAddLoop_records (lb : LoadBalancer) (descPrefix : String) (l : List portMapping) :
    ∀ (hist : List clientCall),
      ∀ r ∈ (patchAddLoop lb descPrefix hist l).1, r = addRecord descPrefix r.pm ∧ r.pm ∈ l := by
  induction l with
  | nil => intro hist r hr; simp [patchAddLoop] at hr
  | cons pm l ih =>
    intro hist r hr
    rw [patchAddLoop_cons] at hr
    split at hr
    · simp at hr
    · split at hr
      · simp only [List.mem_singleton] at hr
        subst hr
        exact ⟨rfl, List.mem_cons_self _ _⟩
      · simp only [List.mem_cons] at hr
        rcases hr with hr | hr
        · subst hr
          exact ⟨rfl, List.mem_cons_self _ _⟩
        · have := ih _ r hr
          exact ⟨this.1, List.mem_cons_of_mem _ this.2⟩

theorem patchAddLoop_calls (lb : LoadBalancer) (descPrefix : String) (l : List portMapping) :
    ∀ (hist : List clientCall), (patchAddLoop lb descPrefix hist l).2 = none →
      (patchAddLoop lb descPrefix hist l).1 = l.map (addRecord descPrefix) := by
  induction l with
  | nil => intro hist _; simp [patchAddLoop]
  | cons pm l ih =>
    intro hist h
    rw [patchAddLoop_cons] at h ⊢
    split at h
    · simp at h
    · rename_i hg
      rw [if_neg hg]
      split at h
      · simp at h
      · rename_i hresp
        simp only [hresp, List.map_cons]
        rw [ih _ h]

theorem patchAddLoop_run (lb : LoadBalancer) (descPrefix : String) (l : List portMapping) :
    ∀ (hist : List clientCall),
      clientRun lb.client hist ((patchAddLoop lb descPrefix hist l).1.map (·.call))
        (patchAddLoop lb descPrefix hist l).2 := by
  induction l with
  | nil => intro hist; simp [patchAddLoop, clientRun]
  | cons pm l ih =>
    intro hist
    rw [patchAddLoop_cons]
    split
    · simp [clientRun]
    · cases hresp : lb.client.respond hist (addRecord descPrefix pm).call with
      | some err => simp [clientRun, hresp]
      | none =>
        simp only [List.map_cons, clientRun, hresp]
        exact ih _

theorem patchAddLoop_succeed (lb : LoadBalancer) (descPrefix : String)
    (hclient : ∀ hist call, lb.client.respond hist call = none) (l : List portMapping) :
    ∀ (hist : List clientCall), (∀ pm ∈ l, pm.nodeIP = "" ∨ pm.nodeIP = lb.localAddress) →
      (patchAddLoop lb descPrefix hist l).2 = none := by
  induction l with
  | nil => intro hist _; simp [patchAddLoop]
  | cons pm l ih =>
    intro hist hl
    rw [patchAddLoop_cons]
    have hg : ¬ (pm.nodeIP ≠ "" ∧ pm.nodeIP ≠ lb.localAddress) := by
      have := hl pm (List.mem_cons_self _ _)
      tauto
    rw [if_neg hg]
    simp only [hclient]
    exact ih _ (fun x hx => hl x (List.mem_cons_of_mem _ hx))

theorem patchAddLoop_isAdd (lb : LoadBalancer) (descPrefix : String) (l : List portMapping)
    (hist : List clientCall) :
    ∀ c ∈ (patchAddLoop lb descPrefix hist l).1.map (·.call),
      c.isAdd = true ∧ c.isDelete = false := by
  intro c hc
  obtain ⟨r, hr, rfl⟩ := List.mem_map.1 hc
  rw [(patchAddLoop_records lb descPrefix l hist r hr).1]
  exact ⟨rfl, rfl⟩

/-! ## Runs of the client -/

theorem clientRun_append (c : clientInterface) (calls1 calls2 : List clientCall)
    (err : Option error) :
    ∀ hist : List clientCall, clientRun c hist calls1 none →
      clientRun c (hist ++ calls1) calls2 err → clientRun c hist (calls1 ++ calls2) err := by
  induction calls1 with
  | nil => intro hist _ h; simpa using h
  | cons call calls1 ih =>
    intro hist h1 h2
    simp only [clientRun, List.cons_append] at h1 ⊢
    cases hresp : c.respond hist call with
    | some e => simp [hresp] at h1
    | none =>
      simp only [hresp] at h1 ⊢
      apply ih _ h1
      simpa using h2

theorem clientRun_failure (c : clientInterface) (calls : List clientCall) (err : Option error) :
    ∀ (hist : List clientCall), clientRun c hist calls err →
      ∀ (i : Nat) (e : error), (calls.get? i).bind (c.respond (hist ++ calls.take i)) = some e →
        i + 1 = calls.length ∧ err = some e := by
  induction calls with
  | nil => intro hist _ i e h; simp at h
  | cons call calls ih =>
    intro hist hrun i e h
    simp only [clientRun] at hrun
    cases i with
    | zero =>
      simp only [List.get?_cons_zero, Option.some_bind, List.take_zero, List.append_nil] at h
      simp only [h] at hrun
      simp [hrun.1, hrun.2]
    | succ i =>
      cases hresp : c.respond hist call with
      | some e0 =>
        simp only [hresp] at hrun
        simp [hrun.1] at h
      | none =>
        simp only [hresp] at hrun
        have h2 : (calls.get? i).bind (c.respond ((hist ++ [call]) ++ calls.take i)) = some e := by
          simpa using h
        have := ih _ hrun i e h2
        simp [this.1.symm, this.2]

/-! ## The method `patchLoadBalancer` -/

theorem patchLoadBalancer_run (lb : LoadBalancer) (hist : List clientCall) (order : List Nat)
    (descPrefix : String) (old new : List portMapping) :
    clientRun lb.client hist ((patchLoadBalancer lb hist order descPrefix old new).1.map (·.call))
      (patchLoadBalancer lb hist order descPrefix old new).2 := by
  rw [patchLoadBalancer_eq]
  have hrem := patchRemoveLoop_run lb old hist (new.foldl mapInsert [])
  cases h : (patchRemoveLoop lb hist old (new.foldl mapInsert [])).2.2 with
  | some err => simpa [h] using hrem
  | none =>
    simp only [h, List.map_append] at hrem ⊢
    exact clientRun_append _ _ _ _ _ hrem (patchAddLoop_run _ _ _ _)

theorem patchLoadBalancer_removesBeforeAdds (lb : LoadBalancer) (hist : List clientCall)
    (order : List Nat) (descPrefix : String) (old new : List portMapping) :
    removesBeforeAdds ((patchLoadBalancer lb hist order descPrefix old new).1.map (·.call)) := by
  rw [patchLoadBalancer_eq]
  have hdel := patchRemoveLoop_isDelete lb old hist (new.foldl mapInsert [])
  unfold removesBeforeAdds
  cases h : (patchRemoveLoop lb hist old (new.foldl mapInsert [])).2.2 with
  | some err =>
    simp only [h]
    refine List.pairwise_of_forall_mem_list ?_
    intro a ha b _ hadd
    rw [(hdel a ha).2] at hadd
    cases hadd
  | none =>
    simp only [h, List.map_append]
    rw [List.pairwise_append]
    refine ⟨?_, ?_, ?_⟩
    · refine List.pairwise_of_forall_mem_list ?_
      intro a ha b _ hadd
      rw [(hdel a ha).2] at hadd
      cases hadd
    · refine List.pairwise_of_forall_mem_list ?_
      intro a _ b hb _
      exact (patchAddLoop_isAdd _ _ _ _ b hb).2
    · intro a ha b _ hadd
      rw [(hdel a ha).2] at hadd
      cases hadd

theorem patchLoadBalancer_records (lb : LoadBalancer) (hist : List clientCall) (order : List Nat)
    (descPrefix : String) (old new : List portMapping) :
    ∀ r ∈ (patchLoadBalancer lb hist order descPrefix old new).1,
      (r = deleteRecord r.pm ∧ r.pm ∈ old) ∨
        (r = addRecord descPrefix r.pm ∧ r.pm ∈ new ∧ r.pm ∉ old) := by
  intro r hr
  rw [patchLoadBalancer_eq] at hr
  cases h : (patchRemoveLoop lb hist old (new.foldl mapInsert [])).2.2 with
  | some err =>
    simp only [h] at hr
    exact Or.inl (patchRemoveLoop_records lb old hist _ r hr)
  | none =>
    simp only [h, List.mem_append] at hr
    rcases hr with hr | hr
    · exact Or.inl (patchRemoveLoop_records lb old hist _ r hr)
    · right
      have h1 := patchAddLoop_records lb descPrefix _ _ r hr
      refine ⟨h1.1, ?_⟩
      have h2 := (mem_rangeOrder _ _ _).1 h1.2
      rw [patchRemoveLoop_map lb old hist _ h, mem_foldl_mapInsert] at h2
      simpa using h2

theorem patchLoadBalancer_ok (lb : LoadBalancer) (hist : List clientCall) (order : List Nat)
    (descPrefix : String) (old new : List portMapping) (hold : old.Nodup)
    (herr : (patchLoadBalancer lb hist order descPrefix old new).2 = none) :
    ∃ toAdd : List portMapping,
      toAdd.Perm ((new.foldl mapInsert []).filter (fun x => x ∉ old)) ∧
      (patchLoadBalancer lb hist order descPrefix old new).1
        = (old.filter (fun x => x ∉ new)).map deleteRecord
          ++ toAdd.map (addRecord descPrefix) := by
  rw [patchLoadBalancer_eq] at herr ⊢
  cases h : (patchRemoveLoop lb hist old (new.foldl mapInsert [])).2.2 with
  | some err => simp [h] at herr
  | none =>
    simp only [h] at herr ⊢
    refine ⟨rangeOrder order (patchRemoveLoop lb hist old (new.foldl mapInsert [])).2.1, ?_, ?_⟩
    · rw [← patchRemoveLoop_map_eq lb old hist _ h]
      exact rangeOrder_perm _ _
    · rw [patchAddLoop_calls _ _ _ _ herr, patchRemoveLoop_calls lb old hist _ hold h]
      congr 2
      apply List.filter_congr
      intro x _
      simp [mem_foldl_mapInsert]

/-! ## Views of the calls of a successful patch -/

theorem rulesRemoved_append_map (descPrefix : String) (l1 l2 : List portMapping) :
    rulesRemoved (l1.map deleteRecord ++ l2.map (addRecord descPrefix)) = l1 := by
  unfold rulesRemoved
  rw [List.filter_append, List.map_append]
  have h1 : (l1.map deleteRecord).filter (fun r => r.call.isDelete) = l1.map deleteRecord :=
    List.filter_eq_self.2 (by
      intro r hr
      obtain ⟨x, _, rfl⟩ := List.mem_map.1 hr
      rfl)
  have h2 : (l2.map (addRecord descPrefix)).filter (fun r => r.call.isDelete) = [] :=
    List.filter_eq_nil_iff.2 (by
      intro r hr
      obtain ⟨x, _, rfl⟩ := List.mem_map.1 hr
      simp [addRecord, clientCall.isDelete])
  rw [h1, h2, List.map_map]
  simp [Function.comp_def, deleteRecord]

theorem rulesAdded_append_map (descPrefix : String) (l1 l2 : List portMapping) :
    rulesAdded (l1.map deleteRecord ++ l2.map (addRecord descPrefix)) = l2 := by
  unfold rulesAdded
  rw [List.filter_append, List.map_append]
  have h1 : (l1.map deleteRecord).filter (fun r => r.call.isAdd) = [] :=
    List.filter_eq_nil_iff.2 (by
      intro r hr
      obtain ⟨x, _, rfl⟩ := List.mem_map.1 hr
      simp [deleteRecord, clientCall.isAdd])
  have h2 : (l2.map (addRecord descPrefix)).filter (fun r => r.call.isAdd)
      = l2.map (addRecord descPrefix) :=
    List.filter_eq_self.2 (by
      intro r hr
      obtain ⟨x, _, rfl⟩ := List.mem_map.1 hr
      rfl)
  rw [h1, h2, List.map_map]
  simp [Function.comp_def, addRecord]

theorem patchLoadBalancer_succeed (lb : LoadBalancer) (hist : List clientCall)
    (order : List Nat) (descPrefix : String) (old new : List portMapping)
    (hclient : ∀ hist call, lb.client.respond hist call = none)
    (hlocal : ∀ pm ∈ new, pm ∉ old → pm.nodeIP = "" ∨ pm.nodeIP = lb.localAddress) :
    (patchLoadBalancer lb hist order descPrefix old new).2 = none := by
  rw [patchLoadBalancer_eq]
  have h := patchRemoveLoop_succeed lb hclient old hist (new.foldl mapInsert [])
  simp only [h]
  apply patchAddLoop_succeed lb descPrefix hclient
  intro pm hpm
  rw [mem_rangeOrder, patchRemoveLoop_map lb old hist _ h, mem_foldl_mapInsert] at hpm
  exact hlocal pm (by simpa using hpm.1) hpm.2

theorem patchLoadBalancer_same_eq (lb : LoadBalancer) (hist : List clientCall)
    (order : List Nat) (descPrefix : String) (S : List portMapping) (hS : S.Nodup) :
    patchLoadBalancer lb hist order descPrefix S S = ([], none) := by
  rw [patchLoadBalancer_eq]
  have hsub : ∀ x ∈ S, x ∈ S.foldl mapInsert [] := by
    intro x hx
    rw [mem_foldl_mapInsert]
    exact Or.inr hx
  obtain ⟨h1, h2⟩ := patchRemoveLoop_of_subset lb S hist _ hS hsub
  have h3 : (patchRemoveLoop lb hist S (S.foldl mapInsert [])).2.1 = [] := by
    rw [patchRemoveLoop_map_eq lb S hist _ h2, List.filter_eq_nil_iff]
    intro x hx
    rw [mem_foldl_mapInsert] at hx
    simpa using hx
  simp only [h2, h1, h3]
  cases order <;> simp [rangeOrder, patchAddLoop]

theorem patchLoadBalancer_to_empty (lb : LoadBalancer) (order : List Nat)
    (descPrefix : String) (old : List portMapping) :
    ∀ hist : List clientCall, (patchLoadBalancer lb hist order descPrefix old []).2 = none →
      (patchLoadBalancer lb hist order descPrefix old []).1 = old.map deleteRecord := by
  intro hist herr
  rw [patchLoadBalancer_eq] at herr ⊢
  simp only [List.foldl_nil] at herr ⊢
  have key : ∀ (old : List portMapping) (hist : List clientCall),
      (patchRemoveLoop lb hist old []).2.2 = none →
        (patchRemoveLoop lb hist old []).1 = old.map deleteRecord ∧
          (patchRemoveLoop lb hist old []).2.1 = [] := by
    intro old
    induction old with
    | nil => intro hist _; simp [patchRemoveLoop]
    | cons pm old ih =>
      intro hist h
      rw [patchRemoveLoop_cons] at h ⊢
      simp only [List.not_mem_nil, if_false] at h ⊢
      split at h
      · simp at h
      · rename_i hresp
        simp only [hresp, List.map_cons]
        exact ⟨by rw [(ih _ h).1], (ih _ h).2⟩
  cases h : (patchRemoveLoop lb hist old []).2.2 with
  | some err => simp [h] at herr
  | none =>
    obtain ⟨h1, h2⟩ := key old hist h
    simp only [h, h1, h2]
    cases order <;> simp [rangeOrder, patchAddLoop]

/-! ## The method `ensureOrUpdateLoadBalancer` -/

/-- The method returns early, before any client call, with the provider
unchanged, or it reaches `patchLoadBalancer` with some resolved node IP and
some old load balancer. -/
theorem ensureOrUpdateLoadBalancer_cases (lb : LoadBalancer) (order : List Nat)
    (clusterName : String) (service : Service) (nodes : List Node) (ensure isDelete : Bool) :
    (∃ e, ensureOrUpdateLoadBalancer lb order clusterName service nodes ensure isDelete
        = ⟨lb, [], none, some e⟩) ∨
    (validateParametersOfLoadBalancer clusterName service nodes = none ∧
      ∃ nodeIP o,
        (if !isDelete then getFirstNodeInternalIP lb.localAddress nodes else .ok "")
          = .ok nodeIP ∧
        (lb.loadBalancers (GetLoadBalancerName clusterName service) = some o ∨
          (lb.loadBalancers (GetLoadBalancerName clusterName service) = none ∧ ensure = true ∧
            o = if isDelete then newLoadBalancerWithPortMappings service nodeIP lb.externalIP
                else newLoadBalancerWithoutPortMappings lb.externalIP))) := by
  cases hval : validateParametersOfLoadBalancer clusterName service nodes with
  | some e => left; exact ⟨e, by simp [ensureOrUpdateLoadBalancer, hval]⟩
  | none =>
    cases hnode : (if !isDelete then getFirstNodeInternalIP lb.localAddress nodes
        else Except.ok "") with
    | error e => left; exact ⟨e, by simp only [ensureOrUpdateLoadBalancer, hval, hnode]⟩
    | ok nodeIP =>
      cases hreg : lb.loadBalancers (GetLoadBalancerName clusterName service) with
      | some o => right; exact ⟨rfl, nodeIP, o, rfl, Or.inl rfl⟩
      | none =>
        cases ensure with
        | false =>
          left
          exact ⟨.updateNotFound (GetLoadBalancerName clusterName service), by
            simp only [ensureOrUpdateLoadBalancer, hval, hnode, hreg]
            rfl⟩
        | true => right; exact ⟨rfl, nodeIP, _, rfl, Or.inr ⟨rfl, rfl, rfl⟩⟩

/-- What the method yields once it reaches `patchLoadBalancer`. -/
theorem ensureOrUpdateLoadBalancer_patch_eq (lb : LoadBalancer) (order : List Nat)
    (clusterName : String) (service : Service) (nodes : List Node) (ensure isDelete : Bool)
    (nodeIP : String) (o : loadBalancer)
    (hval : validateParametersOfLoadBalancer clusterName service nodes = none)
    (hnode : (if !isDelete then getFirstNodeInternalIP lb.localAddress nodes else .ok "")
      = .ok nodeIP)
    (hold : lb.loadBalancers (GetLoadBalancerName clusterName service) = some o ∨
      (lb.loadBalancers (GetLoadBalancerName clusterName service) = none ∧ ensure = true ∧
        o = if isDelete then newLoadBalancerWithPortMappings service nodeIP lb.externalIP
            else newLoadBalancerWithoutPortMappings lb.externalIP)) :
    ensureOrUpdateLoadBalancer lb order clusterName service nodes ensure isDelete
      = match (patchLoadBalancer lb lb.clientLog order (GetLoadBalancerName clusterName service)
            o.portMappings
            (if isDelete then newLoadBalancerWithoutPortMappings lb.externalIP
              else newLoadBalancerWithPortMappings service nodeIP lb.externalIP).portMappings).2
        with
        | some err =>
            ⟨{ lb with clientLog := lb.clientLog ++
                (patchLoadBalancer lb lb.clientLog order (GetLoadBalancerName clusterName service)
                  o.portMappings
                  (if isDelete then newLoadBalancerWithoutPortMappings lb.externalIP
                    else newLoadBalancerWithPortMappings service nodeIP
                      lb.externalIP).portMappings).1.map (·.call) },
              (patchLoadBalancer lb lb.clientLog order (GetLoadBalancerName clusterName service)
                o.portMappings
                (if isDelete then newLoadBalancerWithoutPortMappings lb.externalIP
                  else newLoadBalancerWithPortMappings service nodeIP
                    lb.externalIP).portMappings).1,
              none, some err⟩
        | none =>
            ⟨{ lb with
                clientLog := lb.clientLog ++
                  (patchLoadBalancer lb lb.clientLog order
                    (GetLoadBalancerName clusterName service) o.portMappings
                    (if isDelete then newLoadBalancerWithoutPortMappings lb.externalIP
                      else newLoadBalancerWithPortMappings service nodeIP
                        lb.externalIP).portMappings).1.map (·.call)
                loadBalancers := fun k =>
                  if k = GetLoadBalancerName clusterName service then
                    (if (isDelete &&
                        (lb.loadBalancers (GetLoadBalancerName clusterName service)).isSome) = true
                      then none
                      else some (if isDelete then newLoadBalancerWithoutPortMappings lb.externalIP
                        else newLoadBalancerWithPortMappings service nodeIP lb.externalIP))
                  else lb.loadBalancers k },
              (patchLoadBalancer lb lb.clientLog order (GetLoadBalancerName clusterName service)
                o.portMappings
                (if isDelete then newLoadBalancerWithoutPortMappings lb.externalIP
                  else newLoadBalancerWithPortMappings service nodeIP
                    lb.externalIP).portMappings).1,
              (if (isDelete &&
                  (lb.loadBalancers (GetLoadBalancerName clusterName service)).isSome) = true
                then none
                else some (if isDelete then newLoadBalancerWithoutPortMappings lb.externalIP
                  else newLoadBalancerWithPortMappings service nodeIP lb.externalIP)),
              none⟩ := by
  have hold2 : (match lb.loadBalancers (GetLoadBalancerName clusterName service) with
      | some oldLoadBalancer => Except.ok oldLoadBalancer
      | none =>
          if (!ensure) = true then
            Except.error (error.updateNotFound (GetLoadBalancerName clusterName service))
          else if isDelete = true then
            Except.ok (newLoadBalancerWithPortMappings service nodeIP lb.externalIP)
          else Except.ok (newLoadBalancerWithoutPortMappings lb.externalIP)) = Except.ok o := by
    rcases hold with h | ⟨h, he, ho⟩
    · rw [h]
    · rw [h, he, ho]
      cases isDelete <;> rfl
  unfold ensureOrUpdateLoadBalancer
  simp only [hval, hnode, hold2]
  rcases patchLoadBalancer lb lb.clientLog order (GetLoadBalancerName clusterName service)
      o.portMappings
      (if isDelete then newLoadBalancerWithoutPortMappings lb.externalIP
        else newLoadBalancerWithPortMappings service nodeIP lb.externalIP).portMappings
    with ⟨calls, _ | err⟩
  · simp only
    split <;> rename_i hc
    · simp only [hc, if_true]
    · simp only [hc]
  · rfl

/-- The parts of what the method yields once it reaches `patchLoadBalancer`
from the old load balancer `o` towards the new load balancer `n`. -/
theorem ensureOrUpdateLoadBalancer_patch (lb : LoadBalancer) (order : List Nat)
    (clusterName : String) (service : Service) (nodes : List Node) (ensure isDelete : Bool)
    (nodeIP : String) (o n : loadBalancer)
    (hval : validateParametersOfLoadBalancer clusterName service nodes = none)
    (hnode : (if !isDelete then getFirstNodeInternalIP lb.localAddress nodes else .ok "")
      = .ok nodeIP)
    (hold : lb.loadBalancers (GetLoadBalancerName clusterName service) = some o ∨
      (lb.loadBalancers (GetLoadBalancerName clusterName service) = none ∧ ensure = true ∧
        o = if isDelete then newLoadBalancerWithPortMappings service nodeIP lb.externalIP
            else newLoadBalancerWithoutPortMappings lb.externalIP))
    (hn : n = if isDelete then newLoadBalancerWithoutPortMappings lb.externalIP
      else newLoadBalancerWithPortMappings service nodeIP lb.externalIP) :
    (ensureOrUpdateLoadBalancer lb order clusterName service nodes ensure isDelete).calls
      = (patchLoadBalancer lb lb.clientLog order (GetLoadBalancerName clusterName service)
          o.portMappings n.portMappings).1 ∧
    (ensureOrUpdateLoadBalancer lb order clusterName service nodes ensure isDelete).err
      = (patchLoadBalancer lb lb.clientLog order (GetLoadBalancerName clusterName service)
          o.portMappings n.portMappings).2 ∧
    (ensureOrUpdateLoadBalancer lb order clusterName service nodes ensure isDelete).lb.client
      = lb.client ∧
    (ensureOrUpdateLoadBalancer lb order clusterName service nodes ensure isDelete).lb.localAddress
      = lb.localAddress ∧
    (ensureOrUpdateLoadBalancer lb order clusterName service nodes ensure isDelete).lb.externalIP
      = lb.externalIP ∧
    (ensureOrUpdateLoadBalancer lb order clusterName service nodes ensure isDelete).lb.clientLog
      = lb.clientLog ++ (patchLoadBalancer lb lb.clientLog order
          (GetLoadBalancerName clusterName service) o.portMappings n.portMappings).1.map (·.call) ∧
    ((patchLoadBalancer lb lb.clientLog order (GetLoadBalancerName clusterName service)
          o.portMappings n.portMappings).2 = none →
      (ensureOrUpdateLoadBalancer lb order clusterName service nodes ensure isDelete).lb.loadBalancers
          = (fun k =>
              if k = GetLoadBalancerName clusterName service then
                (if (isDelete &&
                    (lb.loadBalancers (GetLoadBalancerName clusterName service)).isSome) = true
                  then none else some n)
              else lb.loadBalancers k) ∧
        (ensureOrUpdateLoadBalancer lb order clusterName service nodes ensure isDelete).loadBalancer
          = (if (isDelete &&
                (lb.loadBalancers (GetLoadBalancerName clusterName service)).isSome) = true
              then none else some n)) := by
  subst hn
  rw [ensureOrUpdateLoadBalancer_patch_eq lb order clusterName service nodes ensure isDelete
    nodeIP o hval hnode hold]
  cases hp : (patchLoadBalancer lb lb.clientLog order (GetLoadBalancerName clusterName service)
      o.portMappings
      (if isDelete then newLoadBalancerWithoutPortMappings lb.externalIP
        else newLoadBalancerWithPortMappings service nodeIP lb.externalIP).portMappings).2 with
  | some err => exact ⟨rfl, rfl, rfl, rfl, rfl, rfl, fun h => by cases h⟩
  | none => exact ⟨rfl, rfl, rfl, rfl, rfl, rfl, fun _ => ⟨rfl, rfl⟩⟩

theorem mockClient_succeeds (hist : List clientCall) (call : clientCall) :
    mockClient.respond hist call = none := by
  cases call <;> rfl

/-! ## Claims about `patchLoadBalancer` -/

/-- C1 (amended): for duplicate-free lists `old` and `new`, a client whose
calls all succeed, and every entry of `new` that is not in `old` targeting
the empty node IP or the local address of the provider, `patchLoadBalancer`
returns no error and its calls are, in this order: one `DeletePortMapping`
call with the external port and protocol of each entry of `old` that is not
in `new`, in the order of `old`, then exactly one `AddPortMapping` call for
each entry of `new` that is not in `old`, in some order. Entries present in
both lists cause no call. -/
theorem patchLoadBalancer_diff (lb : LoadBalancer) (hist : List clientCall) (order : List Nat)
    (descPrefix : String) (old new : List portMapping) (hold : old.Nodup) (hnew : new.Nodup)
    (hclient : ∀ hist call, lb.client.respond hist call = none)
    (hlocal : ∀ pm ∈ new, pm ∉ old → pm.nodeIP = "" ∨ pm.nodeIP = lb.localAddress) :
    (patchLoadBalancer lb hist order descPrefix old new).2 = none ∧
    ∃ toAdd : List portMapping,
      toAdd.Perm (new.filter (fun x => x ∉ old)) ∧
      (patchLoadBalancer lb hist order descPrefix old new).1
        = (old.filter (fun x => x ∉ new)).map deleteRecord
          ++ toAdd.map (addRecord descPrefix) := by
  have herr := patchLoadBalancer_succeed lb hist order descPrefix old new hclient hlocal
  refine ⟨herr, ?_⟩
  obtain ⟨toAdd, hperm, hcalls⟩ := patchLoadBalancer_ok lb hist order descPrefix old new hold herr
  rw [foldl_mapInsert_of_nodup new [] (by simpa using hnew)] at hperm
  exact ⟨toAdd, by simpa using hperm, hcalls⟩

/-- C1, at the input of `TestPatchLoadBalancer`: nothing is refused, and the
mock client ends with `removed` and `added` as the test expects. -/
theorem patchLoadBalancer_diff_witness :
    ((patchLoadBalancer testLoadBalancer [] [] "foo" oldMapping newMapping).2 = none ∧
      ∃ toAdd : List portMapping,
        toAdd.Perm (newMapping.filter (fun x => x ∉ oldMapping)) ∧
        (patchLoadBalancer testLoadBalancer [] [] "foo" oldMapping newMapping).1
          = (oldMapping.filter (fun x => x ∉ newMapping)).map deleteRecord
            ++ toAdd.map (addRecord "foo")) ∧
    mockClientRemoved
        ((patchLoadBalancer testLoadBalancer [] [] "foo" oldMapping newMapping).1.map (·.call))
      = [⟨"TCP", 12345, "", 0⟩] ∧
    mockClientAdded
        ((patchLoadBalancer testLoadBalancer [] [] "foo" oldMapping newMapping).1.map (·.call))
      = [⟨"TCP", 12345, "192.0.2.1", 23456⟩] :=
  ⟨patchLoadBalancer_diff testLoadBalancer [] [] "foo" oldMapping newMapping (by decide)
      (by decide) mockClient_succeeds (by decide),
    by decide, by decide⟩

/-- C1 as stated fails: with duplicate-free lists and the mock client, whose
calls all succeed, `patchLoadBalancer` returns an error when an entry to add
targets another host than the local address; no call is issued. -/
theorem patchLoadBalancer_refuses_other_host :
    ([] : List portMapping).Nodup ∧ [mappingOtherHost].Nodup ∧
    patchLoadBalancer testLoadBalancer [] [] "foo" [] [mappingOtherHost]
      = ([], some (.localClientCantBeUsed "192.0.2.1" "192.0.2.2")) := by
  decide

/-- C2 (amended): for all lists `old` and `new`, every rule that
`patchLoadBalancer` adds is not in `old` and every rule it deletes is in
`old`; and when `old` has no duplicate and `patchLoadBalancer` returns no
error, `(old` minus the rules deleted`)` union the rules added has the same
rules as `new`. -/
theorem patchLoadBalancer_minimal (lb : LoadBalancer) (hist : List clientCall)
    (order : List Nat) (descPrefix : String) (old new : List portMapping) :
    (∀ x ∈ rulesAdded (patchLoadBalancer lb hist order descPrefix old new).1, x ∉ old) ∧
    (∀ x ∈ rulesRemoved (patchLoadBalancer lb hist order descPrefix old new).1, x ∈ old) ∧
    (old.Nodup → (patchLoadBalancer lb hist order descPrefix old new).2 = none →
      ∀ x, x ∈ new ↔
        (x ∈ old ∧ x ∉ rulesRemoved (patchLoadBalancer lb hist order descPrefix old new).1) ∨
          x ∈ rulesAdded (patchLoadBalancer lb hist order descPrefix old new).1) := by
  refine ⟨?_, ?_, ?_⟩
  · intro x hx
    obtain ⟨r, hr, rfl⟩ := List.mem_map.1 hx
    rw [List.mem_filter] at hr
    rcases patchLoadBalancer_records lb hist order descPrefix old new r hr.1 with h | h
    · have hadd := hr.2
      rw [h.1] at hadd
      simp [deleteRecord, clientCall.isAdd] at hadd
    · exact h.2.2
  · intro x hx
    obtain ⟨r, hr, rfl⟩ := List.mem_map.1 hx
    rw [List.mem_filter] at hr
    rcases patchLoadBalancer_records lb hist order descPrefix old new r hr.1 with h | h
    · exact h.2
    · have hdel := hr.2
      rw [h.1] at hdel
      simp [addRecord, clientCall.isDelete] at hdel
  · intro hold herr x
    obtain ⟨toAdd, hperm, hcalls⟩ :=
      patchLoadBalancer_ok lb hist order descPrefix old new hold herr
    rw [hcalls, rulesRemoved_append_map, rulesAdded_append_map, hperm.mem_iff]
    simp only [List.mem_filter, mem_foldl_mapInsert, List.not_mem_nil, false_or,
      decide_eq_true_eq, not_and, not_not]
    by_cases hxo : x ∈ old <;> by_cases hxn : x ∈ new <;> simp [hxo, hxn]

/-- C2, at the input of `TestPatchLoadBalancer`. -/
theorem patchLoadBalancer_minimal_witness :
    rulesRemoved (patchLoadBalancer testLoadBalancer [] [] "foo" oldMapping newMapping).1
      = [mappingA] ∧
    rulesAdded (patchLoadBalancer testLoadBalancer [] [] "foo" oldMapping newMapping).1
      = [mappingC] ∧
    (mappingB ∈ newMapping ↔
      (mappingB ∈ oldMapping ∧ mappingB ∉
          rulesRemoved (patchLoadBalancer testLoadBalancer [] [] "foo" oldMapping newMapping).1) ∨
        mappingB ∈
          rulesAdded (patchLoadBalancer testLoadBalancer [] [] "foo" oldMapping newMapping).1) :=
  ⟨by decide, by decide,
    (patchLoadBalancer_minimal testLoadBalancer [] [] "foo" oldMapping newMapping).2.2
      (by decide) (by decide) mappingB⟩

/-- C2 as stated fails. With `old = [A, A]` and `new = [A]` the second `A` is
deleted and nothing is added, so `(old` minus deleted`)` union added is empty
while `new` holds `A`. With `old = []` and a `new` entry for another host,
the add is refused, nothing is added, and `new` is not empty. -/
theorem patchLoadBalancer_not_minimal :
    (rulesRemoved (patchLoadBalancer testLoadBalancer [] [] "foo" [mappingA, mappingA]
        [mappingA]).1 = [mappingA] ∧
      rulesAdded (patchLoadBalancer testLoadBalancer [] [] "foo" [mappingA, mappingA]
        [mappingA]).1 = [] ∧
      ¬ (mappingA ∈ [mappingA] ↔
        (mappingA ∈ [mappingA, mappingA] ∧ mappingA ∉
            rulesRemoved (patchLoadBalancer testLoadBalancer [] [] "foo" [mappingA, mappingA]
              [mappingA]).1) ∨
          mappingA ∈ rulesAdded (patchLoadBalancer testLoadBalancer [] [] "foo"
            [mappingA, mappingA] [mappingA]).1)) ∧
    (rulesRemoved (patchLoadBalancer testLoadBalancer [] [] "foo" [] [mappingOtherHost]).1 = [] ∧
      rulesAdded (patchLoadBalancer testLoadBalancer [] [] "foo" [] [mappingOtherHost]).1 = [] ∧
      ¬ (mappingOtherHost ∈ [mappingOtherHost] ↔
        (mappingOtherHost ∈ ([] : List portMapping) ∧ mappingOtherHost ∉
            rulesRemoved (patchLoadBalancer testLoadBalancer [] [] "foo" []
              [mappingOtherHost]).1) ∨
          mappingOtherHost ∈ rulesAdded (patchLoadBalancer testLoadBalancer [] [] "foo" []
            [mappingOtherHost]).1)) := by
  decide

/-- C3 (amended): for every duplicate-free list `S` and every client,
`patchLoadBalancer(prefix, S, S)` issues no call and returns no error. -/
theorem patchLoadBalancer_same (lb : LoadBalancer) (hist : List clientCall) (order : List Nat)
    (descPrefix : String) (S : List portMapping) (hS : S.Nodup) :
    (patchLoadBalancer lb hist order descPrefix S S).1 = [] ∧
    (patchLoadBalancer lb hist order descPrefix S S).2 = none := by
  rw [patchLoadBalancer_same_eq lb hist order descPrefix S hS]
  exact ⟨rfl, rfl⟩

/-- C3, at the list `oldMapping` of the test. -/
theorem patchLoadBalancer_same_witness :
    oldMapping.Nodup ∧
    (patchLoadBalancer testLoadBalancer [] [] "foo" oldMapping oldMapping).1 = [] ∧
    (patchLoadBalancer testLoadBalancer [] [] "foo" oldMapping oldMapping).2 = none :=
  ⟨by decide, patchLoadBalancer_same testLoadBalancer [] [] "foo" oldMapping (by decide)⟩

/-- C3 as stated fails: for `S = [A, A]`, `patchLoadBalancer(prefix, S, S)`
issues a `DeletePortMapping` call for the second `A`. -/
theorem patchLoadBalancer_same_duplicate :
    (patchLoadBalancer testLoadBalancer [] [] "foo" [mappingA, mappingA]
        [mappingA, mappingA]).1.map (·.call)
      = [.DeletePortMapping "" 12345 "TCP"] := by
  decide

/-- The calls of `patchLoadBalancer` from the list `[a]` to the list `[b]`
when `a` and `b` differ: the `DeletePortMapping` call for `a` comes first,
and any further call is the `AddPortMapping` call for `b`. -/
theorem patchLoadBalancer_single_ne (lb : LoadBalancer) (hist : List clientCall)
    (order : List Nat) (descPrefix : String) (a b : portMapping) (hab : a ≠ b) :
    ∃ rest, (patchLoadBalancer lb hist order descPrefix [a] [b]).1 = deleteRecord a :: rest ∧
      ∀ r ∈ rest, r = addRecord descPrefix b := by
  have hm : ([b] : List portMapping).foldl mapInsert [] = [b] := by
    simp [mapInsert]
  have hne : a ∉ [b] := by simpa using hab
  have hrange : rangeOrder order [b] = [b] := by
    have hperm := rangeOrder_perm order [b]
    exact List.perm_singleton.1 hperm
  rw [patchLoadBalancer_eq, hm, patchRemoveLoop_cons]
  simp only [hne, if_false]
  cases hresp : lb.client.respond hist (deleteRecord a).call with
  | some e => exact ⟨[], rfl, fun r hr => absurd hr (List.not_mem_nil _)⟩
  | none =>
    simp only [patchRemoveLoop, hrange]
    refine ⟨_, rfl, ?_⟩
    intro r hr
    have := (patchAddLoop_records lb descPrefix [b] _ r hr)
    rw [this.1]
    have hpm : r.pm = b := by simpa using this.2
    rw [hpm]

/-- C8 (amended): the diff compares whole port mappings (service port with
its name and target port, and node IP): `patchLoadBalancer(prefix, [a], [b])`
issues no client call exactly when `a` and `b` are equal in every field;
when they differ in any field, its first call is the `DeletePortMapping`
call for `a`, and any further call is the `AddPortMapping` call for `b`. -/
theorem patchLoadBalancer_single (lb : LoadBalancer) (hist : List clientCall)
    (order : List Nat) (descPrefix : String) (a b : portMapping) :
    ((patchLoadBalancer lb hist order descPrefix [a] [b]).1 = [] ↔ a = b) ∧
    (a ≠ b →
      ∃ rest, (patchLoadBalancer lb hist order descPrefix [a] [b]).1 = deleteRecord a :: rest ∧
        ∀ r ∈ rest, r = addRecord descPrefix b) := by
  refine ⟨⟨?_, ?_⟩, patchLoadBalancer_single_ne lb hist order descPrefix a b⟩
  · intro h
    by_contra hab
    obtain ⟨rest, hrest, _⟩ := patchLoadBalancer_single_ne lb hist order descPrefix a b hab
    rw [hrest] at h
    cases h
  · rintro rfl
    rw [patchLoadBalancer_same_eq lb hist order descPrefix [a] (List.nodup_singleton a)]

/-- C8, at the mappings `B` and `C` of the test, which differ in the port
name only, and at `B` against itself. -/
theorem patchLoadBalancer_single_witness :
    (∃ rest, (patchLoadBalancer testLoadBalancer [] [] "foo" [mappingB] [mappingC]).1
        = deleteRecord mappingB :: rest ∧ ∀ r ∈ rest, r = addRecord "foo" mappingC) ∧
    (patchLoadBalancer testLoadBalancer [] [] "foo" [mappingB] [mappingB]).1 = [] :=
  ⟨(patchLoadBalancer_single testLoadBalancer [] [] "foo" mappingB mappingC).2 (by decide),
    (patchLoadBalancer_single testLoadBalancer [] [] "foo" mappingB mappingB).1.2 rfl⟩

/-- C8 as stated fails: the mappings `B` and `C` of the test agree on
protocol, external port, node IP and node port and differ in the port name;
`patchLoadBalancer(prefix, [B], [C])` deletes `B` and adds `C`. -/
theorem patchLoadBalancer_single_name :
    mappingB.servicePort.Protocol = mappingC.servicePort.Protocol ∧
    mappingB.servicePort.Port = mappingC.servicePort.Port ∧
    mappingB.nodeIP = mappingC.nodeIP ∧
    mappingB.servicePort.NodePort = mappingC.servicePort.NodePort ∧
    (patchLoadBalancer testLoadBalancer [] [] "foo" [mappingB] [mappingC]).1.map (·.call)
      = [.DeletePortMapping "" 12345 "TCP",
          .AddPortMapping "" 12345 "TCP" 23456 "192.0.2.1" true "foo/svc-port-1" 0] := by
  decide

/-! ## Shape of one call of `ensureOrUpdateLoadBalancer` -/

theorem ensureOrUpdateLoadBalancer_shape (lb : LoadBalancer) (order : List Nat)
    (clusterName : String) (service : Service) (nodes : List Node) (ensure isDelete : Bool) :
    ((ensureOrUpdateLoadBalancer lb order clusterName service nodes ensure isDelete).calls = [] ∧
      (ensureOrUpdateLoadBalancer lb order clusterName service nodes ensure isDelete).lb.loadBalancers
        = lb.loadBalancers) ∨
    ∃ old new,
      (ensureOrUpdateLoadBalancer lb order clusterName service nodes ensure isDelete).calls
        = (patchLoadBalancer lb lb.clientLog order (GetLoadBalancerName clusterName service)
            old new).1 ∧
      (ensureOrUpdateLoadBalancer lb order clusterName service nodes ensure isDelete).err
        = (patchLoadBalancer lb lb.clientLog order (GetLoadBalancerName clusterName service)
            old new).2 ∧
      ((ensureOrUpdateLoadBalancer lb order clusterName service nodes ensure isDelete).err ≠ none →
        (ensureOrUpdateLoadBalancer lb order clusterName service nodes ensure
          isDelete).lb.loadBalancers = lb.loadBalancers) := by
  rcases ensureOrUpdateLoadBalancer_cases lb order clusterName service nodes ensure isDelete
    with ⟨e, he⟩ | ⟨hval, nodeIP, o, hnode, hold⟩
  · left
    rw [he]
    exact ⟨rfl, rfl⟩
  · right
    refine ⟨o.portMappings,
      (if isDelete then newLoadBalancerWithoutPortMappings lb.externalIP
        else newLoadBalancerWithPortMappings service nodeIP lb.externalIP).portMappings, ?_⟩
    rw [ensureOrUpdateLoadBalancer_patch_eq lb order clusterName service nodes ensure isDelete
      nodeIP o hval hnode hold]
    cases hp : (patchLoadBalancer lb lb.clientLog order (GetLoadBalancerName clusterName service)
        o.portMappings
        (if isDelete then newLoadBalancerWithoutPortMappings lb.externalIP
          else newLoadBalancerWithPortMappings service nodeIP lb.externalIP).portMappings).2 with
    | some err => exact ⟨rfl, rfl, fun _ => rfl⟩
    | none => exact ⟨rfl, rfl, fun h => absurd rfl h⟩

theorem ensureOrUpdateLoadBalancer_removesBeforeAdds (lb : LoadBalancer) (order : List Nat)
    (clusterName : String) (service : Service) (nodes : List Node) (ensure isDelete : Bool) :
    removesBeforeAdds ((ensureOrUpdateLoadBalancer lb order clusterName service nodes ensure
      isDelete).calls.map (·.call)) := by
  rcases ensureOrUpdateLoadBalancer_shape lb order clusterName service nodes ensure isDelete
    with ⟨h, _⟩ | ⟨old, new, h, _, _⟩
  · rw [h]
    exact List.Pairwise.nil
  · rw [h]
    exact patchLoadBalancer_removesBeforeAdds _ _ _ _ _ _

theorem ensureOrUpdateLoadBalancer_aborts (lb : LoadBalancer) (order : List Nat)
    (clusterName : String) (service : Service) (nodes : List Node) (ensure isDelete : Bool) :
    abortsOnFirstError lb
      (ensureOrUpdateLoadBalancer lb order clusterName service nodes ensure isDelete) := by
  intro i e hie
  rcases ensureOrUpdateLoadBalancer_shape lb order clusterName service nodes ensure isDelete
    with ⟨h, _⟩ | ⟨old, new, hcalls, herr, hreg⟩
  · rw [h] at hie
    simp at hie
  · have hrun := patchLoadBalancer_run lb lb.clientLog order
      (GetLoadBalancerName clusterName service) old new
    rw [← hcalls, ← herr] at hrun
    have := clientRun_failure _ _ _ _ hrun i e hie
    refine ⟨by simpa using this.1, this.2, hreg ?_⟩
    rw [this.2]
    exact Option.some_ne_none e

/-! ## Claims about the order of calls and about client errors -/

/-- C9: for every old and new list and every client, no `DeletePortMapping`
call comes after an `AddPortMapping` call among the calls of one
`patchLoadBalancer` run, and so among the calls of one `EnsureLoadBalancer`,
`UpdateLoadBalancer` or `EnsureLoadBalancerDeleted` call. -/
theorem removes_before_adds (lb : LoadBalancer) (hist : List clientCall) (order : List Nat)
    (descPrefix clusterName : String) (old new : List portMapping) (service : Service)
    (nodes : List Node) :
    removesBeforeAdds ((patchLoadBalancer lb hist order descPrefix old new).1.map (·.call)) ∧
    removesBeforeAdds
      ((EnsureLoadBalancer lb order clusterName service nodes).calls.map (·.call)) ∧
    removesBeforeAdds
      ((UpdateLoadBalancer lb order clusterName service nodes).calls.map (·.call)) ∧
    removesBeforeAdds
      ((EnsureLoadBalancerDeleted lb order clusterName service).calls.map (·.call)) :=
  ⟨patchLoadBalancer_removesBeforeAdds _ _ _ _ _ _,
    ensureOrUpdateLoadBalancer_removesBeforeAdds _ _ _ _ _ _ _,
    ensureOrUpdateLoadBalancer_removesBeforeAdds _ _ _ _ _ _ _,
    ensureOrUpdateLoadBalancer_removesBeforeAdds _ _ _ _ _ _ _⟩

/-- C10: in every `EnsureLoadBalancer`, `UpdateLoadBalancer` and
`EnsureLoadBalancerDeleted` call, a client call that returns an error is the
last client call made, the operation returns that error, and the registry is
what it was before the call. -/
theorem aborts_on_first_client_error (lb : LoadBalancer) (order : List Nat)
    (clusterName : String) (service : Service) (nodes : List Node) :
    abortsOnFirstError lb (EnsureLoadBalancer lb order clusterName service nodes) ∧
    abortsOnFirstError lb (UpdateLoadBalancer lb order clusterName service nodes) ∧
    abortsOnFirstError lb (EnsureLoadBalancerDeleted lb order clusterName service) :=
  ⟨ensureOrUpdateLoadBalancer_aborts _ _ _ _ _ _ _,
    ensureOrUpdateLoadBalancer_aborts _ _ _ _ _ _ _,
    ensureOrUpdateLoadBalancer_aborts _ _ _ _ _ _ _⟩

/-- C10, at a client whose `AddPortMapping` fails: `EnsureLoadBalancer` makes
one call, returns the error of that call and leaves the registry as it
was. -/
theorem aborts_on_first_client_error_witness :
    (EnsureLoadBalancer addFailingLoadBalancer [] "cluster" exampleService
        [exampleNode]).calls.map (·.call)
      = [.AddPortMapping "" 8080 "TCP" 30080 "192.0.2.1" true "cluster/default/my-service/http" 0] ∧
    0 + 1 = (EnsureLoadBalancer addFailingLoadBalancer [] "cluster" exampleService
        [exampleNode]).calls.length ∧
    (EnsureLoadBalancer addFailingLoadBalancer [] "cluster" exampleService [exampleNode]).err
      = some (.client "ConflictInMappingEntry") ∧
    (EnsureLoadBalancer addFailingLoadBalancer [] "cluster" exampleService
        [exampleNode]).lb.loadBalancers = addFailingLoadBalancer.loadBalancers :=
  ⟨by decide,
    (aborts_on_first_client_error addFailingLoadBalancer [] "cluster" exampleService
      [exampleNode]).1 0 (.client "ConflictInMappingEntry") (by decide)⟩

/-! ## Successful calls -/

/-- A call that is not a delete and returns no error: the service is valid, a
node IP was resolved, and the registry holds the new load balancer. -/
theorem ensureOrUpdateLoadBalancer_notDelete_ok (lb : LoadBalancer) (order : List Nat)
    (clusterName : String) (service : Service) (nodes : List Node) (ensure : Bool)
    (h : (ensureOrUpdateLoadBalancer lb order clusterName service nodes ensure false).err = none) :
    validateParametersOfLoadBalancer clusterName service nodes = none ∧
    ∃ nodeIP, getFirstNodeInternalIP lb.localAddress nodes = .ok nodeIP ∧
      (ensureOrUpdateLoadBalancer lb order clusterName service nodes ensure false).lb.loadBalancers
          (GetLoadBalancerName clusterName service)
        = some (newLoadBalancerWithPortMappings service nodeIP lb.externalIP) ∧
      (ensureOrUpdateLoadBalancer lb order clusterName service nodes ensure false).loadBalancer
        = some (newLoadBalancerWithPortMappings service nodeIP lb.externalIP) ∧
      (ensureOrUpdateLoadBalancer lb order clusterName service nodes ensure false).lb.localAddress
        = lb.localAddress ∧
      (ensureOrUpdateLoadBalancer lb order clusterName service nodes ensure false).lb.externalIP
        = lb.externalIP ∧
      (ensureOrUpdateLoadBalancer lb order clusterName service nodes ensure false).lb.client
        = lb.client := by
  rcases ensureOrUpdateLoadBalancer_cases lb order clusterName service nodes ensure false
    with ⟨e, he⟩ | ⟨hval, nodeIP, o, hnode, hold⟩
  · rw [he] at h
    simp at h
  · refine ⟨hval, nodeIP, by simpa using hnode, ?_⟩
    obtain ⟨_, herr, hclient, hlocal, hext, _, hreg⟩ :=
      ensureOrUpdateLoadBalancer_patch lb order clusterName service nodes ensure false
        nodeIP o (newLoadBalancerWithPortMappings service nodeIP lb.externalIP) hval hnode hold rfl
    rw [herr] at h
    obtain ⟨hreg1, hreg2⟩ := hreg h
    refine ⟨?_, ?_, hlocal, hext, hclient⟩
    · rw [hreg1]
      simp
    · rw [hreg2]
      simp

/-- What `EnsureLoadBalancerDeleted` yields for a service that the validator
accepts, in terms of the old load balancer `o` it starts from. -/
theorem EnsureLoadBalancerDeleted_patch (lb : LoadBalancer) (order : List Nat)
    (clusterName : String) (service : Service) (o : loadBalancer)
    (hval : validateParametersOfLoadBalancer clusterName service [] = none)
    (hold : lb.loadBalancers (GetLoadBalancerName clusterName service) = some o ∨
      (lb.loadBalancers (GetLoadBalancerName clusterName service) = none ∧
        o = newLoadBalancerWithPortMappings service "" lb.externalIP)) :
    (EnsureLoadBalancerDeleted lb order clusterName service).calls
      = (patchLoadBalancer lb lb.clientLog order (GetLoadBalancerName clusterName service)
          o.portMappings []).1 ∧
    (EnsureLoadBalancerDeleted lb order clusterName service).err
      = (patchLoadBalancer lb lb.clientLog order (GetLoadBalancerName clusterName service)
          o.portMappings []).2 ∧
    ((EnsureLoadBalancerDeleted lb order clusterName service).err = none →
      (EnsureLoadBalancerDeleted lb order clusterName service).lb.loadBalancers
          (GetLoadBalancerName clusterName service)
        = if (lb.loadBalancers (GetLoadBalancerName clusterName service)).isSome then none
          else some (newLoadBalancerWithoutPortMappings lb.externalIP)) := by
  have hold2 : lb.loadBalancers (GetLoadBalancerName clusterName service) = some o ∨
      (lb.loadBalancers (GetLoadBalancerName clusterName service) = none ∧ true = true ∧
        o = if true = true then newLoadBalancerWithPortMappings service "" lb.externalIP
            else newLoadBalancerWithoutPortMappings lb.externalIP) := by
    rcases hold with h | ⟨h, ho⟩
    · exact Or.inl h
    · exact Or.inr ⟨h, rfl, ho⟩
  obtain ⟨hcalls, herr, _, _, _, _, hreg⟩ :=
    ensureOrUpdateLoadBalancer_patch lb order clusterName service [] true true
      "" o (newLoadBalancerWithoutPortMappings lb.externalIP) hval rfl hold2 rfl
  refine ⟨hcalls, herr, ?_⟩
  intro h
  have h2 := (hreg (herr ▸ h)).1
  show (ensureOrUpdateLoadBalancer lb order clusterName service [] true true).lb.loadBalancers
      (GetLoadBalancerName clusterName service) = _
  rw [h2]
  simp

/-! ## Claims about the registry operations -/

/-- C4 (amended): for every service whose declared ports are pairwise
distinct and every node list, if `EnsureLoadBalancer` succeeds and is then
invoked again with the same service and node list on the resulting state,
the second invocation issues no client call and succeeds. -/
theorem EnsureLoadBalancer_twice (lb : LoadBalancer) (order order2 : List Nat)
    (clusterName : String) (service : Service) (nodes : List Node)
    (hports : service.Spec.Ports.Nodup)
    (h : (EnsureLoadBalancer lb order clusterName service nodes).err = none) :
    (EnsureLoadBalancer (EnsureLoadBalancer lb order clusterName service nodes).lb order2
        clusterName service nodes).calls = [] ∧
    (EnsureLoadBalancer (EnsureLoadBalancer lb order clusterName service nodes).lb order2
        clusterName service nodes).err = none := by
  obtain ⟨hval, nodeIP, hnode, hreg, _, hlocal, hext, _⟩ :=
    ensureOrUpdateLoadBalancer_notDelete_ok lb order clusterName service nodes true h
  have hnode2 : (if !false then getFirstNodeInternalIP
      (EnsureLoadBalancer lb order clusterName service nodes).lb.localAddress nodes
        else Except.ok "") = Except.ok nodeIP := by
    have : (EnsureLoadBalancer lb order clusterName service nodes).lb.localAddress
        = lb.localAddress := hlocal
    rw [this]
    simpa using hnode
  have hn : newLoadBalancerWithPortMappings service nodeIP lb.externalIP
      = if false = true then newLoadBalancerWithoutPortMappings
          (EnsureLoadBalancer lb order clusterName service nodes).lb.externalIP
        else newLoadBalancerWithPortMappings service nodeIP
          (EnsureLoadBalancer lb order clusterName service nodes).lb.externalIP := by
    have : (EnsureLoadBalancer lb order clusterName service nodes).lb.externalIP
        = lb.externalIP := hext
    rw [this]
    rfl
  obtain ⟨hcalls, herr, _⟩ :=
    ensureOrUpdateLoadBalancer_patch (EnsureLoadBalancer lb order clusterName service nodes).lb
      order2 clusterName service nodes true false nodeIP
      (newLoadBalancerWithPortMappings service nodeIP lb.externalIP)
      (newLoadBalancerWithPortMappings service nodeIP lb.externalIP) hval hnode2
      (Or.inl hreg) hn
  have hnd : (newLoadBalancerWithPortMappings service nodeIP lb.externalIP).portMappings.Nodup := by
    unfold newLoadBalancerWithPortMappings
    apply List.Nodup.map _ hports
    intro a b hab
    simpa using hab
  have hsame := patchLoadBalancer_same_eq
    (EnsureLoadBalancer lb order clusterName service nodes).lb
    (EnsureLoadBalancer lb order clusterName service nodes).lb.clientLog order2
    (GetLoadBalancerName clusterName service) _ hnd
  unfold EnsureLoadBalancer at hcalls herr hsame ⊢
  rw [hcalls, herr, hsame]
  exact ⟨rfl, rfl⟩

/-- C4, at the service `exampleService` and the node `exampleNode`. -/
theorem EnsureLoadBalancer_twice_witness :
    (EnsureLoadBalancer exampleLoadBalancer [] "cluster" exampleService [exampleNode]).calls.map
        (·.call)
      = [.AddPortMapping "" 8080 "TCP" 30080 "192.0.2.1" true
          "cluster/default/my-service/http" 0] ∧
    (EnsureLoadBalancer
        (EnsureLoadBalancer exampleLoadBalancer [] "cluster" exampleService [exampleNode]).lb []
        "cluster" exampleService [exampleNode]).calls = [] ∧
    (EnsureLoadBalancer
        (EnsureLoadBalancer exampleLoadBalancer [] "cluster" exampleService [exampleNode]).lb []
        "cluster" exampleService [exampleNode]).err = none :=
  ⟨by decide,
    EnsureLoadBalancer_twice exampleLoadBalancer [] [] "cluster" exampleService [exampleNode]
      (by decide) (by decide)⟩

/-- C4 as stated fails: for a valid service that declares the same port
twice, `EnsureLoadBalancer` succeeds with one `AddPortMapping` call, and the
second, identical invocation succeeds and issues a `DeletePortMapping` call
for that port. -/
theorem EnsureLoadBalancer_twice_duplicate :
    (EnsureLoadBalancer exampleLoadBalancer [] "cluster" duplicatePortService [exampleNode]).err
      = none ∧
    (EnsureLoadBalancer
        (EnsureLoadBalancer exampleLoadBalancer [] "cluster" duplicatePortService
          [exampleNode]).lb []
        "cluster" duplicatePortService [exampleNode]).err = none ∧
    (EnsureLoadBalancer
        (EnsureLoadBalancer exampleLoadBalancer [] "cluster" duplicatePortService
          [exampleNode]).lb []
        "cluster" duplicatePortService [exampleNode]).calls.map (·.call)
      = [.DeletePortMapping "" 8080 "TCP"] := by
  decide

/-- C5, at the failing input: the registry has no record for the service,
`EnsureLoadBalancerDeleted` returns no error, and afterwards the registry
holds a record for the service: `GetLoadBalancer` reports that the load
balancer exists. -/
theorem EnsureLoadBalancerDeleted_creates_record :
    GetLoadBalancer exampleLoadBalancer "cluster" exampleService = (none, false) ∧
    (EnsureLoadBalancerDeleted exampleLoadBalancer [] "cluster" exampleService).err = none ∧
    GetLoadBalancer (EnsureLoadBalancerDeleted exampleLoadBalancer [] "cluster" exampleService).lb
        "cluster" exampleService
      = (some ⟨[⟨"203.0.113.7", ""⟩]⟩, true) := by
  decide

/-- After `EnsureLoadBalancerDeleted` returns no error, the registry has no
record for the service if it had one before, and has a record without port
mappings if it had none before. -/
theorem EnsureLoadBalancerDeleted_registry (lb : LoadBalancer) (order : List Nat)
    (clusterName : String) (service : Service)
    (h : (EnsureLoadBalancerDeleted lb order clusterName service).err = none) :
    (EnsureLoadBalancerDeleted lb order clusterName service).lb.loadBalancers
        (GetLoadBalancerName clusterName service)
      = if (lb.loadBalancers (GetLoadBalancerName clusterName service)).isSome then none
        else some (newLoadBalancerWithoutPortMappings lb.externalIP) := by
  cases hval : validateParametersOfLoadBalancer clusterName service [] with
  | some e =>
    simp [EnsureLoadBalancerDeleted, ensureOrUpdateLoadBalancer, hval] at h
  | none =>
    cases hreg : lb.loadBalancers (GetLoadBalancerName clusterName service) with
    | some o =>
      have := (EnsureLoadBalancerDeleted_patch lb order clusterName service o hval
        (Or.inl hreg)).2.2 h
      rw [this, hreg]
    | none =>
      have := (EnsureLoadBalancerDeleted_patch lb order clusterName service _ hval
        (Or.inr ⟨hreg, rfl⟩)).2.2 h
      rw [this, hreg]

/-- C6: when the registry has a record for the service, a successful
`EnsureLoadBalancerDeleted` issues exactly one `DeletePortMapping` call for
each port mapping of the record, in order, with its external port and
protocol: every port mapping of the record gets its call, and no
`AddPortMapping` call is issued. -/
theorem EnsureLoadBalancerDeleted_deletes_record (lb : LoadBalancer) (order : List Nat)
    (clusterName : String) (service : Service) (o : loadBalancer)
    (hreg : lb.loadBalancers (GetLoadBalancerName clusterName service) = some o)
    (h : (EnsureLoadBalancerDeleted lb order clusterName service).err = none) :
    (EnsureLoadBalancerDeleted lb order clusterName service).calls
      = o.portMappings.map deleteRecord ∧
    (∀ pm ∈ o.portMappings,
      clientCall.DeletePortMapping "" (uint16 pm.servicePort.Port) pm.servicePort.Protocol
        ∈ (EnsureLoadBalancerDeleted lb order clusterName service).calls.map (·.call)) ∧
    (∀ r ∈ (EnsureLoadBalancerDeleted lb order clusterName service).calls,
      r.call.isAdd = false) := by
  have hval : validateParametersOfLoadBalancer clusterName service [] = none := by
    cases hval : validateParametersOfLoadBalancer clusterName service [] with
    | some e => simp [EnsureLoadBalancerDeleted, ensureOrUpdateLoadBalancer, hval] at h
    | none => rfl
  obtain ⟨hcalls, herr, _⟩ :=
    EnsureLoadBalancerDeleted_patch lb order clusterName service o hval (Or.inl hreg)
  have hc : (EnsureLoadBalancerDeleted lb order clusterName service).calls
      = o.portMappings.map deleteRecord := by
    rw [hcalls]
    exact patchLoadBalancer_to_empty lb order _ _ _ (herr ▸ h)
  refine ⟨hc, ?_, ?_⟩
  · intro pm hpm
    rw [hc, List.map_map]
    exact List.mem_map.2 ⟨pm, hpm, rfl⟩
  · intro r hr
    rw [hc] at hr
    obtain ⟨pm, _, rfl⟩ := List.mem_map.1 hr
    rfl

/-- C6, at the registry left by `EnsureLoadBalancer` for `exampleService`. -/
theorem EnsureLoadBalancerDeleted_deletes_record_witness :
    (EnsureLoadBalancerDeleted
        (EnsureLoadBalancer exampleLoadBalancer [] "cluster" exampleService [exampleNode]).lb []
        "cluster" exampleService).calls.map (·.call) = [.DeletePortMapping "" 8080 "TCP"] ∧
    (EnsureLoadBalancerDeleted
        (EnsureLoadBalancer exampleLoadBalancer [] "cluster" exampleService [exampleNode]).lb []
        "cluster" exampleService).calls
      = (newLoadBalancerWithPortMappings exampleService "192.0.2.1"
          "203.0.113.7").portMappings.map deleteRecord :=
  ⟨by decide,
    (EnsureLoadBalancerDeleted_deletes_record
      (EnsureLoadBalancer exampleLoadBalancer [] "cluster" exampleService [exampleNode]).lb []
      "cluster" exampleService
      (newLoadBalancerWithPortMappings exampleService "192.0.2.1" "203.0.113.7")
      (by decide) (by decide)).1⟩

/-- What `EnsureLoadBalancerDeleted` does with the outcome of the validator,
which `ensureOrUpdateLoadBalancer` calls before it looks at `isDelete`. For a
service that the validator rejects it returns the error of the validator,
issues no client call and leaves the provider unchanged, so a record of the
identity stays. For a service that the validator accepts and a client whose
calls all succeed it returns nil. -/
theorem EnsureLoadBalancerDeleted_validates (lb : LoadBalancer) (order : List Nat)
    (clusterName : String) (service : Service) :
    (∀ e, validateParametersOfLoadBalancer clusterName service [] = some e →
      (EnsureLoadBalancerDeleted lb order clusterName service).err = some e ∧
      (EnsureLoadBalancerDeleted lb order clusterName service).calls = [] ∧
      (EnsureLoadBalancerDeleted lb order clusterName service).lb = lb) ∧
    (validateParametersOfLoadBalancer clusterName service [] = none →
      (∀ hist call, lb.client.respond hist call = none) →
      (EnsureLoadBalancerDeleted lb order clusterName service).err = none) := by
  constructor
  · intro e hval
    simp [EnsureLoadBalancerDeleted, ensureOrUpdateLoadBalancer, hval]
  · intro hval hclient
    have hp : ∀ o : loadBalancer, (patchLoadBalancer lb lb.clientLog order
        (GetLoadBalancerName clusterName service) o.portMappings []).2 = none := fun o =>
      patchLoadBalancer_succeed lb _ order _ _ [] hclient (by simp)
    cases hreg : lb.loadBalancers (GetLoadBalancerName clusterName service) with
    | some o =>
      rw [(EnsureLoadBalancerDeleted_patch lb order clusterName service o hval (Or.inl hreg)).2.1]
      exact hp o
    | none =>
      rw [(EnsureLoadBalancerDeleted_patch lb order clusterName service _ hval
        (Or.inr ⟨hreg, rfl⟩)).2.1]
      exact hp _

/-- The two cases of `EnsureLoadBalancerDeleted_validates`, at
`exampleService` (accepted) and `unannotatedService` (rejected), with the
mock client. -/
theorem EnsureLoadBalancerDeleted_validates_witness :
    (EnsureLoadBalancerDeleted exampleLoadBalancer [] "cluster" exampleService).err = none ∧
    (EnsureLoadBalancerDeleted exampleLoadBalancer [] "cluster" unannotatedService).calls = [] :=
  ⟨(EnsureLoadBalancerDeleted_validates exampleLoadBalancer [] "cluster" exampleService).2
      (by decide) mockClient_succeeds,
    ((EnsureLoadBalancerDeleted_validates exampleLoadBalancer [] "cluster" unannotatedService).1
      (.annotationMissing "cluster/default/my-service") (by decide)).2.1⟩

/-- C7, at the failing input: for a service without the load-balancer-type
annotation and the mock client, whose calls all succeed,
`EnsureLoadBalancerDeleted` returns the error of the validator instead of
nil. It does so when the registry has no record for the identity, and when
it has one: then no `DeletePortMapping` call is issued and the record, with
its port mapping, stays in the registry. -/
theorem EnsureLoadBalancerDeleted_rejects_invalid :
    validateParametersOfLoadBalancer "cluster" unannotatedService []
      = some (.annotationMissing "cluster/default/my-service") ∧
    (exampleLoadBalancer.loadBalancers (GetLoadBalancerName "cluster" unannotatedService)
        = none ∧
      (EnsureLoadBalancerDeleted exampleLoadBalancer [] "cluster" unannotatedService).err
        = some (.annotationMissing "cluster/default/my-service")) ∧
    ((EnsureLoadBalancer exampleLoadBalancer [] "cluster" exampleService
          [exampleNode]).lb.loadBalancers (GetLoadBalancerName "cluster" unannotatedService)
        = some (newLoadBalancerWithPortMappings exampleService "192.0.2.1" "203.0.113.7") ∧
      (EnsureLoadBalancerDeleted
          (EnsureLoadBalancer exampleLoadBalancer [] "cluster" exampleService [exampleNode]).lb
          [] "cluster" unannotatedService).err
        = some (.annotationMissing "cluster/default/my-service") ∧
      (EnsureLoadBalancerDeleted
          (EnsureLoadBalancer exampleLoadBalancer [] "cluster" exampleService [exampleNode]).lb
          [] "cluster" unannotatedService).calls = [] ∧
      (EnsureLoadBalancerDeleted
          (EnsureLoadBalancer exampleLoadBalancer [] "cluster" exampleService [exampleNode]).lb
          [] "cluster" unannotatedService).lb.loadBalancers
          (GetLoadBalancerName "cluster" unannotatedService)
        = some (newLoadBalancerWithPortMappings exampleService "192.0.2.1" "203.0.113.7")) := by
  decide

/-! ## The validator -/

theorem validatePort_eq_none_iff (name : String) (port : ServicePort) :
    validatePort name port = none ↔
      (port.Protocol = ProtocolTCP ∨ port.Protocol = ProtocolUDP) ∧
        port.TargetPort.Typ ≠ intstrString ∧ port.NodePort ≠ 0 := by
  unfold validatePort
  by_cases h1 : port.Protocol ≠ ProtocolTCP ∧ port.Protocol ≠ ProtocolUDP
  · rw [if_pos h1]
    simp only [reduceCtorEq, false_iff]
    tauto
  · rw [if_neg h1]
    by_cases h2 : port.TargetPort.Typ = intstrString
    · rw [if_pos h2]
      simp only [reduceCtorEq, false_iff]
      tauto
    · rw [if_neg h2]
      by_cases h3 : port.NodePort = 0
      · rw [if_pos h3]
        simp only [reduceCtorEq, false_iff]
        tauto
      · rw [if_neg h3]
        simp only [true_iff]
        exact ⟨by tauto, h2, h3⟩

theorem validatePorts_eq_none_iff (name : String) (ports : List ServicePort) :
    validatePorts name ports = none ↔ ∀ port ∈ ports, validatePort name port = none := by
  induction ports with
  | nil => simp [validatePorts]
  | cons port ports ih =>
    rw [validatePorts]
    cases h : validatePort name port with
    | some e => simp [h]
    | none => simp [h, ih]

theorem validateParametersOfLoadBalancer_eq_none_iff (clusterName : String) (service : Service)
    (nodes : List Node) :
    validateParametersOfLoadBalancer clusterName service nodes = none ↔
      service.Annotations.lookup LoadBalancerTypeAnnotation
          = some UniversalPlugAndPlayInternetGatewayDeviceLoadBalancerType ∧
        service.Spec.Typ = ServiceTypeLoadBalancer ∧
        service.Spec.ClusterIP ≠ ClusterIPNone ∧
        service.Spec.PublishNotReadyAddresses = false ∧
        (service.Spec.IPFamily = none ∨ service.Spec.IPFamily = some IPv4Protocol) ∧
        service.Spec.SessionAffinity = ServiceAffinityNone ∧
        ∀ port ∈ service.Spec.Ports,
          (port.Protocol = ProtocolTCP ∨ port.Protocol = ProtocolUDP) ∧
            port.TargetPort.Typ ≠ intstrString ∧ port.NodePort ≠ 0 := by
  unfold validateParametersOfLoadBalancer
  cases hann : service.Annotations.lookup LoadBalancerTypeAnnotation with
  | none => simp
  | some lbType =>
    simp only
    by_cases h1 : lbType ≠ UniversalPlugAndPlayInternetGatewayDeviceLoadBalancerType
    · rw [if_pos h1]
      simp only [reduceCtorEq, false_iff, Option.some.injEq]
      tauto
    · rw [if_neg h1]
      by_cases h2 : service.Spec.Typ ≠ ServiceTypeLoadBalancer
      · rw [if_pos h2]
        simp only [reduceCtorEq, false_iff]
        tauto
      · rw [if_neg h2]
        by_cases h3 : service.Spec.ClusterIP = ClusterIPNone
        · rw [if_pos h3]
          simp only [reduceCtorEq, false_iff]
          tauto
        · rw [if_neg h3]
          by_cases h4 : service.Spec.PublishNotReadyAddresses ≠ false
          · rw [if_pos h4]
            simp only [reduceCtorEq, false_iff]
            tauto
          · rw [if_neg h4]
            by_cases h5 : service.Spec.IPFamily ≠ none ∧ service.Spec.IPFamily ≠ some IPv4Protocol
            · rw [if_pos h5]
              simp only [reduceCtorEq, false_iff]
              tauto
            · rw [if_neg h5]
              by_cases h6 : service.Spec.SessionAffinity ≠ ServiceAffinityNone
              · rw [if_pos h6]
                simp only [reduceCtorEq, false_iff]
                tauto
              · rw [if_neg h6, validatePorts_eq_none_iff]
                simp only [validatePort_eq_none_iff, Option.some.injEq]
                have e1 : lbType = UniversalPlugAndPlayInternetGatewayDeviceLoadBalancerType := by
                  by_contra h; exact h1 h
                have e2 : service.Spec.Typ = ServiceTypeLoadBalancer := by
                  by_contra h; exact h2 h
                have e4 : service.Spec.PublishNotReadyAddresses = false := by
                  by_contra h; exact h4 h
                have e5 : service.Spec.IPFamily = none ∨ service.Spec.IPFamily = some IPv4Protocol := by
                  by_contra h; exact h5 (by tauto)
                have e6 : service.Spec.SessionAffinity = ServiceAffinityNone := by
                  by_contra h; exact h6 h
                constructor
                · intro h
                  exact ⟨e1, e2, h3, e4, e5, e6, h⟩
                · intro h
                  exact h.2.2.2.2.2.2

/-! ## The lookup of the node IP -/

theorem getFirstNodeInternalIP_of_not_expose (clientIP : String) (nodes : List Node)
    (h : ¬ nodesExpose clientIP nodes) :
    getFirstNodeInternalIP clientIP nodes = .error (.noNodesWithInternalIP clientIP) := by
  induction nodes with
  | nil => rfl
  | cons node nodes ih =>
    rw [getFirstNodeInternalIP]
    have hfind : node.Status.Addresses.find?
        (fun address => address.Typ = NodeInternalIP ∧ address.Address = clientIP) = none := by
      rw [List.find?_eq_none]
      intro a ha hp
      apply h
      exact ⟨node, List.mem_cons_self _ _, a, ha, by simpa using hp⟩
    rw [hfind]
    apply ih
    rintro ⟨n, hn, a, ha, hp⟩
    exact h ⟨n, List.mem_cons_of_mem _ hn, a, ha, hp⟩

theorem getFirstNodeInternalIP_of_expose (clientIP : String) (nodes : List Node)
    (h : nodesExpose clientIP nodes) :
    getFirstNodeInternalIP clientIP nodes = .ok clientIP := by
  induction nodes with
  | nil =>
    obtain ⟨n, hn, _⟩ := h
    simp at hn
  | cons node nodes ih =>
    rw [getFirstNodeInternalIP]
    cases hfind : node.Status.Addresses.find?
        (fun address => address.Typ = NodeInternalIP ∧ address.Address = clientIP) with
    | some a =>
      have := List.find?_some hfind
      simp only [decide_eq_true_eq] at this
      simp only [this.2]
    | none =>
      simp only
      apply ih
      obtain ⟨n, hn, a, ha, hp⟩ := h
      rcases List.mem_cons.1 hn with rfl | hn
      · rw [List.find?_eq_none] at hfind
        exact absurd (by simpa using hp) (hfind a ha)
      · exact ⟨n, hn, a, ha, hp⟩

theorem getFirstNodeInternalIP_ok (clientIP : String) (nodes : List Node) (ip : String)
    (h : getFirstNodeInternalIP clientIP nodes = .ok ip) :
    ip = clientIP ∧ nodesExpose clientIP nodes := by
  by_cases hex : nodesExpose clientIP nodes
  · rw [getFirstNodeInternalIP_of_expose clientIP nodes hex] at h
    cases h
    exact ⟨rfl, hex⟩
  · rw [getFirstNodeInternalIP_of_not_expose clientIP nodes hex] at h
    cases h

/-! ## Early returns of `ensureOrUpdateLoadBalancer` -/

theorem ensureOrUpdateLoadBalancer_of_invalid (lb : LoadBalancer) (order : List Nat)
    (clusterName : String) (service : Service) (nodes : List Node) (ensure isDelete : Bool)
    (e : error) (hval : validateParametersOfLoadBalancer clusterName service nodes = some e) :
    ensureOrUpdateLoadBalancer lb order clusterName service nodes ensure isDelete
      = ⟨lb, [], none, some e⟩ := by
  simp only [ensureOrUpdateLoadBalancer, hval]

theorem ensureOrUpdateLoadBalancer_of_no_node (lb : LoadBalancer) (order : List Nat)
    (clusterName : String) (service : Service) (nodes : List Node) (ensure : Bool)
    (hval : validateParametersOfLoadBalancer clusterName service nodes = none)
    (hnodes : ¬ nodesExpose lb.localAddress nodes) :
    ensureOrUpdateLoadBalancer lb order clusterName service nodes ensure false
      = ⟨lb, [], none, some (.noNodesWithInternalIP lb.localAddress)⟩ := by
  simp [ensureOrUpdateLoadBalancer, hval,
    getFirstNodeInternalIP_of_not_expose lb.localAddress nodes hnodes]

theorem ensureOrUpdateLoadBalancer_update_not_found (lb : LoadBalancer) (order : List Nat)
    (clusterName : String) (service : Service) (nodes : List Node)
    (hval : validateParametersOfLoadBalancer clusterName service nodes = none)
    (hnodes : nodesExpose lb.localAddress nodes)
    (hreg : lb.loadBalancers (GetLoadBalancerName clusterName service) = none) :
    ensureOrUpdateLoadBalancer lb order clusterName service nodes false false
      = ⟨lb, [], none, some (.updateNotFound (GetLoadBalancerName clusterName service))⟩ := by
  simp [ensureOrUpdateLoadBalancer, hval,
    getFirstNodeInternalIP_of_expose lb.localAddress nodes hnodes, hreg]

/-! ## Claims about rejected requests -/

/-- C11: for every service whose identity has no record in the registry,
`UpdateLoadBalancer` returns an error, issues no client call and leaves the
provider, and so the registry, unchanged: no record is created. When the
service is valid and a node exposes the local address, the error is the
not-found error of the identity. -/
theorem UpdateLoadBalancer_not_found (lb : LoadBalancer) (order : List Nat)
    (clusterName : String) (service : Service) (nodes : List Node)
    (hreg : lb.loadBalancers (GetLoadBalancerName clusterName service) = none) :
    (UpdateLoadBalancer lb order clusterName service nodes).err ≠ none ∧
    (UpdateLoadBalancer lb order clusterName service nodes).calls = [] ∧
    (UpdateLoadBalancer lb order clusterName service nodes).lb = lb ∧
    (UpdateLoadBalancer lb order clusterName service nodes).lb.loadBalancers
      (GetLoadBalancerName clusterName service) = none ∧
    (validateParametersOfLoadBalancer clusterName service nodes = none →
      nodesExpose lb.localAddress nodes →
      (UpdateLoadBalancer lb order clusterName service nodes).err
        = some (.updateNotFound (GetLoadBalancerName clusterName service))) := by
  have hearly : ∃ e, ensureOrUpdateLoadBalancer lb order clusterName service nodes false false
      = ⟨lb, [], none, some e⟩ := by
    rcases ensureOrUpdateLoadBalancer_cases lb order clusterName service nodes false false
      with h | ⟨_, nodeIP, o, _, hold⟩
    · exact h
    · rcases hold with h | ⟨_, h, _⟩
      · rw [hreg] at h
        cases h
      · cases h
  obtain ⟨e, he⟩ := hearly
  unfold UpdateLoadBalancer
  refine ⟨?_, ?_, ?_, ?_, ?_⟩
  · rw [he]
    simp
  · rw [he]
  · rw [he]
  · rw [he]
    exact hreg
  · intro hval hnodes
    rw [ensureOrUpdateLoadBalancer_update_not_found lb order clusterName service nodes hval
      hnodes hreg]

/-- C11, at the empty registry of `exampleLoadBalancer`. -/
theorem UpdateLoadBalancer_not_found_witness :
    (UpdateLoadBalancer exampleLoadBalancer [] "cluster" exampleService [exampleNode]).err
      = some (.updateNotFound "cluster/default/my-service") ∧
    (UpdateLoadBalancer exampleLoadBalancer [] "cluster" exampleService [exampleNode]).calls
      = [] ∧
    (UpdateLoadBalancer exampleLoadBalancer [] "cluster" exampleService
      [exampleNode]).lb.loadBalancers "cluster/default/my-service" = none :=
  ⟨by decide,
    (UpdateLoadBalancer_not_found exampleLoadBalancer [] "cluster" exampleService [exampleNode]
      (by decide)).2.1,
    (UpdateLoadBalancer_not_found exampleLoadBalancer [] "cluster" exampleService [exampleNode]
      (by decide)).2.2.2.1⟩

/-- C12: for every service that the validator rejects, `EnsureLoadBalancer`
and `UpdateLoadBalancer` return the error of the validator, issue no client
call and leave the provider, and so the registry, unchanged. The validator
rejects, in particular, a service without the load-balancer-type annotation,
a service with a port whose target port is given by name, and a service with
a port whose node port is zero. -/
theorem rejected_service_has_no_effect (lb : LoadBalancer) (order : List Nat)
    (clusterName : String) (service : Service) (nodes : List Node) :
    (∀ e, validateParametersOfLoadBalancer clusterName service nodes = some e →
      (EnsureLoadBalancer lb order clusterName service nodes).err = some e ∧
      (EnsureLoadBalancer lb order clusterName service nodes).calls = [] ∧
      (EnsureLoadBalancer lb order clusterName service nodes).lb = lb ∧
      (UpdateLoadBalancer lb order clusterName service nodes).err = some e ∧
      (UpdateLoadBalancer lb order clusterName service nodes).calls = [] ∧
      (UpdateLoadBalancer lb order clusterName service nodes).lb = lb) ∧
    (service.Annotations.lookup LoadBalancerTypeAnnotation = none →
      validateParametersOfLoadBalancer clusterName service nodes ≠ none) ∧
    ((∃ port ∈ service.Spec.Ports, port.TargetPort.Typ = intstrString) →
      validateParametersOfLoadBalancer clusterName service nodes ≠ none) ∧
    ((∃ port ∈ service.Spec.Ports, port.NodePort = 0) →
      validateParametersOfLoadBalancer clusterName service nodes ≠ none) := by
  refine ⟨?_, ?_, ?_, ?_⟩
  · intro e hval
    unfold EnsureLoadBalancer UpdateLoadBalancer
    rw [ensureOrUpdateLoadBalancer_of_invalid lb order clusterName service nodes true false e hval,
      ensureOrUpdateLoadBalancer_of_invalid lb order clusterName service nodes false false e hval]
    exact ⟨rfl, rfl, rfl, rfl, rfl, rfl⟩
  · intro hann hval
    rw [validateParametersOfLoadBalancer_eq_none_iff, hann] at hval
    cases hval.1
  · rintro ⟨port, hport, htyp⟩ hval
    rw [validateParametersOfLoadBalancer_eq_none_iff] at hval
    exact (hval.2.2.2.2.2.2 port hport).2.1 htyp
  · rintro ⟨port, hport, hnp⟩ hval
    rw [validateParametersOfLoadBalancer_eq_none_iff] at hval
    exact (hval.2.2.2.2.2.2 port hport).2.2 hnp

/-- C12, at a service without annotation, a service with a named target
port and a service with a zero node port. -/
theorem rejected_service_has_no_effect_witness :
    ((EnsureLoadBalancer exampleLoadBalancer [] "cluster" unannotatedService [exampleNode]).err
        = some (.annotationMissing "cluster/default/my-service") ∧
      (EnsureLoadBalancer exampleLoadBalancer [] "cluster" unannotatedService
        [exampleNode]).calls = [] ∧
      (EnsureLoadBalancer exampleLoadBalancer [] "cluster" unannotatedService [exampleNode]).lb
        = exampleLoadBalancer ∧
      (UpdateLoadBalancer exampleLoadBalancer [] "cluster" unannotatedService [exampleNode]).err
        = some (.annotationMissing "cluster/default/my-service") ∧
      (UpdateLoadBalancer exampleLoadBalancer [] "cluster" unannotatedService
        [exampleNode]).calls = [] ∧
      (UpdateLoadBalancer exampleLoadBalancer [] "cluster" unannotatedService [exampleNode]).lb
        = exampleLoadBalancer) ∧
    validateParametersOfLoadBalancer "cluster" namedTargetPortService [exampleNode] ≠ none ∧
    validateParametersOfLoadBalancer "cluster" zeroNodePortService [exampleNode] ≠ none :=
  ⟨(rejected_service_has_no_effect exampleLoadBalancer [] "cluster" unannotatedService
      [exampleNode]).1 (.annotationMissing "cluster/default/my-service") (by decide),
    (rejected_service_has_no_effect exampleLoadBalancer [] "cluster" namedTargetPortService
      [exampleNode]).2.2.1 ⟨⟨"http", "TCP", 8080, ⟨1, 0, "web"⟩, 30080⟩, by decide, by decide⟩,
    (rejected_service_has_no_effect exampleLoadBalancer [] "cluster" zeroNodePortService
      [exampleNode]).2.2.2 ⟨⟨"http", "TCP", 8080, ⟨0, 80, ""⟩, 0⟩, by decide, by decide⟩⟩

/-- C13: `validateParametersOfLoadBalancer` accepts a service if and only
if the annotation `midokura.com/load-balancer-type` is present and equals
`upnp-igd`, the service type is `LoadBalancer`, `ClusterIP` is not `None`,
`PublishNotReadyAddresses` is false, `IPFamily` is unset or `IPv4`,
`SessionAffinity` is `None`, and every declared port has protocol `TCP` or
`UDP`, a target port that is not of type string and a non-zero node port. -/
theorem validator_accepts_iff (clusterName : String) (service : Service) (nodes : List Node) :
    validateParametersOfLoadBalancer clusterName service nodes = none ↔
      service.Annotations.lookup "midokura.com/load-balancer-type" = some "upnp-igd" ∧
        service.Spec.Typ = "LoadBalancer" ∧
        service.Spec.ClusterIP ≠ "None" ∧
        service.Spec.PublishNotReadyAddresses = false ∧
        (service.Spec.IPFamily = none ∨ service.Spec.IPFamily = some "IPv4") ∧
        service.Spec.SessionAffinity = "None" ∧
        ∀ port ∈ service.Spec.Ports,
          (port.Protocol = "TCP" ∨ port.Protocol = "UDP") ∧
            port.TargetPort.Typ ≠ intstrString ∧ port.NodePort ≠ 0 :=
  validateParametersOfLoadBalancer_eq_none_iff clusterName service nodes

/-- C20: for every valid service and every node list in which no node
exposes an address of type `InternalIP` equal to the local address, the
empty list included, `EnsureLoadBalancer` and `UpdateLoadBalancer` return an
error, issue no client call and leave the provider, and so the registry,
unchanged; when some node exposes it, `getFirstNodeInternalIP` returns the
local address. -/
theorem no_node_with_local_address (lb : LoadBalancer) (order : List Nat)
    (clusterName : String) (service : Service) (nodes : List Node)
    (hval : validateParametersOfLoadBalancer clusterName service nodes = none) :
    (¬ nodesExpose lb.localAddress nodes →
      (EnsureLoadBalancer lb order clusterName service nodes).err
        = some (.noNodesWithInternalIP lb.localAddress) ∧
      (EnsureLoadBalancer lb order clusterName service nodes).calls = [] ∧
      (EnsureLoadBalancer lb order clusterName service nodes).lb = lb ∧
      (UpdateLoadBalancer lb order clusterName service nodes).err
        = some (.noNodesWithInternalIP lb.localAddress) ∧
      (UpdateLoadBalancer lb order clusterName service nodes).calls = [] ∧
      (UpdateLoadBalancer lb order clusterName service nodes).lb = lb) ∧
    ¬ nodesExpose lb.localAddress [] ∧
    (nodesExpose lb.localAddress nodes →
      getFirstNodeInternalIP lb.localAddress nodes = .ok lb.localAddress) := by
  refine ⟨?_, ?_, getFirstNodeInternalIP_of_expose lb.localAddress nodes⟩
  · intro hnodes
    unfold EnsureLoadBalancer UpdateLoadBalancer
    rw [ensureOrUpdateLoadBalancer_of_no_node lb order clusterName service nodes true hval hnodes,
      ensureOrUpdateLoadBalancer_of_no_node lb order clusterName service nodes false hval hnodes]
    exact ⟨rfl, rfl, rfl, rfl, rfl, rfl⟩
  · rintro ⟨node, hnode, _⟩
    simp at hnode

/-- C20, at a node list whose only node has another internal IP, and at a
node list in which the second node exposes the local address. -/
theorem no_node_with_local_address_witness :
    ((EnsureLoadBalancer exampleLoadBalancer [] "cluster" exampleService [otherNode]).err
        = some (.noNodesWithInternalIP "192.0.2.1") ∧
      (EnsureLoadBalancer exampleLoadBalancer [] "cluster" exampleService [otherNode]).calls
        = [] ∧
      (EnsureLoadBalancer exampleLoadBalancer [] "cluster" exampleService [otherNode]).lb
        = exampleLoadBalancer ∧
      (UpdateLoadBalancer exampleLoadBalancer [] "cluster" exampleService [otherNode]).err
        = some (.noNodesWithInternalIP "192.0.2.1") ∧
      (UpdateLoadBalancer exampleLoadBalancer [] "cluster" exampleService [otherNode]).calls
        = [] ∧
      (UpdateLoadBalancer exampleLoadBalancer [] "cluster" exampleService [otherNode]).lb
        = exampleLoadBalancer) ∧
    getFirstNodeInternalIP "192.0.2.1" [otherNode, exampleNode] = .ok "192.0.2.1" :=
  ⟨(no_node_with_local_address exampleLoadBalancer [] "cluster" exampleService [otherNode]
      (by decide)).1 (by decide),
    (no_node_with_local_address exampleLoadBalancer [] "cluster" exampleService
      [otherNode, exampleNode] (by decide)).2.2 (by decide)⟩

/-! ## The calls of a call that is not a delete -/

theorem uint16_eq_zero_iff (x : Int) : uint16 x = 0 ↔ x % 65536 = 0 := by
  unfold uint16
  have h := Int.emod_nonneg x (show (65536 : Int) ≠ 0 by decide)
  omega

theorem uint16_ne_zero (x : Int) (h0 : 0 < x) (h1 : x < 65536) : uint16 x ≠ 0 := by
  unfold uint16
  rw [Int.emod_eq_of_lt (le_of_lt h0) h1]
  omega

/-- Every `AddPortMapping` call of a call that is not a delete is the call
for a declared port of the service, which the validator accepted, with the
local address as node IP. -/
theorem ensureOrUpdateLoadBalancer_adds (lb : LoadBalancer) (order : List Nat)
    (clusterName : String) (service : Service) (nodes : List Node) (ensure : Bool) :
    ∀ r ∈ (ensureOrUpdateLoadBalancer lb order clusterName service nodes ensure false).calls,
      r.call.isAdd = true →
        ∃ port ∈ service.Spec.Ports,
          r = addRecord (GetLoadBalancerName clusterName service) ⟨port, lb.localAddress⟩ ∧
          (port.Protocol = ProtocolTCP ∨ port.Protocol = ProtocolUDP) ∧
          port.TargetPort.Typ ≠ intstrString ∧ port.NodePort ≠ 0 := by
  intro r hr hadd
  rcases ensureOrUpdateLoadBalancer_cases lb order clusterName service nodes ensure false
    with ⟨e, he⟩ | ⟨hval, nodeIP, o, hnode, hold⟩
  · rw [he] at hr
    simp at hr
  · have hip : nodeIP = lb.localAddress :=
      (getFirstNodeInternalIP_ok lb.localAddress nodes nodeIP (by simpa using hnode)).1
    obtain ⟨hcalls, _⟩ :=
      ensureOrUpdateLoadBalancer_patch lb order clusterName service nodes ensure false
        nodeIP o (newLoadBalancerWithPortMappings service nodeIP lb.externalIP) hval hnode hold rfl
    rw [hcalls] at hr
    rcases patchLoadBalancer_records lb lb.clientLog order _ _ _ r hr with h | h
    · rw [h.1] at hadd
      simp [deleteRecord, clientCall.isAdd] at hadd
    · obtain ⟨port, hport, hpm⟩ := List.mem_map.1 h.2.1
      refine ⟨port, hport, ?_, ?_⟩
      · rw [h.1, ← hpm, hip]
      · exact ((validateParametersOfLoadBalancer_eq_none_iff clusterName service nodes).1
          hval).2.2.2.2.2.2 port hport

/-- The calls of `patchLoadBalancer` towards the empty list are the
`DeletePortMapping` calls for a prefix of `old`. -/
theorem patchLoadBalancer_to_empty_prefix (lb : LoadBalancer) (order : List Nat)
    (descPrefix : String) (old : List portMapping) (hist : List clientCall) :
    (patchLoadBalancer lb hist order descPrefix old []).1 <+: old.map deleteRecord := by
  have key : ∀ (old : List portMapping) (hist : List clientCall),
      (patchRemoveLoop lb hist old []).1 <+: old.map deleteRecord ∧
        (patchRemoveLoop lb hist old []).2.1 = [] := by
    intro old
    induction old with
    | nil => intro hist; simp [patchRemoveLoop]
    | cons pm old ih =>
      intro hist
      rw [patchRemoveLoop_cons]
      simp only [List.not_mem_nil, if_false, List.map_cons]
      cases hresp : lb.client.respond hist (deleteRecord pm).call with
      | some e =>
        simp only
        exact ⟨(List.prefix_cons_inj _).2 (List.nil_prefix), trivial⟩
      | none =>
        simp only
        exact ⟨(List.prefix_cons_inj _).2 (ih _).1, (ih _).2⟩
  rw [patchLoadBalancer_eq]
  simp only [List.foldl_nil]
  obtain ⟨h1, h2⟩ := key old hist
  cases h : (patchRemoveLoop lb hist old []).2.2 with
  | some err => simpa [h] using h1
  | none =>
    simp only [h, h2]
    have : rangeOrder order ([] : List portMapping) = [] := by
      cases order <;> rfl
    rw [this]
    simpa [patchAddLoop] using h1

/-! ## Claims about the arguments of the client calls -/

/-- C14 (amended): every `AddPortMapping` call issued by
`EnsureLoadBalancer` or `UpdateLoadBalancer` carries a protocol that is `TCP`
or `UDP`, and is the call of a declared port of the service with a non-zero
node port: it carries the protocol of that port, `uint16` of its port as
external port and `uint16` of its node port as internal port. So the
external port is non-zero exactly when the port is not a multiple of 65536,
the internal port is non-zero exactly when the node port is not a multiple
of 65536, and each is non-zero when the field of that port is between 1 and
65535. -/
theorem AddPortMapping_arguments (lb : LoadBalancer) (order : List Nat)
    (clusterName : String) (service : Service) (nodes : List Node) (r : callRecord)
    (hr : r ∈ (EnsureLoadBalancer lb order clusterName service nodes).calls ∨
      r ∈ (UpdateLoadBalancer lb order clusterName service nodes).calls)
    (host : String) (externalPort : Nat) (proto : String) (internalPort : Nat)
    (internalIP : String) (enabled : Bool) (desc : String) (lease : Nat)
    (hcall : r.call = .AddPortMapping host externalPort proto internalPort internalIP enabled
      desc lease) :
    (proto = "TCP" ∨ proto = "UDP") ∧
    ∃ port ∈ service.Spec.Ports,
      port.NodePort ≠ 0 ∧ proto = port.Protocol ∧
      externalPort = uint16 port.Port ∧ internalPort = uint16 port.NodePort ∧
      (externalPort ≠ 0 ↔ port.Port % 65536 ≠ 0) ∧
      (internalPort ≠ 0 ↔ port.NodePort % 65536 ≠ 0) ∧
      (0 < port.Port ∧ port.Port < 65536 → externalPort ≠ 0) ∧
      (0 < port.NodePort ∧ port.NodePort < 65536 → internalPort ≠ 0) := by
  have hadd : r.call.isAdd = true := by rw [hcall]; rfl
  have hex : ∃ port ∈ service.Spec.Ports,
      r = addRecord (GetLoadBalancerName clusterName service) ⟨port, lb.localAddress⟩ ∧
      (port.Protocol = ProtocolTCP ∨ port.Protocol = ProtocolUDP) ∧
      port.TargetPort.Typ ≠ intstrString ∧ port.NodePort ≠ 0 := by
    rcases hr with hr | hr
    · exact ensureOrUpdateLoadBalancer_adds lb order clusterName service nodes true r hr hadd
    · exact ensureOrUpdateLoadBalancer_adds lb order clusterName service nodes false r hr hadd
  obtain ⟨port, hport, hrec, hproto, _, hnp⟩ := hex
  rw [hrec] at hcall
  simp only [addRecord, clientCall.AddPortMapping.injEq] at hcall
  obtain ⟨_, hext, hpr, hint, _⟩ := hcall
  refine ⟨?_, port, hport, hnp, hpr.symm, hext.symm, hint.symm, ?_, ?_, ?_, ?_⟩
  · rw [← hpr]
    exact hproto
  · rw [← hext]
    exact not_congr (uint16_eq_zero_iff _)
  · rw [← hint]
    exact not_congr (uint16_eq_zero_iff _)
  · rintro ⟨h1, h2⟩
    rw [← hext]
    exact uint16_ne_zero _ h1 h2
  · rintro ⟨h1, h2⟩
    rw [← hint]
    exact uint16_ne_zero _ h1 h2

/-- C14, at the call for the port `http` of `mixedPortService`, whose other
port has the external port zero. -/
theorem AddPortMapping_arguments_witness :
    (EnsureLoadBalancer exampleLoadBalancer [] "cluster" mixedPortService [exampleNode]).calls.map
        (·.call)
      = [.AddPortMapping "" 8080 "TCP" 30080 "192.0.2.1" true
          "cluster/default/my-service/http" 0,
        .AddPortMapping "" 0 "UDP" 30053 "192.0.2.1" true
          "cluster/default/my-service/dns" 0] ∧
    (("TCP" = "TCP" ∨ "TCP" = "UDP") ∧
      ∃ port ∈ mixedPortService.Spec.Ports,
        port.NodePort ≠ 0 ∧ "TCP" = port.Protocol ∧
        8080 = uint16 port.Port ∧ 30080 = uint16 port.NodePort ∧
        (8080 ≠ 0 ↔ port.Port % 65536 ≠ 0) ∧
        (30080 ≠ 0 ↔ port.NodePort % 65536 ≠ 0) ∧
        (0 < port.Port ∧ port.Port < 65536 → 8080 ≠ 0) ∧
        (0 < port.NodePort ∧ port.NodePort < 65536 → 30080 ≠ 0)) :=
  ⟨by decide,
    AddPortMapping_arguments exampleLoadBalancer [] "cluster" mixedPortService [exampleNode]
      (addRecord "cluster/default/my-service"
        ⟨⟨"http", "TCP", 8080, ⟨0, 80, ""⟩, 30080⟩, "192.0.2.1"⟩)
      (Or.inl (by decide)) "" 8080 "TCP" 30080 "192.0.2.1" true "cluster/default/my-service/http" 0
      (by decide)⟩

/-- C14 as stated fails. The validator accepts a service whose port has the
external port 0, and `EnsureLoadBalancer` issues an `AddPortMapping` call
with external port 0 for it. The validator also accepts a service whose port
has the node port 65536, which is not zero, and `EnsureLoadBalancer` issues
an `AddPortMapping` call with internal port 0 for it. -/
theorem AddPortMapping_zero_ports :
    (validateParametersOfLoadBalancer "cluster" zeroPortService [exampleNode] = none ∧
      (EnsureLoadBalancer exampleLoadBalancer [] "cluster" zeroPortService
          [exampleNode]).calls.map (·.call)
        = [.AddPortMapping "" 0 "TCP" 30080 "192.0.2.1" true
            "cluster/default/my-service/http" 0]) ∧
    (validateParametersOfLoadBalancer "cluster" wrappedNodePortService [exampleNode] = none ∧
      (EnsureLoadBalancer exampleLoadBalancer [] "cluster" wrappedNodePortService
          [exampleNode]).calls.map (·.call)
        = [.AddPortMapping "" 8080 "TCP" 0 "192.0.2.1" true
            "cluster/default/my-service/http" 0]) := by
  decide

/-- C15 (amended): for every port mapping whose node IP is not empty and
differs from the local address, `addPortMapping` returns an error and issues
no call to the client; it issues no call only in that case. -/
theorem addPortMapping_refuses (lb : LoadBalancer) (hist : List clientCall)
    (descPrefix : String) (pm : portMapping) :
    (pm.nodeIP ≠ "" → pm.nodeIP ≠ lb.localAddress →
      addPortMapping lb hist descPrefix pm
        = (none, some (.localClientCantBeUsed lb.localAddress pm.nodeIP))) ∧
    ((addPortMapping lb hist descPrefix pm).1 = none ↔
      (pm.nodeIP ≠ "" ∧ pm.nodeIP ≠ lb.localAddress)) := by
  rw [addPortMapping_eq]
  by_cases hg : pm.nodeIP ≠ "" ∧ pm.nodeIP ≠ lb.localAddress
  · rw [if_pos hg]
    exact ⟨fun _ _ => rfl, fun _ => hg, fun _ => rfl⟩
  · rw [if_neg hg]
    refine ⟨fun h1 h2 => absurd ⟨h1, h2⟩ hg, fun h => ?_, fun h => absurd h hg⟩
    simp at h

/-- C15, at the port mapping `mappingOtherHost`. -/
theorem addPortMapping_refuses_witness :
    addPortMapping testLoadBalancer [] "foo" mappingOtherHost
      = (none, some (.localClientCantBeUsed "192.0.2.1" "192.0.2.2")) :=
  (addPortMapping_refuses testLoadBalancer [] "foo" mappingOtherHost).1 (by decide) (by decide)

/-- C15 as stated fails: the empty node IP differs from the local address
`192.0.2.1`, and `addPortMapping` issues the call and returns no error. -/
theorem addPortMapping_empty_node_ip :
    mappingNoHost.nodeIP ≠ testLoadBalancer.localAddress ∧
    addPortMapping testLoadBalancer [] "foo" mappingNoHost
      = (some ⟨mappingNoHost,
          .AddPortMapping "" 12345 "TCP" 34567 "" true "foo/svc-port-1" 0⟩, none) := by
  decide

/-! ## Claims about successful and first-time calls -/

/-- C16 (amended): for every service and node list on which
`EnsureLoadBalancer` succeeds, the internal IP used as the target of the
created port mappings is the local address of the provider, which some node
of the list exposes as an address of type `InternalIP`: the record stored
and returned holds it in every port mapping and every `AddPortMapping` call
carries it. -/
theorem EnsureLoadBalancer_targets_local_address (lb : LoadBalancer) (order : List Nat)
    (clusterName : String) (service : Service) (nodes : List Node)
    (h : (EnsureLoadBalancer lb order clusterName service nodes).err = none) :
    nodesExpose lb.localAddress nodes ∧
    (EnsureLoadBalancer lb order clusterName service nodes).lb.loadBalancers
        (GetLoadBalancerName clusterName service)
      = some (newLoadBalancerWithPortMappings service lb.localAddress lb.externalIP) ∧
    (EnsureLoadBalancer lb order clusterName service nodes).loadBalancer
      = some (newLoadBalancerWithPortMappings service lb.localAddress lb.externalIP) ∧
    (∀ pm ∈ (newLoadBalancerWithPortMappings service lb.localAddress
        lb.externalIP).portMappings, pm.nodeIP = lb.localAddress) ∧
    (∀ r ∈ (EnsureLoadBalancer lb order clusterName service nodes).calls,
      ∀ host externalPort proto internalPort internalIP enabled desc lease,
        r.call = .AddPortMapping host externalPort proto internalPort internalIP enabled desc
          lease → internalIP = lb.localAddress) := by
  obtain ⟨_, nodeIP, hnode, hreg, hret, _⟩ :=
    ensureOrUpdateLoadBalancer_notDelete_ok lb order clusterName service nodes true h
  obtain ⟨hip, hex⟩ := getFirstNodeInternalIP_ok lb.localAddress nodes nodeIP hnode
  subst hip
  refine ⟨hex, hreg, hret, ?_, ?_⟩
  · intro pm hpm
    obtain ⟨port, _, rfl⟩ := List.mem_map.1 hpm
    rfl
  · intro r hr host externalPort proto internalPort internalIP enabled desc lease hcall
    have hadd : r.call.isAdd = true := by rw [hcall]; rfl
    obtain ⟨port, _, hrec, _⟩ :=
      ensureOrUpdateLoadBalancer_adds lb order clusterName service nodes true r hr hadd
    rw [hrec] at hcall
    simp only [addRecord, clientCall.AddPortMapping.injEq] at hcall
    exact hcall.2.2.2.2.1.symm

/-- C16, at `exampleService` and a node list whose second node exposes the
local address. -/
theorem EnsureLoadBalancer_targets_local_address_witness :
    nodesExpose "192.0.2.1" [otherNode, exampleNode] ∧
    (EnsureLoadBalancer exampleLoadBalancer [] "cluster" exampleService
        [otherNode, exampleNode]).lb.loadBalancers "cluster/default/my-service"
      = some (newLoadBalancerWithPortMappings exampleService "192.0.2.1" "203.0.113.7") :=
  ⟨(EnsureLoadBalancer_targets_local_address exampleLoadBalancer [] "cluster" exampleService
      [otherNode, exampleNode] (by decide)).1,
    (EnsureLoadBalancer_targets_local_address exampleLoadBalancer [] "cluster" exampleService
      [otherNode, exampleNode] (by decide)).2.1⟩

/-- C16 as stated fails: with the node list `[otherNode, exampleNode]` the
only address of the first node is the internal IP `192.0.2.9`, and
`EnsureLoadBalancer` succeeds and maps to `192.0.2.1`, the internal IP of
the second node. -/
theorem EnsureLoadBalancer_not_first_node :
    ([otherNode, exampleNode].head?.map (·.Status.Addresses))
      = some [⟨"InternalIP", "192.0.2.9"⟩] ∧
    (EnsureLoadBalancer exampleLoadBalancer [] "cluster" exampleService
      [otherNode, exampleNode]).err = none ∧
    (EnsureLoadBalancer exampleLoadBalancer [] "cluster" exampleService
        [otherNode, exampleNode]).calls.map (·.call)
      = [.AddPortMapping "" 8080 "TCP" 30080 "192.0.2.1" true
          "cluster/default/my-service/http" 0] ∧
    ((EnsureLoadBalancer exampleLoadBalancer [] "cluster" exampleService
        [otherNode, exampleNode]).loadBalancer.map (·.portMappings.map (·.nodeIP)))
      = some ["192.0.2.1"] := by
  decide

/-- C17: for every service and node list on which `EnsureLoadBalancer`
succeeds, the status returned has exactly one ingress entry, whose IP is the
external IP of the provider, and `GetLoadBalancer` for the same identity on
the resulting provider returns that status and `exists = true`.
`GetLoadBalancer` only reads the registry. -/
theorem EnsureLoadBalancer_status (lb : LoadBalancer) (order : List Nat)
    (clusterName : String) (service : Service) (nodes : List Node)
    (h : (EnsureLoadBalancer lb order clusterName service nodes).err = none) :
    (EnsureLoadBalancer lb order clusterName service nodes).loadBalancer.map (·.status)
      = some ⟨[⟨lb.externalIP, ""⟩]⟩ ∧
    GetLoadBalancer (EnsureLoadBalancer lb order clusterName service nodes).lb clusterName
        service
      = (some ⟨[⟨lb.externalIP, ""⟩]⟩, true) := by
  obtain ⟨_, nodeIP, _, hreg, hret, _⟩ :=
    ensureOrUpdateLoadBalancer_notDelete_ok lb order clusterName service nodes true h
  constructor
  · unfold EnsureLoadBalancer
    rw [hret]
    rfl
  · unfold GetLoadBalancer EnsureLoadBalancer
    simp only [hreg]
    rfl

/-- C17, at `exampleService` and `exampleNode`. -/
theorem EnsureLoadBalancer_status_witness :
    (EnsureLoadBalancer exampleLoadBalancer [] "cluster" exampleService
        [exampleNode]).loadBalancer.map (·.status)
      = some ⟨[⟨"203.0.113.7", ""⟩]⟩ ∧
    GetLoadBalancer
        (EnsureLoadBalancer exampleLoadBalancer [] "cluster" exampleService [exampleNode]).lb
        "cluster" exampleService
      = (some ⟨[⟨"203.0.113.7", ""⟩]⟩, true) :=
  EnsureLoadBalancer_status exampleLoadBalancer [] "cluster" exampleService [exampleNode]
    (by decide)

/-- C18 (amended): for every valid service whose identity has no record in
the registry and a node list with a node that exposes the local address,
`EnsureLoadBalancer` issues no `DeletePortMapping` call, and every call it
issues is the `AddPortMapping` call of a declared port. When it returns no
error, which it does when the calls of the client all succeed, it has issued
the `AddPortMapping` call of every declared port and has stored a record
holding one port mapping for each declared port. -/
theorem EnsureLoadBalancer_creates (lb : LoadBalancer) (order : List Nat)
    (clusterName : String) (service : Service) (nodes : List Node)
    (hval : validateParametersOfLoadBalancer clusterName service nodes = none)
    (hreg : lb.loadBalancers (GetLoadBalancerName clusterName service) = none)
    (hnodes : nodesExpose lb.localAddress nodes) :
    (∀ r ∈ (EnsureLoadBalancer lb order clusterName service nodes).calls,
      r.call.isDelete = false ∧
      ∃ port ∈ service.Spec.Ports,
        r = addRecord (GetLoadBalancerName clusterName service) ⟨port, lb.localAddress⟩) ∧
    ((EnsureLoadBalancer lb order clusterName service nodes).err = none →
      (∀ port ∈ service.Spec.Ports,
        addRecord (GetLoadBalancerName clusterName service) ⟨port, lb.localAddress⟩
          ∈ (EnsureLoadBalancer lb order clusterName service nodes).calls) ∧
      (EnsureLoadBalancer lb order clusterName service nodes).lb.loadBalancers
          (GetLoadBalancerName clusterName service)
        = some ⟨service.Spec.Ports.map (fun port => ⟨port, lb.localAddress⟩),
            ⟨[⟨lb.externalIP, ""⟩]⟩⟩) ∧
    ((∀ hist call, lb.client.respond hist call = none) →
      (EnsureLoadBalancer lb order clusterName service nodes).err = none) := by
  have hnode : (if !false then getFirstNodeInternalIP lb.localAddress nodes else Except.ok "")
      = Except.ok lb.localAddress := by
    simpa using getFirstNodeInternalIP_of_expose lb.localAddress nodes hnodes
  obtain ⟨hcalls, herr, _, _, _, _, hregs⟩ :=
    ensureOrUpdateLoadBalancer_patch lb order clusterName service nodes true false
      lb.localAddress (newLoadBalancerWithoutPortMappings lb.externalIP)
      (newLoadBalancerWithPortMappings service lb.localAddress lb.externalIP) hval hnode
      (Or.inr ⟨hreg, rfl, rfl⟩) rfl
  unfold EnsureLoadBalancer
  refine ⟨?_, ?_, ?_⟩
  · intro r hr
    rw [hcalls] at hr
    rcases patchLoadBalancer_records lb lb.clientLog order _ _ _ r hr with h | h
    · exact absurd h.2 (List.not_mem_nil _)
    · obtain ⟨port, hport, hpm⟩ := List.mem_map.1 h.2.1
      refine ⟨by rw [h.1]; rfl, port, hport, ?_⟩
      rw [h.1, ← hpm]
  · intro h
    rw [herr] at h
    constructor
    · intro port hport
      obtain ⟨toAdd, hperm, hc⟩ := patchLoadBalancer_ok lb lb.clientLog order
        (GetLoadBalancerName clusterName service)
        (newLoadBalancerWithoutPortMappings lb.externalIP).portMappings
        (newLoadBalancerWithPortMappings service lb.localAddress lb.externalIP).portMappings
        List.nodup_nil h
      rw [hcalls, hc]
      apply List.mem_append_right
      apply List.mem_map_of_mem
      rw [hperm.mem_iff, List.mem_filter, mem_foldl_mapInsert]
      refine ⟨Or.inr (List.mem_map_of_mem _ hport), ?_⟩
      simp [newLoadBalancerWithoutPortMappings]
    · rw [(hregs h).1]
      simp [newLoadBalancerWithPortMappings]
  · intro hclient
    rw [herr]
    apply patchLoadBalancer_succeed lb _ order _ _ _ hclient
    intro pm hpm _
    obtain ⟨port, _, rfl⟩ := List.mem_map.1 hpm
    exact Or.inr rfl

/-- C18, at `twoPortService` with the mock client. -/
theorem EnsureLoadBalancer_creates_witness :
    (EnsureLoadBalancer exampleLoadBalancer [] "cluster" twoPortService [exampleNode]).err
      = none ∧
    (EnsureLoadBalancer exampleLoadBalancer [] "cluster" twoPortService [exampleNode]).calls.map
        (·.call)
      = [.AddPortMapping "" 8080 "TCP" 30080 "192.0.2.1" true
          "cluster/default/my-service/http" 0,
        .AddPortMapping "" 53 "UDP" 30053 "192.0.2.1" true
          "cluster/default/my-service/dns" 0] :=
  ⟨(EnsureLoadBalancer_creates exampleLoadBalancer [] "cluster" twoPortService [exampleNode]
      (by decide) (by decide) (by decide)).2.2 mockClient_succeeds,
    by decide⟩

/-- C18 as stated fails: with a valid service of two ports, no record, a
node that exposes the local address and a client whose `AddPortMapping`
fails, `EnsureLoadBalancer` stops after the first call; no call is issued for
the second declared port. -/
theorem EnsureLoadBalancer_creates_stops :
    validateParametersOfLoadBalancer "cluster" twoPortService [exampleNode] = none ∧
    addFailingLoadBalancer.loadBalancers (GetLoadBalancerName "cluster" twoPortService)
      = none ∧
    nodesExpose addFailingLoadBalancer.localAddress [exampleNode] ∧
    (EnsureLoadBalancer addFailingLoadBalancer [] "cluster" twoPortService
        [exampleNode]).calls.map (·.call)
      = [.AddPortMapping "" 8080 "TCP" 30080 "192.0.2.1" true
          "cluster/default/my-service/http" 0] := by
  decide

/-- C19 (amended): for every service that passes validation and whose
identity has no record in the registry, `EnsureLoadBalancerDeleted` issues
no `AddPortMapping` call, and its calls are the `DeletePortMapping` calls,
with external port and protocol, of the declared ports in the order of
declaration, up to the first call that fails. When it returns no error,
which it does when the calls of the client all succeed, it has issued the
call of every declared port. -/
theorem EnsureLoadBalancerDeleted_unknown (lb : LoadBalancer) (order : List Nat)
    (clusterName : String) (service : Service)
    (hval : validateParametersOfLoadBalancer clusterName service [] = none)
    (hreg : lb.loadBalancers (GetLoadBalancerName clusterName service) = none) :
    (EnsureLoadBalancerDeleted lb order clusterName service).calls
      <+: service.Spec.Ports.map (fun port => deleteRecord ⟨port, ""⟩) ∧
    (∀ r ∈ (EnsureLoadBalancerDeleted lb order clusterName service).calls,
      r.call.isAdd = false) ∧
    ((EnsureLoadBalancerDeleted lb order clusterName service).err = none →
      (EnsureLoadBalancerDeleted lb order clusterName service).calls.map (·.call)
        = service.Spec.Ports.map
            (fun port => .DeletePortMapping "" (uint16 port.Port) port.Protocol)) ∧
    ((∀ hist call, lb.client.respond hist call = none) →
      (EnsureLoadBalancerDeleted lb order clusterName service).err = none) := by
  obtain ⟨hcalls, herr, _⟩ :=
    EnsureLoadBalancerDeleted_patch lb order clusterName service
      (newLoadBalancerWithPortMappings service "" lb.externalIP) hval (Or.inr ⟨hreg, rfl⟩)
  have hpre : (EnsureLoadBalancerDeleted lb order clusterName service).calls
      <+: service.Spec.Ports.map (fun port => deleteRecord ⟨port, ""⟩) := by
    rw [hcalls]
    have := patchLoadBalancer_to_empty_prefix lb order (GetLoadBalancerName clusterName service)
      (newLoadBalancerWithPortMappings service "" lb.externalIP).portMappings lb.clientLog
    simpa [newLoadBalancerWithPortMappings, List.map_map, Function.comp_def] using this
  refine ⟨hpre, ?_, ?_, ?_⟩
  · intro r hr
    obtain ⟨port, _, rfl⟩ := List.mem_map.1 (hpre.subset hr)
    rfl
  · intro h
    rw [hcalls, patchLoadBalancer_to_empty lb order _ _ _ (herr ▸ h)]
    simp [newLoadBalancerWithPortMappings, List.map_map, Function.comp_def, deleteRecord]
  · intro hclient
    rw [herr]
    exact patchLoadBalancer_succeed lb _ order _ _ [] hclient (by simp)

/-- C19, at `twoPortService` with the mock client. -/
theorem EnsureLoadBalancerDeleted_unknown_witness :
    (EnsureLoadBalancerDeleted exampleLoadBalancer [] "cluster" twoPortService).err = none ∧
    (EnsureLoadBalancerDeleted exampleLoadBalancer [] "cluster" twoPortService).calls.map
        (·.call)
      = [.DeletePortMapping "" 8080 "TCP", .DeletePortMapping "" 53 "UDP"] :=
  ⟨(EnsureLoadBalancerDeleted_unknown exampleLoadBalancer [] "cluster" twoPortService
      (by decide) (by decide)).2.2.2 mockClient_succeeds,
    by decide⟩

/-- C19 as stated fails: with a valid service of two ports, no record and a
client whose `DeletePortMapping` fails, `EnsureLoadBalancerDeleted` stops
after the first call; no call is issued for the second declared port. -/
theorem EnsureLoadBalancerDeleted_unknown_stops :
    validateParametersOfLoadBalancer "cluster" twoPortService [] = none ∧
    deleteFailingLoadBalancer.loadBalancers (GetLoadBalancerName "cluster" twoPortService)
      = none ∧
    (EnsureLoadBalancerDeleted deleteFailingLoadBalancer [] "cluster" twoPortService).calls.map
        (·.call)
      = [.DeletePortMapping "" 8080 "TCP"] := by
  decide

/-! ## Two schedules of the map iteration -/

/-- Under two schedules of the iteration over the map, `patchLoadBalancer`
issues the same `DeletePortMapping` calls, and when it returns no error
under both, the calls of one run are a permutation of the calls of the
other. -/
theorem patchLoadBalancer_orders (lb : LoadBalancer) (hist : List clientCall)
    (order1 order2 : List Nat) (descPrefix : String) (old new : List portMapping) :
    (patchLoadBalancer lb hist order1 descPrefix old new).1.filter (fun r => r.call.isDelete)
      = (patchLoadBalancer lb hist order2 descPrefix old new).1.filter
          (fun r => r.call.isDelete) ∧
    ((patchLoadBalancer lb hist order1 descPrefix old new).2 = none →
      (patchLoadBalancer lb hist order2 descPrefix old new).2 = none →
      (patchLoadBalancer lb hist order1 descPrefix old new).1.Perm
        (patchLoadBalancer lb hist order2 descPrefix old new).1) := by
  rw [patchLoadBalancer_eq lb hist order1, patchLoadBalancer_eq lb hist order2]
  cases h : (patchRemoveLoop lb hist old (new.foldl mapInsert [])).2.2 with
  | some err => exact ⟨rfl, fun _ _ => List.Perm.refl _⟩
  | none =>
    simp only [h]
    have hadds : ∀ order : List Nat,
        (patchAddLoop lb descPrefix
            (hist ++ (patchRemoveLoop lb hist old (new.foldl mapInsert [])).1.map (·.call))
            (rangeOrder order (patchRemoveLoop lb hist old (new.foldl mapInsert [])).2.1)).1.filter
          (fun r => r.call.isDelete) = [] := by
      intro order
      rw [List.filter_eq_nil_iff]
      intro r hr
      rw [(patchAddLoop_records lb descPrefix _ _ r hr).1]
      simp [addRecord, clientCall.isDelete]
    constructor
    · rw [List.filter_append, List.filter_append, hadds order1, hadds order2]
    · intro h1 h2
      rw [patchAddLoop_calls lb descPrefix _ _ h1, patchAddLoop_calls lb descPrefix _ _ h2]
      apply List.Perm.append_left
      apply List.Perm.map
      exact (rangeOrder_perm order1 _).trans (rangeOrder_perm order2 _).symm

/-- With a record in the registry, two calls that are not deletes and differ
in the flag `ensure` and in the schedule issue the same `DeletePortMapping`
calls, and when both return no error the calls of one are a permutation of
the calls of the other and the registries agree. -/
theorem ensureOrUpdateLoadBalancer_orders (lb : LoadBalancer) (order1 order2 : List Nat)
    (clusterName : String) (service : Service) (nodes : List Node) (ensure1 ensure2 : Bool)
    (o : loadBalancer)
    (hreg : lb.loadBalancers (GetLoadBalancerName clusterName service) = some o) :
    (ensureOrUpdateLoadBalancer lb order1 clusterName service nodes ensure1 false).calls.filter
        (fun r => r.call.isDelete)
      = (ensureOrUpdateLoadBalancer lb order2 clusterName service nodes ensure2
          false).calls.filter (fun r => r.call.isDelete) ∧
    ((ensureOrUpdateLoadBalancer lb order1 clusterName service nodes ensure1 false).err = none →
      (ensureOrUpdateLoadBalancer lb order2 clusterName service nodes ensure2 false).err = none →
      (ensureOrUpdateLoadBalancer lb order1 clusterName service nodes ensure1 false).calls.Perm
        (ensureOrUpdateLoadBalancer lb order2 clusterName service nodes ensure2 false).calls ∧
      (ensureOrUpdateLoadBalancer lb order1 clusterName service nodes ensure1
          false).lb.loadBalancers
        = (ensureOrUpdateLoadBalancer lb order2 clusterName service nodes ensure2
          false).lb.loadBalancers) := by
  cases hval : validateParametersOfLoadBalancer clusterName service nodes with
  | some e =>
    rw [ensureOrUpdateLoadBalancer_of_invalid lb order1 clusterName service nodes ensure1 false e
        hval,
      ensureOrUpdateLoadBalancer_of_invalid lb order2 clusterName service nodes ensure2 false e
        hval]
    exact ⟨rfl, fun _ _ => ⟨List.Perm.refl _, rfl⟩⟩
  | none =>
    by_cases hnodes : nodesExpose lb.localAddress nodes
    · have hnode : (if !false then getFirstNodeInternalIP lb.localAddress nodes
          else Except.ok "") = Except.ok lb.localAddress := by
        simpa using getFirstNodeInternalIP_of_expose lb.localAddress nodes hnodes
      obtain ⟨hc1, he1, _, _, _, _, hr1⟩ :=
        ensureOrUpdateLoadBalancer_patch lb order1 clusterName service nodes ensure1 false
          lb.localAddress o
          (newLoadBalancerWithPortMappings service lb.localAddress lb.externalIP) hval hnode
          (Or.inl hreg) rfl
      obtain ⟨hc2, he2, _, _, _, _, hr2⟩ :=
        ensureOrUpdateLoadBalancer_patch lb order2 clusterName service nodes ensure2 false
          lb.localAddress o
          (newLoadBalancerWithPortMappings service lb.localAddress lb.externalIP) hval hnode
          (Or.inl hreg) rfl
      obtain ⟨hdel, hperm⟩ := patchLoadBalancer_orders lb lb.clientLog order1 order2
        (GetLoadBalancerName clusterName service) o.portMappings
        (newLoadBalancerWithPortMappings service lb.localAddress lb.externalIP).portMappings
      rw [hc1, hc2, he1, he2]
      refine ⟨hdel, fun h1 h2 => ⟨hperm h1 h2, ?_⟩⟩
      rw [(hr1 h1).1, (hr2 h2).1]
    · rw [ensureOrUpdateLoadBalancer_of_no_node lb order1 clusterName service nodes ensure1 hval
          hnodes,
        ensureOrUpdateLoadBalancer_of_no_node lb order2 clusterName service nodes ensure2 hval
          hnodes]
      exact ⟨rfl, fun _ _ => ⟨List.Perm.refl _, rfl⟩⟩

/-! ## Claims about what the operations depend on -/

/-- C21: for every two services that differ only in `Spec.LoadBalancerIP`
and `Spec.LoadBalancerSourceRanges`, with the same nodes, provider (registry
and client) and schedule of the map iteration, the validator gives the same
outcome and `EnsureLoadBalancer` yields the same result: the same returned
load balancer or error, the same client calls and the same provider
afterwards, registry included. -/
theorem EnsureLoadBalancer_ignores_override_and_ranges (lb : LoadBalancer)
    (order : List Nat) (clusterName : String) (s1 s2 : Service) (nodes : List Node)
    (h : differOnlyInIgnoredFields s1 s2) :
    validateParametersOfLoadBalancer clusterName s1 nodes
      = validateParametersOfLoadBalancer clusterName s2 nodes ∧
    EnsureLoadBalancer lb order clusterName s1 nodes
      = EnsureLoadBalancer lb order clusterName s2 nodes := by
  obtain ⟨ns1, n1, a1, ⟨p1, c1, t1, sa1, ip1, r1, pn1, f1⟩⟩ := s1
  obtain ⟨ns2, n2, a2, ⟨p2, c2, t2, sa2, ip2, r2, pn2, f2⟩⟩ := s2
  obtain ⟨h1, h2, h3, h4, h5, h6, h7, h8, h9⟩ := h
  simp only at h1 h2 h3 h4 h5 h6 h7 h8 h9
  subst h1 h2 h3 h4 h5 h6 h7 h8 h9
  exact ⟨rfl, rfl⟩

/-- C21, at `exampleService` and the same service with an external-IP
override and a source range. -/
theorem EnsureLoadBalancer_ignores_override_and_ranges_witness :
    restrictedService.Spec.LoadBalancerIP ≠ exampleService.Spec.LoadBalancerIP ∧
    restrictedService.Spec.LoadBalancerSourceRanges
      ≠ exampleService.Spec.LoadBalancerSourceRanges ∧
    (validateParametersOfLoadBalancer "cluster" exampleService [exampleNode]
        = validateParametersOfLoadBalancer "cluster" restrictedService [exampleNode] ∧
      EnsureLoadBalancer exampleLoadBalancer [] "cluster" exampleService [exampleNode]
        = EnsureLoadBalancer exampleLoadBalancer [] "cluster" restrictedService [exampleNode]) :=
  ⟨by decide, by decide,
    EnsureLoadBalancer_ignores_override_and_ranges exampleLoadBalancer [] "cluster"
      exampleService restrictedService [exampleNode]
      ⟨rfl, rfl, rfl, rfl, rfl, rfl, rfl, rfl, rfl⟩⟩

/-- C22: when the identity has a record in the registry, `UpdateLoadBalancer`
and `EnsureLoadBalancer`, run with the same service, node list, provider
(registry and client) and schedule of the map iteration, return the same
error or none, issue the same client calls and leave the same provider,
registry included. Run with two schedules `order` and `order2` they issue the
same `DeletePortMapping` calls, and when both return no error the calls of
one are a permutation of the calls of the other, so the `AddPortMapping`
calls are the same set, and the registries agree. -/
theorem UpdateLoadBalancer_eq_EnsureLoadBalancer (lb : LoadBalancer) (order order2 : List Nat)
    (clusterName : String) (service : Service) (nodes : List Node) (o : loadBalancer)
    (hreg : lb.loadBalancers (GetLoadBalancerName clusterName service) = some o) :
    (UpdateLoadBalancer lb order clusterName service nodes).err
      = (EnsureLoadBalancer lb order clusterName service nodes).err ∧
    (UpdateLoadBalancer lb order clusterName service nodes).calls
      = (EnsureLoadBalancer lb order clusterName service nodes).calls ∧
    (UpdateLoadBalancer lb order clusterName service nodes).lb
      = (EnsureLoadBalancer lb order clusterName service nodes).lb ∧
    (UpdateLoadBalancer lb order clusterName service nodes).calls.filter
        (fun r => r.call.isDelete)
      = (EnsureLoadBalancer lb order2 clusterName service nodes).calls.filter
          (fun r => r.call.isDelete) ∧
    ((UpdateLoadBalancer lb order clusterName service nodes).err = none →
      (EnsureLoadBalancer lb order2 clusterName service nodes).err = none →
      (UpdateLoadBalancer lb order clusterName service nodes).calls.Perm
        (EnsureLoadBalancer lb order2 clusterName service nodes).calls ∧
      (UpdateLoadBalancer lb order clusterName service nodes).lb.loadBalancers
        = (EnsureLoadBalancer lb order2 clusterName service nodes).lb.loadBalancers) := by
  have heq : ensureOrUpdateLoadBalancer lb order clusterName service nodes false false
      = ensureOrUpdateLoadBalancer lb order clusterName service nodes true false := by
    unfold ensureOrUpdateLoadBalancer
    simp only [hreg]
  have hord := ensureOrUpdateLoadBalancer_orders lb order order2 clusterName service nodes
    false true o hreg
  unfold UpdateLoadBalancer EnsureLoadBalancer
  refine ⟨?_, ?_, ?_, hord.1, hord.2⟩
  · rw [heq]
  · rw [heq]
  · rw [heq]

/-- C22, at the registry left by `EnsureLoadBalancer` for `exampleService`,
with the service `twoPortService` of the same identity. -/
theorem UpdateLoadBalancer_eq_EnsureLoadBalancer_witness :
    (UpdateLoadBalancer
        (EnsureLoadBalancer exampleLoadBalancer [] "cluster" exampleService [exampleNode]).lb
        [] "cluster" twoPortService [exampleNode]).calls.map (·.call)
      = [.AddPortMapping "" 53 "UDP" 30053 "192.0.2.1" true
          "cluster/default/my-service/dns" 0] ∧
    (UpdateLoadBalancer
        (EnsureLoadBalancer exampleLoadBalancer [] "cluster" exampleService [exampleNode]).lb
        [] "cluster" twoPortService [exampleNode]).calls
      = (EnsureLoadBalancer
        (EnsureLoadBalancer exampleLoadBalancer [] "cluster" exampleService [exampleNode]).lb
        [] "cluster" twoPortService [exampleNode]).calls :=
  ⟨by decide,
    (UpdateLoadBalancer_eq_EnsureLoadBalancer
      (EnsureLoadBalancer exampleLoadBalancer [] "cluster" exampleService [exampleNode]).lb
      [] [] "cluster" twoPortService [exampleNode]
      (newLoadBalancerWithPortMappings exampleService "192.0.2.1" "203.0.113.7")
      (by decide)).2.1⟩

/-! ## The gateway device -/

theorem find?_eq_some_of_nodup_map {α β : Type} [DecidableEq β] (f : α → β) (l : List α)
    (hnd : (l.map f).Nodup) (r : α) (hr : r ∈ l) :
    l.find? (fun x => f x = f r) = some r := by
  induction l with
  | nil => simp at hr
  | cons a l ih =>
    rw [List.map_cons, List.nodup_cons] at hnd
    rcases List.mem_cons.1 hr with rfl | hr
    · simp
    · have hne : f a ≠ f r := by
        intro e
        exact hnd.1 (e ▸ List.mem_map_of_mem f hr)
      rw [List.find?_cons]
      simp only [hne, decide_False]
      exact ih hnd.2 hr

theorem find?_key_eq_none {α β : Type} [DecidableEq β] (f : α → β) (l : List α) (k : β) :
    l.find? (fun x => f x = k) = none ↔ ∀ x ∈ l, f x ≠ k := by
  rw [List.find?_eq_none]
  simp

theorem deviceApply_deletes (l : List portMapping) :
    ∀ (d : device) (k : Nat × String),
      ((l.map (fun pm => (deleteRecord pm).call)).foldl deviceApply d) k
        = if k ∈ l.map ruleKey then none else d k := by
  induction l with
  | nil => intro d k; simp
  | cons pm l ih =>
    intro d k
    rw [List.map_cons, List.foldl_cons, ih]
    by_cases hk : k ∈ l.map ruleKey
    · simp [hk]
    · by_cases hpm : k = ruleKey pm
      · simp [hk, hpm, deviceApply, deleteRecord, ruleKey]
      · have hpm2 : ¬ k = (uint16 pm.servicePort.Port, pm.servicePort.Protocol) := hpm
        simp only [List.map_cons, List.mem_cons, hk, hpm, or_self, if_false]
        simp only [deviceApply, deleteRecord, hpm2, if_false]

theorem deviceApply_adds (descPrefix : String) (l : List portMapping) :
    ∀ (d : device) (k : Nat × String), (l.map ruleKey).Nodup →
      ((l.map (fun pm => (addRecord descPrefix pm).call)).foldl deviceApply d) k
        = match l.find? (fun r => ruleKey r = k) with
          | some r => some (ruleEntry descPrefix r)
          | none => d k := by
  induction l with
  | nil => intro d k _; simp
  | cons pm l ih =>
    intro d k hnd
    rw [List.map_cons, List.nodup_cons] at hnd
    rw [List.map_cons, List.foldl_cons, ih _ _ hnd.2, List.find?_cons]
    by_cases hpm : ruleKey pm = k
    · have hnone : l.find? (fun r => ruleKey r = k) = none := by
        rw [find?_key_eq_none]
        intro x hx e
        exact hnd.1 (hpm ▸ e ▸ List.mem_map_of_mem ruleKey hx)
      have hk : k = (uint16 pm.servicePort.Port, pm.servicePort.Protocol) := hpm.symm
      simp only [hnone, hpm, decide_True]
      simp only [deviceApply, addRecord, hk, if_true, ruleEntry]
    · simp only [hpm, decide_False]
      cases hfind : l.find? (fun r => ruleKey r = k) with
      | some r => rfl
      | none =>
        have hk : ¬ k = (uint16 pm.servicePort.Port, pm.servicePort.Protocol) :=
          fun e => hpm e.symm
        simp only [deviceApply, addRecord, hk, if_false]

/-- The device after the calls of a complete diff: from the device that
holds `old`, the deletes for `old` minus `new` and then the adds for `new`
minus `old`, in any order, lead to the device that holds `new`, when the keys
are unique within `old` and within `new`. -/
theorem device_after_diff (descPrefix : String) (old new toAdd : List portMapping)
    (hold : (old.map ruleKey).Nodup) (hnew : (new.map ruleKey).Nodup)
    (hperm : toAdd.Perm (new.filter (fun x => x ∉ old))) :
    (((old.filter (fun x => x ∉ new)).map deleteRecord
        ++ toAdd.map (addRecord descPrefix)).map (·.call)).foldl deviceApply
        (deviceOf descPrefix old)
      = deviceOf descPrefix new := by
  funext k
  have hsub : ∀ x, x ∈ toAdd ↔ x ∈ new ∧ x ∉ old := by
    intro x
    rw [hperm.mem_iff, List.mem_filter]
    simp
  have hnd : (toAdd.map ruleKey).Nodup :=
    ((hperm.map ruleKey).nodup_iff).2 ((List.filter_sublist _).map ruleKey |>.nodup hnew)
  rw [List.map_append, List.map_map, List.map_map, List.foldl_append]
  have e1 : ((·.call) ∘ deleteRecord) = fun pm : portMapping => (deleteRecord pm).call := rfl
  have e2 : ((·.call) ∘ addRecord descPrefix)
      = fun pm : portMapping => (addRecord descPrefix pm).call := rfl
  rw [e1, e2, deviceApply_adds descPrefix toAdd _ k hnd, deviceApply_deletes]
  unfold deviceOf
  cases hfn : new.find? (fun r => ruleKey r = k) with
  | some r =>
    have hrn : r ∈ new := List.mem_of_find?_eq_some hfn
    have hrk : ruleKey r = k := by simpa using List.find?_some hfn
    subst hrk
    by_cases hro : r ∈ old
    · have h1 : toAdd.find? (fun x => ruleKey x = ruleKey r) = none := by
        rw [find?_key_eq_none]
        intro x hx e
        have hxn := (hsub x).1 hx
        have hfx := find?_eq_some_of_nodup_map ruleKey new hnew x hxn.1
        rw [e, hfn] at hfx
        cases hfx
        exact hxn.2 hro
      have h2 : ruleKey r ∉ (old.filter (fun x => x ∉ new)).map ruleKey := by
        intro hmem
        obtain ⟨x, hx, e⟩ := List.mem_map.1 hmem
        rw [List.mem_filter] at hx
        have hfx := find?_eq_some_of_nodup_map ruleKey old hold x hx.1
        rw [e, find?_eq_some_of_nodup_map ruleKey old hold r hro] at hfx
        cases hfx
        exact (by simpa using hx.2 : r ∉ new) hrn
      simp only [h1, h2, if_false, find?_eq_some_of_nodup_map ruleKey old hold r hro,
        Option.map_some']
    · have h1 : toAdd.find? (fun x => ruleKey x = ruleKey r) = some r :=
        find?_eq_some_of_nodup_map ruleKey toAdd hnd r ((hsub r).2 ⟨hrn, hro⟩)
      simp only [h1, Option.map_some']
  | none =>
    rw [find?_key_eq_none] at hfn
    have h1 : toAdd.find? (fun x => ruleKey x = k) = none := by
      rw [find?_key_eq_none]
      intro x hx
      exact hfn x ((hsub x).1 hx).1
    simp only [h1, Option.map_none']
    by_cases hk : k ∈ (old.filter (fun x => x ∉ new)).map ruleKey
    · simp only [hk, if_true]
    · simp only [hk, if_false]
      cases hfo : old.find? (fun r => ruleKey r = k) with
      | none => rfl
      | some o =>
        exfalso
        have hoo : o ∈ old := List.mem_of_find?_eq_some hfo
        have hok : ruleKey o = k := by simpa using List.find?_some hfo
        apply hk
        refine List.mem_map.2 ⟨o, ?_, hok⟩
        rw [List.mem_filter]
        refine ⟨hoo, ?_⟩
        have : o ∉ new := fun hon => hfn o hon hok
        simpa using this

/-! ## Claims about the device, the registry invariant and the frame -/

/-- C23 (amended): for every old and new list in which no two rules of old
share an (external port, protocol) pair as sent to the device and no two
rules of new share one, a client whose calls all succeed, and every entry of
new that is not in old targeting the empty node IP or the local address,
`patchLoadBalancer` returns no error; its calls are the deletes for the
rules of old that are not in new followed by the adds for the rules of new
that are not in old, so every `DeletePortMapping` call whose key is the key
of a rule `r` of new is followed by the `AddPortMapping` call for `r`; and a
device keyed by (external port, protocol) that holds exactly old before the
calls holds exactly new after them. -/
theorem patchLoadBalancer_converges (lb : LoadBalancer) (hist : List clientCall)
    (order : List Nat) (descPrefix : String) (old new : List portMapping)
    (hold : (old.map ruleKey).Nodup) (hnew : (new.map ruleKey).Nodup)
    (hclient : ∀ hist call, lb.client.respond hist call = none)
    (hlocal : ∀ pm ∈ new, pm ∉ old → pm.nodeIP = "" ∨ pm.nodeIP = lb.localAddress) :
    (patchLoadBalancer lb hist order descPrefix old new).2 = none ∧
    (∃ toAdd : List portMapping,
      toAdd.Perm (new.filter (fun x => x ∉ old)) ∧
      (patchLoadBalancer lb hist order descPrefix old new).1
        = (old.filter (fun x => x ∉ new)).map deleteRecord
          ++ toAdd.map (addRecord descPrefix) ∧
      ∀ o ∈ old.filter (fun x => x ∉ new), ∀ r ∈ new, ruleKey o = ruleKey r → r ∈ toAdd) ∧
    ((patchLoadBalancer lb hist order descPrefix old new).1.map (·.call)).foldl deviceApply
        (deviceOf descPrefix old)
      = deviceOf descPrefix new := by
  have hold2 : old.Nodup := List.Nodup.of_map ruleKey hold
  have hnew2 : new.Nodup := List.Nodup.of_map ruleKey hnew
  have herr := patchLoadBalancer_succeed lb hist order descPrefix old new hclient hlocal
  obtain ⟨toAdd, hperm, hcalls⟩ :=
    patchLoadBalancer_ok lb hist order descPrefix old new hold2 herr
  rw [foldl_mapInsert_of_nodup new [] (by simpa using hnew2)] at hperm
  have hperm2 : toAdd.Perm (new.filter (fun x => x ∉ old)) := by simpa using hperm
  refine ⟨herr, ⟨toAdd, hperm2, hcalls, ?_⟩, ?_⟩
  · intro o ho r hr hkey
    rw [List.mem_filter] at ho
    rw [hperm2.mem_iff, List.mem_filter]
    refine ⟨hr, ?_⟩
    have hro : r ∉ old := by
      intro hro
      have h1 := find?_eq_some_of_nodup_map ruleKey old hold o ho.1
      rw [hkey, find?_eq_some_of_nodup_map ruleKey old hold r hro] at h1
      cases h1
      exact (by simpa using ho.2 : o ∉ new) hr
    simpa using hro
  · rw [hcalls]
    exact device_after_diff descPrefix old new toAdd hold hnew hperm2

/-- C23, at a rule replaced by a rule with the same external port and
protocol and another node port. -/
theorem patchLoadBalancer_converges_witness :
    ruleKey mappingA = ruleKey mappingC ∧
    (patchLoadBalancer testLoadBalancer [] [] "foo" [mappingA] [mappingC]).1.map (·.call)
      = [.DeletePortMapping "" 12345 "TCP",
          .AddPortMapping "" 12345 "TCP" 23456 "192.0.2.1" true "foo/svc-port-1" 0] ∧
    ((patchLoadBalancer testLoadBalancer [] [] "foo" [mappingA] [mappingC]).1.map
        (·.call)).foldl deviceApply (deviceOf "foo" [mappingA])
      = deviceOf "foo" [mappingC] :=
  ⟨by decide, by decide,
    (patchLoadBalancer_converges testLoadBalancer [] [] "foo" [mappingA] [mappingC]
      (by decide) (by decide) mockClient_succeeds (by decide)).2.2⟩

/-- C23 as stated fails: with one old rule, one new rule of the same key
that targets another host, and the mock client, whose calls all succeed, the
old rule is deleted and the add of the new rule is refused: the device that
held old holds nothing under the key, and new has a rule for it. -/
theorem patchLoadBalancer_does_not_converge :
    ([mappingA].map ruleKey).Nodup ∧ ([mappingOtherHost].map ruleKey).Nodup ∧
    (∀ hist call, testLoadBalancer.client.respond hist call = none) ∧
    ruleKey mappingA = ruleKey mappingOtherHost ∧
    (patchLoadBalancer testLoadBalancer [] [] "foo" [mappingA]
        [mappingOtherHost]).1.map (·.call)
      = [.DeletePortMapping "" 12345 "TCP"] ∧
    (((patchLoadBalancer testLoadBalancer [] [] "foo" [mappingA] [mappingOtherHost]).1.map
        (·.call)).foldl deviceApply (deviceOf "foo" [mappingA])) (12345, "TCP") = none ∧
    deviceOf "foo" [mappingOtherHost] (12345, "TCP")
      = some ⟨34567, "192.0.2.2", true, "foo/svc-port-1", 0⟩ :=
  ⟨by decide, by decide, mockClient_succeeds, by decide, by decide, by decide, by decide⟩

/-- The registry after a call of `ensureOrUpdateLoadBalancer`: the local
address and the external IP are kept, and the registry is kept or changes at
the identity of the service only, to no record, to the empty load balancer
(delete) or to the load balancer of a valid service at the local address. -/
theorem ensureOrUpdateLoadBalancer_registry (lb : LoadBalancer) (order : List Nat)
    (clusterName : String) (service : Service) (nodes : List Node) (ensure isDelete : Bool) :
    (ensureOrUpdateLoadBalancer lb order clusterName service nodes ensure isDelete).lb.localAddress
      = lb.localAddress ∧
    (ensureOrUpdateLoadBalancer lb order clusterName service nodes ensure isDelete).lb.externalIP
      = lb.externalIP ∧
    ((ensureOrUpdateLoadBalancer lb order clusterName service nodes ensure
        isDelete).lb.loadBalancers = lb.loadBalancers ∨
      ∃ record : Option loadBalancer,
        (record = none ∨ record = some (newLoadBalancerWithoutPortMappings lb.externalIP) ∨
          (validateParametersOfLoadBalancer clusterName service nodes = none ∧
            record = some (newLoadBalancerWithPortMappings service lb.localAddress
              lb.externalIP))) ∧
        (ensureOrUpdateLoadBalancer lb order clusterName service nodes ensure
            isDelete).lb.loadBalancers
          = fun k => if k = GetLoadBalancerName clusterName service then record
              else lb.loadBalancers k) := by
  rcases ensureOrUpdateLoadBalancer_cases lb order clusterName service nodes ensure isDelete
    with ⟨e, he⟩ | ⟨hval, nodeIP, o, hnode, hold⟩
  · rw [he]
    exact ⟨rfl, rfl, Or.inl rfl⟩
  · obtain ⟨_, herr, _, hlocal, hext, _, hregs⟩ :=
      ensureOrUpdateLoadBalancer_patch lb order clusterName service nodes ensure isDelete
        nodeIP o _ hval hnode hold rfl
    refine ⟨hlocal, hext, ?_⟩
    cases hp : (patchLoadBalancer lb lb.clientLog order (GetLoadBalancerName clusterName service)
        o.portMappings
        (if isDelete then newLoadBalancerWithoutPortMappings lb.externalIP
          else newLoadBalancerWithPortMappings service nodeIP lb.externalIP).portMappings).2 with
    | some e =>
      left
      rcases ensureOrUpdateLoadBalancer_shape lb order clusterName service nodes ensure isDelete
        with ⟨_, h⟩ | ⟨_, _, _, _, h⟩
      · exact h
      · apply h
        rw [herr, hp]
        exact Option.some_ne_none e
    | none =>
      right
      rw [(hregs hp).1]
      cases isDelete with
      | true =>
        cases hreg : (lb.loadBalancers (GetLoadBalancerName clusterName service)).isSome with
        | true => exact ⟨none, Or.inl rfl, by simp⟩
        | false => exact ⟨_, Or.inr (Or.inl rfl), by simp⟩
      | false =>
        have hip : nodeIP = lb.localAddress :=
          (getFirstNodeInternalIP_ok lb.localAddress nodes nodeIP (by simpa using hnode)).1
        subst hip
        exact ⟨_, Or.inr (Or.inr ⟨hval, rfl⟩), by simp⟩

theorem ensureOrUpdateLoadBalancer_invariant (lb : LoadBalancer) (order : List Nat)
    (clusterName : String) (service : Service) (nodes : List Node) (ensure isDelete : Bool)
    (h : registryInvariant lb) :
    registryInvariant
      (ensureOrUpdateLoadBalancer lb order clusterName service nodes ensure isDelete).lb := by
  obtain ⟨hlocal, hext, hreg⟩ :=
    ensureOrUpdateLoadBalancer_registry lb order clusterName service nodes ensure isDelete
  intro name record hrec
  rw [hlocal, hext]
  rcases hreg with hreg | ⟨stored, hstored, hreg⟩
  · rw [hreg] at hrec
    exact h name record hrec
  · rw [hreg] at hrec
    simp only at hrec
    split at hrec
    · subst hrec
      rcases hstored with hs | hs | ⟨hval, hs⟩
      · cases hs
      · cases hs
        exact ⟨fun pm hpm => absurd hpm (List.not_mem_nil _), rfl⟩
      · cases hs
        refine ⟨?_, rfl⟩
        intro pm hpm
        obtain ⟨port, hport, rfl⟩ := List.mem_map.1 hpm
        exact ⟨rfl, ((validateParametersOfLoadBalancer_eq_none_iff clusterName service nodes).1
          hval).2.2.2.2.2.2 port hport⟩
    · exact h name record hrec

theorem operation_apply_invariant (lb : LoadBalancer) (op : operation)
    (h : registryInvariant lb) : registryInvariant (op.apply lb) := by
  cases op with
  | GetLoadBalancer clusterName service => exact h
  | EnsureLoadBalancer order clusterName service nodes =>
    exact ensureOrUpdateLoadBalancer_invariant lb order clusterName service nodes true false h
  | UpdateLoadBalancer order clusterName service nodes =>
    exact ensureOrUpdateLoadBalancer_invariant lb order clusterName service nodes false false h
  | EnsureLoadBalancerDeleted order clusterName service =>
    exact ensureOrUpdateLoadBalancer_invariant lb order clusterName service [] true true h

theorem operation_apply_addresses (lb : LoadBalancer) (op : operation) :
    (op.apply lb).localAddress = lb.localAddress ∧ (op.apply lb).externalIP = lb.externalIP := by
  cases op with
  | GetLoadBalancer clusterName service => exact ⟨rfl, rfl⟩
  | EnsureLoadBalancer order clusterName service nodes =>
    exact ⟨(ensureOrUpdateLoadBalancer_registry lb order clusterName service nodes true false).1,
      (ensureOrUpdateLoadBalancer_registry lb order clusterName service nodes true false).2.1⟩
  | UpdateLoadBalancer order clusterName service nodes =>
    exact ⟨(ensureOrUpdateLoadBalancer_registry lb order clusterName service nodes false false).1,
      (ensureOrUpdateLoadBalancer_registry lb order clusterName service nodes false false).2.1⟩
  | EnsureLoadBalancerDeleted order clusterName service =>
    exact ⟨(ensureOrUpdateLoadBalancer_registry lb order clusterName service [] true true).1,
      (ensureOrUpdateLoadBalancer_registry lb order clusterName service [] true true).2.1⟩

theorem runOperations_invariant (ops : List operation) :
    ∀ lb : LoadBalancer, registryInvariant lb →
      registryInvariant (runOperations lb ops) ∧
      (runOperations lb ops).localAddress = lb.localAddress ∧
      (runOperations lb ops).externalIP = lb.externalIP := by
  induction ops with
  | nil => intro lb h; exact ⟨h, rfl, rfl⟩
  | cons op ops ih =>
    intro lb h
    obtain ⟨h1, h2, h3⟩ := ih (op.apply lb) (operation_apply_invariant lb op h)
    obtain ⟨h4, h5⟩ := operation_apply_addresses lb op
    exact ⟨h1, h2.trans h4, h3.trans h5⟩

/-- C24: in every state reached from a provider with an empty registry by
a sequence of `GetLoadBalancer`, `EnsureLoadBalancer`, `UpdateLoadBalancer`
and `EnsureLoadBalancerDeleted` calls, with any arguments and any client,
every port mapping stored in a record of the registry has the local address
of the provider as node IP and a service port that passes the per-port
checks of the validator (protocol `TCP` or `UDP`, target port not of type
string, node port not zero), and the status of every record is the single
ingress entry with the external IP of the provider. -/
theorem registry_invariant (lb : LoadBalancer) (ops : List operation)
    (hempty : ∀ name, lb.loadBalancers name = none) :
    ∀ name record, (runOperations lb ops).loadBalancers name = some record →
      (∀ pm ∈ record.portMappings,
        pm.nodeIP = lb.localAddress ∧
        (pm.servicePort.Protocol = "TCP" ∨ pm.servicePort.Protocol = "UDP") ∧
        pm.servicePort.TargetPort.Typ ≠ intstrString ∧ pm.servicePort.NodePort ≠ 0) ∧
      record.status = ⟨[⟨lb.externalIP, ""⟩]⟩ := by
  have h0 : registryInvariant lb := by
    intro name record hrec
    rw [hempty name] at hrec
    cases hrec
  obtain ⟨h1, h2, h3⟩ := runOperations_invariant ops lb h0
  intro name record hrec
  have := h1 name record hrec
  rw [h2, h3] at this
  exact this

/-- C24, at a sequence of calls that leaves two records: one created by
`EnsureLoadBalancer` and replaced by `UpdateLoadBalancer`, one created by
`EnsureLoadBalancerDeleted` for an identity without record. -/
theorem registry_invariant_witness :
    (runOperations exampleLoadBalancer
        [.EnsureLoadBalancer [] "cluster" exampleService [otherNode, exampleNode],
          .GetLoadBalancer "cluster" exampleService,
          .UpdateLoadBalancer [] "cluster" twoPortService [exampleNode],
          .EnsureLoadBalancerDeleted [] "other" exampleService]).loadBalancers
        "cluster/default/my-service"
      = some (newLoadBalancerWithPortMappings twoPortService "192.0.2.1" "203.0.113.7") ∧
    (runOperations exampleLoadBalancer
        [.EnsureLoadBalancer [] "cluster" exampleService [otherNode, exampleNode],
          .GetLoadBalancer "cluster" exampleService,
          .UpdateLoadBalancer [] "cluster" twoPortService [exampleNode],
          .EnsureLoadBalancerDeleted [] "other" exampleService]).loadBalancers
        "other/default/my-service"
      = some (newLoadBalancerWithoutPortMappings "203.0.113.7") ∧
    ((∀ pm ∈ (newLoadBalancerWithPortMappings twoPortService "192.0.2.1"
          "203.0.113.7").portMappings,
        pm.nodeIP = exampleLoadBalancer.localAddress ∧
        (pm.servicePort.Protocol = "TCP" ∨ pm.servicePort.Protocol = "UDP") ∧
        pm.servicePort.TargetPort.Typ ≠ intstrString ∧ pm.servicePort.NodePort ≠ 0) ∧
      (newLoadBalancerWithPortMappings twoPortService "192.0.2.1" "203.0.113.7").status
        = ⟨[⟨exampleLoadBalancer.externalIP, ""⟩]⟩) :=
  ⟨by decide, by decide,
    registry_invariant exampleLoadBalancer
      [.EnsureLoadBalancer [] "cluster" exampleService [otherNode, exampleNode],
        .GetLoadBalancer "cluster" exampleService,
        .UpdateLoadBalancer [] "cluster" twoPortService [exampleNode],
        .EnsureLoadBalancerDeleted [] "other" exampleService]
      (fun _ => rfl) "cluster/default/my-service"
      (newLoadBalancerWithPortMappings twoPortService "192.0.2.1" "203.0.113.7")
      (by decide)⟩

/-- C25: for every call of `GetLoadBalancer`, `EnsureLoadBalancer`,
`UpdateLoadBalancer` or `EnsureLoadBalancerDeleted` for a service with
identity X, with any result, the registry holds for every identity Y
different from X what it held before: the same record or no record, and
`GetLoadBalancer` for a service of another identity reports the same
existence and status. -/
theorem other_identities_unchanged (lb : LoadBalancer) (op : operation) (name : String)
    (hname : name ≠ op.identity) :
    (op.apply lb).loadBalancers name = lb.loadBalancers name ∧
    ∀ clusterName service, GetLoadBalancerName clusterName service = name →
      GetLoadBalancer (op.apply lb) clusterName service
        = GetLoadBalancer lb clusterName service := by
  have key : (op.apply lb).loadBalancers name = lb.loadBalancers name := by
    have frame : ∀ (order : List Nat) (clusterName : String) (service : Service)
        (nodes : List Node) (ensure isDelete : Bool),
        name ≠ GetLoadBalancerName clusterName service →
        (ensureOrUpdateLoadBalancer lb order clusterName service nodes ensure
          isDelete).lb.loadBalancers name = lb.loadBalancers name := by
      intro order clusterName service nodes ensure isDelete hne
      rcases (ensureOrUpdateLoadBalancer_registry lb order clusterName service nodes ensure
        isDelete).2.2 with h | ⟨_, _, h⟩
      · rw [h]
      · rw [h]
        simp only [hne, if_false]
    cases op with
    | GetLoadBalancer clusterName service => rfl
    | EnsureLoadBalancer order clusterName service nodes => exact frame _ _ _ _ _ _ hname
    | UpdateLoadBalancer order clusterName service nodes => exact frame _ _ _ _ _ _ hname
    | EnsureLoadBalancerDeleted order clusterName service => exact frame _ _ _ _ _ _ hname
  refine ⟨key, ?_⟩
  intro clusterName service hs
  unfold GetLoadBalancer
  simp only [hs, key]

/-- C25, at a registry with a record for `cluster/default/my-service` and a
delete for the same service in another cluster. -/
theorem other_identities_unchanged_witness :
    ((operation.EnsureLoadBalancerDeleted [] "other" exampleService).apply
        (EnsureLoadBalancer exampleLoadBalancer [] "cluster" exampleService
          [exampleNode]).lb).loadBalancers "cluster/default/my-service"
      = some (newLoadBalancerWithPortMappings exampleService "192.0.2.1" "203.0.113.7") ∧
    ((operation.EnsureLoadBalancerDeleted [] "other" exampleService).apply
        (EnsureLoadBalancer exampleLoadBalancer [] "cluster" exampleService
          [exampleNode]).lb).loadBalancers "cluster/default/my-service"
      = (EnsureLoadBalancer exampleLoadBalancer [] "cluster" exampleService
          [exampleNode]).lb.loadBalancers "cluster/default/my-service" :=
  ⟨by decide,
    (other_identities_unchanged
      (EnsureLoadBalancer exampleLoadBalancer [] "cluster" exampleService [exampleNode]).lb
      (.EnsureLoadBalancerDeleted [] "other" exampleService) "cluster/default/my-service"
      (by decide)).1⟩

/-- The identity of a service is the joined string `cluster/namespace/name`,
the key of the registry: a cluster name or namespace that contains `/` can
give two different triples the same identity, and so the same record. -/
theorem GetLoadBalancerName_joins :
    GetLoadBalancerName "a/b" { exampleService with Namespace := "c" }
      = GetLoadBalancerName "a" { exampleService with Namespace := "b/c" } := by
  decide

end Edge
